import Mathlib

/-!
Verification of the patient-context summarization and dataset-generation
pipeline of the `fhir_dashboard` package (`PatientContextBuilder`,
`DatasetBuilder`, templates, formatters, LLM client).

The Python source is shallowly embedded: JSON-shaped data becomes the
`Json` inductive; Python expressions that can raise become values of
`Py α := Except String α` where the error string names the Python
exception; `datetime.now()` becomes an explicit `Date` parameter.
Numeric JSON payloads are modelled as integers (the float-specific
rendering branch of observation values is outside the model).
-/

namespace FhirDashboard

/-- Calendar date, standing for Python `datetime` values of which the
pipeline only ever reads year, month and day. -/
structure Date where
  year : Int
  month : Nat
  day : Nat
deriving DecidableEq, Repr

/-- JSON value, the shape of FHIR bundles and of formatter output records. -/
inductive Json where
  | null
  | bool (b : Bool)
  | num (n : Int)
  | str (s : String)
  | arr (elts : List Json)
  | obj (fields : List (String × Json))

/-- Python-style computation: either a value or a raised exception,
identified by its message. -/
abbrev Py (α : Type) : Type := Except String α

/-- Apostrophe character, written with an escape so that source text and
string literals stay free of bare quote marks. -/
def apos : String := "\u0027"

mutual

/-- Python `repr` of a JSON value (used when containers are rendered
inside f-strings). -/
def Json.pyRepr : Json → String
  | .null => "None"
  | .bool b => if b then "True" else "False"
  | .num n => toString n
  | .str s => apos ++ s ++ apos
  | .arr xs => "[" ++ String.intercalate ", " (pyReprList xs) ++ "]"
  | .obj fs => "\x7b" ++ String.intercalate ", " (pyReprFields fs) ++ "\x7d"

/-- `repr` of each element of a JSON array. -/
def pyReprList : List Json → List String
  | [] => []
  | x :: xs => x.pyRepr :: pyReprList xs

/-- `repr` of each key/value pair of a JSON object. -/
def pyReprFields : List (String × Json) → List String
  | [] => []
  | (k, v) :: fs => (apos ++ k ++ apos ++ ": " ++ v.pyRepr) :: pyReprFields fs

end

/-- Python `str()` as used by f-string interpolation. -/
def Json.pyStr : Json → String
  | .str s => s
  | j => j.pyRepr

example : Json.pyStr (.arr [.num 3, .str "a"]) = "[3, " ++ apos ++ "a" ++ apos ++ "]" := by rfl

/-- Characters removed by Python `str.strip()` on ASCII text. -/
def pyIsSpace (c : Char) : Bool :=
  c = ' ' || c = '\t' || c = '\n' || c = '\r' || c = '\x0b' || c = '\x0c'

/-- Python `str.strip()`. -/
def pyStrip (s : String) : String :=
  String.mk (((s.toList.dropWhile pyIsSpace).reverse.dropWhile pyIsSpace).reverse)

/-- Gregorian leap-year rule, as used by Python `datetime` validation. -/
def isLeapYear (y : Int) : Bool :=
  (y % 4 = 0 && y % 100 ≠ 0) || y % 400 = 0

/-- Number of days in a month of a given year. -/
def daysInMonth (y : Int) (m : Nat) : Nat :=
  if m = 2 then (if isLeapYear y then 29 else 28)
  else if m = 4 || m = 6 || m = 9 || m = 11 then 30
  else 31

/-- Ranges accepted by the Python `datetime` constructor. -/
def validDate (y : Int) (m d : Nat) : Bool :=
  1 ≤ y && y ≤ 9999 && 1 ≤ m && m ≤ 12 && 1 ≤ d && d ≤ daysInMonth y m

/-- Split of a character list at every occurrence of a separator,
matching Python `str.split(sep)` for a one-character separator. -/
def splitListOn (sep : Char) : List Char → List (List Char)
  | [] => [[]]
  | c :: cs =>
    let r := splitListOn sep cs
    if c = sep then [] :: r
    else match r with
      | [] => [[c]]
      | g :: gs => (c :: g) :: gs

/-- String split at a one-character separator. -/
def splitOnCh (sep : Char) (s : String) : List String :=
  (splitListOn sep s.toList).map String.mk

/-- Decimal value of one digit character. -/
def charDigit (c : Char) : Option Nat :=
  if '0' ≤ c && c ≤ '9' then some (c.toNat - 48) else none

/-- Accumulating loop of `digitsToNat`. -/
def digitsToNatGo : List Char → Nat → Option Nat
  | [], acc => some acc
  | c :: cs, acc =>
    match charDigit c with
    | some d => digitsToNatGo cs (acc * 10 + d)
    | none => none

/-- Decimal value of a digit list, `none` when empty or non-numeric. -/
def digitsToNat : List Char → Option Nat
  | [] => none
  | cs => digitsToNatGo cs 0

/-- Numeric parse of a string of decimal digits. -/
def strToNat (s : String) : Option Nat := digitsToNat s.toList

/-- Python `datetime.strptime(s, "%Y-%m-%d")`: exactly four year digits,
one or two month and day digits, then calendar validation. -/
def strptimeYMD (s : String) : Option Date :=
  match splitOnCh '-' s with
  | [ys, ms, ds] =>
    if ys.length = 4 && (ms.length = 1 || ms.length = 2)
        && (ds.length = 1 || ds.length = 2) then
      match strToNat ys, strToNat ms, strToNat ds with
      | some y, some m, some d =>
        if validDate y m d then some ⟨y, m, d⟩ else none
      | _, _, _ => none
    else none
  | _ => none

/-- Two zero-padded digits in the range `lo..hi`. -/
def validTwoDigits (s : String) (lo hi : Nat) : Bool :=
  s.length = 2 && (match strToNat s with
    | some n => lo ≤ n && n ≤ hi
    | none => false)

/-- Fractional-second digits after an optional dot. -/
def validSeconds (s : String) : Bool :=
  match splitOnCh '.' s with
  | [sec] => validTwoDigits sec 0 59
  | [sec, frac] => validTwoDigits sec 0 59 && frac.length > 0 && (strToNat frac).isSome
  | _ => false

/-- The clock part `HH:MM[:SS[.ffffff]]` of an ISO datetime. -/
def validClock (s : String) : Bool :=
  match splitOnCh ':' s with
  | [h, m] => validTwoDigits h 0 23 && validTwoDigits m 0 59
  | [h, m, sec] => validTwoDigits h 0 23 && validTwoDigits m 0 59 && validSeconds sec
  | _ => false

/-- Time-of-day with an optional `+HH:MM` offset, the ISO time forms the
synthetic bundles produce (a `Z` suffix is rewritten to `+00:00` by the
callers before parsing). -/
def validTimePart (s : String) : Bool :=
  match splitOnCh '+' s with
  | [t] => validClock t
  | [t, off] => validClock t && (match splitOnCh ':' off with
    | [oh, om] => validTwoDigits oh 0 23 && validTwoDigits om 0 59
    | _ => false)
  | _ => false

/-- Strict `YYYY-MM-DD` date as accepted by `datetime.fromisoformat`. -/
def fromisoDate (s : String) : Option Date :=
  match splitOnCh '-' s with
  | [ys, ms, ds] =>
    if ys.length = 4 && ms.length = 2 && ds.length = 2 then
      match strToNat ys, strToNat ms, strToNat ds with
      | some y, some m, some d =>
        if validDate y m d then some ⟨y, m, d⟩ else none
      | _, _, _ => none
    else none
  | _ => none

/-- Python `datetime.fromisoformat`, restricted to the date component the
pipeline reads; the time component is validated and discarded. -/
def fromisoformat (s : String) : Option Date :=
  match splitOnCh 'T' s with
  | [d] => fromisoDate d
  | [d, t] => if validTimePart t then fromisoDate d else none
  | _ => none

/-- Natural number zero-padded to two digits. -/
def pad2 (n : Nat) : String :=
  if n < 10 then "0" ++ toString n else toString n

/-- Year zero-padded to four digits. -/
def pad4 (y : Int) : String :=
  let s := toString y
  if s.length ≥ 4 then s else String.mk (List.replicate (4 - s.length) '0') ++ s

/-- Python `strftime("%d/%m/%Y")`. -/
def Date.strftimeDMY (d : Date) : String :=
  pad2 d.day ++ "/" ++ pad2 d.month ++ "/" ++ pad4 d.year

example : strptimeYMD "1990-06-15" = some ⟨1990, 6, 15⟩ := by rfl
example : strptimeYMD "1990-02-30" = none := by rfl
example : fromisoformat "2001-03-04T05:06:07+00:00" = some ⟨2001, 3, 4⟩ := by rfl
example : Date.strftimeDMY ⟨1990, 6, 15⟩ = "15/06/1990" := by rfl

/-- Python truthiness of a JSON value. -/
def Json.truthy : Json → Bool
  | .null => false
  | .bool b => b
  | .num n => n != 0
  | .str s => s != ""
  | .arr xs => !xs.isEmpty
  | .obj fs => !fs.isEmpty

/-- Key lookup in the field list of a JSON object. -/
def lookupField (fs : List (String × Json)) (k : String) : Option Json :=
  (fs.find? (fun p => p.1 == k)).map (fun p => p.2)

/-- Python `x.get(k, d)`: defined on dict values only, raises
`AttributeError` on anything else. -/
def Json.getD (j : Json) (k : String) (d : Json) : Py Json :=
  match j with
  | .obj fs => .ok ((lookupField fs k).getD d)
  | _ => .error "AttributeError: get"

/-- Python `x.get(k)` with the default `None`. -/
def Json.getN (j : Json) (k : String) : Py Json := j.getD k .null

/-- Python subscript `x[k]` with a string key. -/
def Json.item (j : Json) (k : String) : Py Json :=
  match j with
  | .obj fs =>
    (match lookupField fs k with
     | some v => .ok v
     | none => .error "KeyError")
  | _ => .error "TypeError: subscript"

/-- Python subscript `x[i]` with a non-negative index. -/
def Json.index (j : Json) (i : Nat) : Py Json :=
  match j with
  | .arr xs =>
    (match xs[i]? with
     | some v => .ok v
     | none => .error "IndexError")
  | .str s =>
    (match s.toList[i]? with
     | some c => .ok (.str (String.mk [c]))
     | none => .error "IndexError")
  | _ => .error "TypeError: index"

/-- Python iteration `for x in j`. -/
def Json.iter (j : Json) : Py (List Json) :=
  match j with
  | .arr xs => .ok xs
  | .str s => .ok (s.toList.map (fun c => .str (String.mk [c])))
  | .obj fs => .ok (fs.map (fun p => .str p.1))
  | _ => .error "TypeError: not iterable"

/-- Python `len(j)` for sized values. -/
def Json.pyLen (j : Json) : Py Nat :=
  match j with
  | .str s => .ok s.length
  | .arr xs => .ok xs.length
  | .obj fs => .ok fs.length
  | _ => .error "TypeError: len"

/-- Python `sep.join(xs)`: every element must be a string. -/
def pyJoin (sep : String) (j : Json) : Py String := do
  let elts ← j.iter
  let strs ← elts.mapM (fun e => match e with
    | .str s => Except.ok s
    | _ => Except.error "TypeError: join")
  return String.intercalate sep strs

/-- Python truthiness-based `a or b` on JSON values. -/
def pyOr (a b : Json) : Json := if a.truthy then a else b

example : pyJoin " " (.arr [.str "Jean", .str "Luc"]) = .ok "Jean Luc" := by rfl

/-- Python truthiness-based `a or b` where the second operand is an
effectful expression evaluated only when the first is falsy. -/
def pyOrM (a b : Py Json) : Py Json := do
  let av ← a
  if av.truthy then pure av else b

mutual

/-- Python `==` on JSON values (never raises, no cross-type equality
beyond identical shapes). -/
def Json.beq : Json → Json → Bool
  | .null, .null => true
  | .bool a, .bool b => a == b
  | .num a, .num b => a == b
  | .str a, .str b => a == b
  | .arr a, .arr b => beqElems a b
  | .obj a, .obj b => beqFields a b
  | _, _ => false

/-- Elementwise equality of JSON arrays. -/
def beqElems : List Json → List Json → Bool
  | [], [] => true
  | a :: as_, b :: bs => Json.beq a b && beqElems as_ bs
  | _, _ => false

/-- Fieldwise equality of JSON objects. -/
def beqFields : List (String × Json) → List (String × Json) → Bool
  | [], [] => true
  | (ka, va) :: as_, (kb, vb) :: bs => ka == kb && Json.beq va vb && beqFields as_ bs
  | _, _ => false

end

/-- True when a JSON value is a Python-unhashable container, hence
unusable as a dict key. -/
def Json.unhashable : Json → Bool
  | .arr _ => true
  | .obj _ => true
  | _ => false

/-- Test that the first character list starts the second. -/
def charsStart : List Char → List Char → Bool
  | [], _ => true
  | _ :: _, [] => false
  | a :: as_, b :: bs => a == b && charsStart as_ bs

/-- Test that the first character list occurs inside the second. -/
def charsContain (needle : List Char) : List Char → Bool
  | [] => needle.isEmpty
  | c :: cs => charsStart needle (c :: cs) || charsContain needle cs

/-- Python `k in j` for a string operand: key membership for dicts,
element membership for lists, substring test for strings. -/
def pyContains (j : Json) (k : String) : Py Bool :=
  match j with
  | .obj fs => .ok (fs.any (fun p => p.1 == k))
  | .arr xs => .ok (xs.any (fun e => e.beq (.str k)))
  | .str s => .ok (charsContain k.toList s.toList)
  | _ => .error "TypeError: in"

/-- Python `s.replace("Z", "+00:00")`. -/
def replaceZ (s : String) : String :=
  String.mk (s.toList.flatMap (fun c => if c = 'Z' then "+00:00".toList else [c]))

/-- Ordered grouping insert: append `v` to the group of key `k`, creating
the group at the end on first occurrence — the behavior of a Python
`defaultdict(list)` under insertion-ordered iteration. -/
def groupAppend {α : Type} (m : List (Json × List α)) (k : Json) (v : α) :
    List (Json × List α) :=
  match m with
  | [] => [(k, [v])]
  | (k0, vs) :: rest =>
    if k0.beq k then (k0, vs ++ [v]) :: rest else (k0, vs) :: groupAppend rest k v

/-- Lookup of a string key in an ordered resource grouping. -/
def resLookup {α : Type} (m : List (Json × List α)) (k : String) : Option (List α) :=
  (m.find? (fun p => p.1.beq (.str k))).map (fun p => p.2)

/-- Loop body of `_parse_resources` over the entry list. -/
def parseEntries : List Json → List (Json × List Json) → Py (List (Json × List Json))
  | [], acc => .ok acc
  | entry :: rest, acc => do
    let resource ← entry.getD "resource" (.obj [])
    let resource_type ← resource.getN "resourceType"
    if resource_type.truthy then
      if resource_type.unhashable then
        throw "TypeError: unhashable"
      else
        parseEntries rest (groupAppend acc resource_type resource)
    else
      parseEntries rest acc

/-- `PatientContextBuilder._parse_resources`: partition a bundle entry
list by `resourceType`, keeping insertion order. -/
def parse_resources (bundle : Json) : Py (List (Json × List Json)) := do
  let entries ← bundle.getD "entry" (.arr [])
  let entryList ← entries.iter
  parseEntries entryList []

/-- `PatientContextBuilder._get_first_display`: first coding display of a
CodeableConcept. -/
def get_first_display (code_data : Json) : Py Json := do
  let codings ← code_data.getD "coding" (.arr [])
  if codings.truthy then
    let c0 ← codings.index 0
    c0.getN "display"
  else
    pure .null

/-- `PatientContextBuilder._format_date`: ISO date to `dd/mm/yyyy`, with
the source's bare-except fallback to the first 10 characters.  Non-string
truthy inputs follow the corresponding Python dynamic behavior of the
try/except block. -/
def format_date (date_str : Json) : Py Json :=
  if !date_str.truthy then pure (.str "")
  else match date_str with
  | .str s =>
    let parsed := if s.toList.contains 'T' then fromisoformat (replaceZ s)
      else strptimeYMD s
    (match parsed with
     | some d => pure (.str d.strftimeDMY)
     | none => pure (.str (if s.length ≥ 10 then String.mk (s.toList.take 10) else s)))
  | .arr xs => pure (.arr (if xs.length ≥ 10 then xs.take 10 else xs))
  | .obj fs =>
    if fs.length ≥ 10 then Except.error "TypeError: slice" else pure (.obj fs)
  | _ => Except.error "TypeError: len"

/-- Component loop of `_extract_observation_value`. -/
def componentValues : List Json → List String → Py (List String)
  | [], acc => .ok acc
  | comp :: rest, acc => do
    let code ← comp.getD "code" (.obj [])
    let code2 ← comp.getD "code" (.obj [])
    let name ← pyOrM (code.getN "text") (get_first_display code2)
    if (← pyContains comp "valueQuantity") then
      let vq ← comp.item "valueQuantity"
      let val ← vq.getN "value"
      let unit ← vq.getD "unit" (.str "")
      if !(val.beq .null) then
        componentValues rest
          (acc ++ [pyStrip (name.pyStr ++ ": " ++ val.pyStr ++ " " ++ unit.pyStr)])
      else
        componentValues rest acc
    else
      componentValues rest acc

/-- Sub-step of `_extract_observation_value`: the component
(multi-valued) branch and the final empty-string fallback. -/
def observationComponents (obs : Json) : Py Json := do
  let components ← obs.getD "component" (.arr [])
  if components.truthy then
    let comps ← components.iter
    let comp_values ← componentValues comps []
    if !comp_values.isEmpty then
      return .str (String.intercalate "; " comp_values)
    else
      return .str ""
  else
    return .str ""

/-- `PatientContextBuilder._extract_observation_value`: quantity, coded
concept, string, boolean, then components.  JSON numbers are integers in
this model, so the float-rounding branch is not represented. -/
def extract_observation_value (obs : Json) : Py Json := do
  if (← pyContains obs "valueQuantity") then
    let vq ← obs.item "valueQuantity"
    let value ← vq.getN "value"
    let codeD ← vq.getD "code" (.str "")
    let unit ← vq.getD "unit" codeD
    if !(value.beq .null) then
      return .str (pyStrip (value.pyStr ++ " " ++ unit.pyStr))
    else
      observationComponents obs
  else if (← pyContains obs "valueCodeableConcept") then
    let vcc ← obs.item "valueCodeableConcept"
    let r ← pyOrM (vcc.getN "text") (get_first_display vcc)
    return pyOr r (.str "")
  else if (← pyContains obs "valueString") then
    obs.item "valueString"
  else if (← pyContains obs "valueBoolean") then
    let b ← obs.item "valueBoolean"
    return .str (if b.truthy then "Oui" else "Non")
  else
    observationComponents obs

/-- Age in completed years: calendar-year difference, minus one when the
evaluation month/day precedes the birthday — the computation of
`build_demographics`. -/
def pyAge (birth today : Date) : Int :=
  today.year - birth.year -
    (if today.month < birth.month
        || (today.month = birth.month && today.day < birth.day) then 1 else 0)

/-- The gender translation dict lookup of `build_demographics`:
`{"male": "Homme", ...}.get(gender, gender)`; container values are
unhashable dict keys. -/
def genderFr (g : Json) : Py Json :=
  match g with
  | .arr _ | .obj _ => throw "TypeError: unhashable"
  | .str "male" => pure (Json.str "Homme")
  | .str "female" => pure (Json.str "Femme")
  | .str "other" => pure (Json.str "Autre")
  | v => pure v

/-- `PatientContextBuilder.build_demographics`, with `datetime.now()`
made an explicit `today` argument.  Each conditional `lines.append` of
the source becomes one list fragment. -/
def build_demographics (patient : Json) (today : Date) : Py String := do
  let names ← patient.getD "name" (.arr [])
  let nameLines ← (if names.truthy then do
      let name_data ← names.index 0
      let givenJ ← name_data.getD "given" (.arr [])
      let given ← pyJoin " " givenJ
      let family ← name_data.getD "family" (.str "")
      pure [pyStrip ("- Nom: " ++ given ++ " " ++ family.pyStr)]
    else pure [])
  let gender ← patient.getN "gender"
  let gender_fr ← genderFr gender
  let genderLines := if gender_fr.truthy then ["- Sexe: " ++ gender_fr.pyStr] else []
  let birth_date ← patient.getN "birthDate"
  let ageLines := (if birth_date.truthy then
      match birth_date with
      | .str s =>
        (match strptimeYMD s with
         | some birth_dt =>
           ["- Âge: " ++ toString (pyAge birth_dt today)
             ++ " ans (né(e) le " ++ birth_dt.strftimeDMY ++ ")"]
         | none => ["- Date de naissance: " ++ birth_date.pyStr])
      | _ => ["- Date de naissance: " ++ birth_date.pyStr]
    else [])
  let deceased_date ← patient.getN "deceasedDateTime"
  let deceasedLines := (if deceased_date.truthy then
      match deceased_date with
      | .str s =>
        (match fromisoformat (replaceZ s) with
         | some deceased_dt => ["- Décédé(e) le: " ++ deceased_dt.strftimeDMY]
         | none => ["- Décédé(e): " ++ deceased_date.pyStr])
      | _ => ["- Décédé(e): " ++ deceased_date.pyStr]
    else [])
  let addresses ← patient.getD "address" (.arr [])
  let addressLines ← (if addresses.truthy then do
      let addr ← addresses.index 0
      let city ← addr.getD "city" (.str "")
      let region ← addr.getD "state" (.str "")
      let postal ← addr.getD "postalCode" (.str "")
      if city.truthy || region.truthy then
        let location := pyStrip (postal.pyStr ++ " " ++ city.pyStr)
        let location := if region.truthy then location ++ ", " ++ region.pyStr
          else location
        pure ["- Localisation: " ++ location]
      else pure []
    else pure [])
  let marital ← patient.getD "maritalStatus" (.obj [])
  let maritalText ← marital.getN "text"
  let maritalLines ← (if maritalText.truthy then do
      let t ← marital.item "text"
      pure ["- Situation familiale: " ++ t.pyStr]
    else pure [])
  return String.intercalate "\n" (["## Informations Patient"] ++ nameLines
    ++ genderLines ++ ageLines ++ deceasedLines ++ addressLines ++ maritalLines)

/-- Clinical status rendered in French in the resolved-conditions list. -/
def condStatusFr (status : Json) : Py Json :=
  match status with
  | .arr _ | .obj _ => .error "TypeError: unhashable"
  | .str "resolved" => .ok (.str "résolu")
  | .str "inactive" => .ok (.str "inactif")
  | .str "remission" => .ok (.str "en rémission")
  | s => .ok s

/-- Classification loop of `build_conditions_summary`: split conditions
into active and other, keeping the per-condition extraction. -/
def conditionsClassify : List Json → List (Json × Json) →
    List (Json × Json × Json) → Py (List (Json × Json) × List (Json × Json × Json))
  | [], act, res => .ok (act, res)
  | cond :: rest, act, res => do
    let code_data ← cond.getD "code" (.obj [])
    let display ← pyOrM (code_data.getN "text") (get_first_display code_data)
    if display.truthy then
      let clinical_status ← cond.getD "clinicalStatus" (.obj [])
      let cs_codings ← clinical_status.getD "coding" (.arr [])
      let status ← (if cs_codings.truthy then do
          let c0 ← cs_codings.index 0
          c0.getN "code"
        else pure Json.null)
      let onset ← pyOrM (cond.getN "onsetDateTime") (cond.getN "recordedDate")
      let date_str ← (if onset.truthy then format_date onset else pure (Json.str ""))
      if status.beq (.str "active") then
        conditionsClassify rest (act ++ [(display, date_str)]) res
      else
        conditionsClassify rest act (res ++ [(display, date_str, status)])
    else
      conditionsClassify rest act res

/-- Rendering of the active-conditions list. -/
def activeCondLines : List (Json × Json) → List String
  | [] => []
  | (name, date) :: rest =>
    (if date.truthy then "- " ++ name.pyStr ++ " (depuis " ++ date.pyStr ++ ")"
     else "- " ++ name.pyStr) :: activeCondLines rest

/-- Rendering of the resolved-conditions list. -/
def resolvedCondLines : List (Json × Json × Json) → Py (List String)
  | [] => .ok []
  | (name, date, status) :: rest => do
    let status_fr ← condStatusFr status
    let line := (if date.truthy then
        "- " ++ name.pyStr ++ " (" ++ date.pyStr ++ ", " ++ status_fr.pyStr ++ ")"
      else
        "- " ++ name.pyStr ++ " (" ++ status_fr.pyStr ++ ")")
    let more ← resolvedCondLines rest
    pure (line :: more)

/-- `PatientContextBuilder.build_conditions_summary`. -/
def build_conditions_summary (conditions : List Json) (maxItems : Nat) :
    Py String := do
  let cls ← conditionsClassify conditions [] []
  let active_conditions := cls.1
  let resolved_conditions := cls.2
  let lines := ["## Antécédents Médicaux"]
  let lines := lines ++ (if !active_conditions.isEmpty then
      "\n### Pathologies Actives" :: activeCondLines (active_conditions.take maxItems)
    else [])
  let lines ← (if !resolved_conditions.isEmpty then do
      let rl ← resolvedCondLines (resolved_conditions.take maxItems)
      pure (lines ++ ("\n### Antécédents Résolus" :: rl))
    else pure lines)
  return (if lines.length > 1 then String.intercalate "\n" lines else "")

/-- Python `str.title()` on ASCII text: uppercase each letter that follows
a non-letter, lowercase the rest. -/
def pyTitleGo : List Char → Bool → List Char
  | [], _ => []
  | c :: cs, prevAlpha =>
    (if c.isAlpha then (if prevAlpha then c.toLower else c.toUpper) else c)
      :: pyTitleGo cs c.isAlpha

/-- Python `str.title()`. -/
def pyTitle (s : String) : String := String.mk (pyTitleGo s.toList false)

/-- French label of an observation category, with the
`cat.replace("-", " ").title()` fallback of the source (which raises
`AttributeError` on non-string categories). -/
def categoryLabel (cat : Json) : Py String :=
  match cat with
  | .str s =>
    let fallback := pyTitle (String.mk (s.toList.map (fun c => if c = '-' then ' ' else c)))
    .ok (match s with
      | "vital-signs" => "Signes Vitaux"
      | "laboratory" => "Résultats de Laboratoire"
      | "social-history" => "Histoire Sociale"
      | "survey" => "Questionnaires"
      | "imaging" => "Imagerie"
      | "autres" => "Autres Observations"
      | _ => fallback)
  | _ => .error "AttributeError: replace"

/-- Grouping loop of `build_observations_summary`: bucket observations by
category code in first-seen order. -/
def observationsGroup : List Json → List (Json × List (Json × Json × Json)) →
    Py (List (Json × List (Json × Json × Json)))
  | [], acc => .ok acc
  | obs :: rest, acc => do
    let categories ← obs.getD "category" (.arr [])
    let category ← (if categories.truthy then do
        let cat0 ← categories.index 0
        let cat_codings ← cat0.getD "coding" (.arr [])
        if cat_codings.truthy then do
          let cc0 ← cat_codings.index 0
          cc0.getD "code" (.str "autres")
        else pure (Json.str "autres")
      else pure (Json.str "autres"))
    let code_data ← obs.getD "code" (.obj [])
    let display ← pyOrM (code_data.getN "text") (get_first_display code_data)
    if display.truthy then
      let value_str ← extract_observation_value obs
      let date ← format_date (← pyOrM (obs.getN "effectiveDateTime") (obs.getN "issued"))
      if category.unhashable then
        throw "TypeError: unhashable"
      else
        observationsGroup rest (groupAppend acc category (display, value_str, date))
    else
      observationsGroup rest acc

/-- Rendering of the observation rows of one category. -/
def obsItemLines : List (Json × Json × Json) → List String
  | [] => []
  | (display, value, date) :: rest =>
    (if value.truthy && date.truthy then
       "- " ++ display.pyStr ++ ": " ++ value.pyStr ++ " (" ++ date.pyStr ++ ")"
     else if value.truthy then
       "- " ++ display.pyStr ++ ": " ++ value.pyStr
     else if date.truthy then
       "- " ++ display.pyStr ++ " (" ++ date.pyStr ++ ")"
     else
       "- " ++ display.pyStr) :: obsItemLines rest

/-- Rendering loop over the category buckets, each truncated to the
shared per-category slice. -/
def obsCategoryLines : List (Json × List (Json × Json × Json)) → Nat →
    Py (List String)
  | [], _ => .ok []
  | (cat, obs_list) :: rest, perCat => do
    let cat_label ← categoryLabel cat
    let more ← obsCategoryLines rest perCat
    pure (("\n### " ++ cat_label) :: (obsItemLines (obs_list.take perCat) ++ more))

/-- `PatientContextBuilder.build_observations_summary`. -/
def build_observations_summary (observations : List Json) (maxObs : Nat) :
    Py String := do
  let by_category ← observationsGroup observations []
  let catLines ← obsCategoryLines by_category (maxObs / by_category.length)
  let lines := "## Observations Cliniques" :: catLines
  return (if lines.length > 1 then String.intercalate "\n" lines else "")

/-- Medication status rendered in French in the past-treatments list. -/
def medStatusFr (status : Json) : Py Json :=
  match status with
  | .arr _ | .obj _ => .error "TypeError: unhashable"
  | .str "completed" => .ok (.str "terminé")
  | .str "stopped" => .ok (.str "arrêté")
  | .str "cancelled" => .ok (.str "annulé")
  | s => .ok s

/-- Classification loop of `build_medications_summary`. -/
def medicationsClassify : List Json → List (Json × Json) →
    List (Json × Json × Json) → Py (List (Json × Json) × List (Json × Json × Json))
  | [], act, oth => .ok (act, oth)
  | med :: rest, act, oth => do
    let med_cc ← med.getD "medicationCodeableConcept" (.obj [])
    let display ← pyOrM (med_cc.getN "text") (get_first_display med_cc)
    if display.truthy then
      let status ← med.getN "status"
      let date ← format_date (← med.getN "authoredOn")
      if status.beq (.str "active") then
        medicationsClassify rest (act ++ [(display, date)]) oth
      else
        medicationsClassify rest act (oth ++ [(display, date, status)])
    else
      medicationsClassify rest act oth

/-- Rendering of the active-medications list. -/
def activeMedLines : List (Json × Json) → List String
  | [] => []
  | (name, date) :: rest =>
    (if date.truthy then "- " ++ name.pyStr ++ " (prescrit le " ++ date.pyStr ++ ")"
     else "- " ++ name.pyStr) :: activeMedLines rest

/-- Rendering of the past-medications list. -/
def otherMedLines : List (Json × Json × Json) → Py (List String)
  | [] => .ok []
  | (name, date, status) :: rest => do
    let status_fr ← medStatusFr status
    let line := (if date.truthy then
        "- " ++ name.pyStr ++ " (" ++ date.pyStr ++ ", " ++ status_fr.pyStr ++ ")"
      else
        "- " ++ name.pyStr ++ " (" ++ status_fr.pyStr ++ ")")
    let more ← otherMedLines rest
    pure (line :: more)

/-- `PatientContextBuilder.build_medications_summary`. -/
def build_medications_summary (medications : List Json) (maxItems : Nat) :
    Py String := do
  let cls ← medicationsClassify medications [] []
  let active_meds := cls.1
  let other_meds := cls.2
  let lines := ["## Traitements"]
  let lines := lines ++ (if !active_meds.isEmpty then
      "\n### Traitements En Cours" :: activeMedLines (active_meds.take maxItems)
    else [])
  let lines ← (if !other_meds.isEmpty then do
      let ol ← otherMedLines (other_meds.take maxItems)
      pure (lines ++ ("\n### Traitements Antérieurs" :: ol))
    else pure lines)
  return (if lines.length > 1 then String.intercalate "\n" lines else "")

/-- Allergy type rendered in French. -/
def allergyTypeFr (t : Json) : Py String :=
  match t with
  | .arr _ | .obj _ => .error "TypeError: unhashable"
  | .str "allergy" => .ok "allergie"
  | .str "intolerance" => .ok "intolérance"
  | _ => .ok ""

/-- Allergy category rendered in French, keeping unknown values as is. -/
def allergyCatFr (c : Json) : Py Json :=
  match c with
  | .arr _ | .obj _ => .error "TypeError: unhashable"
  | .str "food" => .ok (.str "alimentaire")
  | .str "medication" => .ok (.str "médicamenteuse")
  | .str "environment" => .ok (.str "environnementale")
  | v => .ok v

/-- Effectful map over a list, evaluating left to right — Python list
comprehension with a fallible body. -/
def mapPy {α β : Type} (f : α → Py β) : List α → Py (List β)
  | [] => .ok []
  | x :: xs => do
    let y ← f x
    let ys ← mapPy f xs
    pure (y :: ys)

/-- Effectful filter — Python list comprehension with a fallible guard. -/
def filterPy {α : Type} (p : α → Py Bool) : List α → Py (List α)
  | [] => .ok []
  | x :: xs => do
    let b ← p x
    let rest ← filterPy p xs
    pure (if b then x :: rest else rest)

/-- Effectful short-circuiting `any` — the Python `any(...)` generator. -/
def anyPy {α : Type} (p : α → Py Bool) : List α → Py Bool
  | [] => .ok false
  | x :: xs => do
    let b ← p x
    if b then pure true else anyPy p xs

/-- Row loop of `build_allergies_summary`. -/
def allergyLines : List Json → Py (List String)
  | [] => .ok []
  | allergy :: rest => do
    let code_data ← allergy.getD "code" (.obj [])
    let display ← pyOrM (code_data.getN "text") (get_first_display code_data)
    if display.truthy then
      let allergy_type ← allergy.getN "type"
      let type_fr ← allergyTypeFr allergy_type
      let categories ← allergy.getD "category" (.arr [])
      let category ← (if categories.truthy then do
          let cats ← categories.iter
          let labels ← mapPy allergyCatFr cats
          pyJoin ", " (.arr labels)
        else pure "")
      let info_parts := [type_fr, category].filter (fun p => p ≠ "")
      let line := (if !info_parts.isEmpty then
          "- " ++ display.pyStr ++ " (" ++ String.intercalate ", " info_parts ++ ")"
        else
          "- " ++ display.pyStr)
      let more ← allergyLines rest
      pure (line :: more)
    else
      allergyLines rest

/-- `PatientContextBuilder.build_allergies_summary`. -/
def build_allergies_summary (allergies : List Json) (maxItems : Nat) :
    Py String := do
  let rows ← allergyLines (allergies.take maxItems)
  let lines := "## Allergies et Intolérances" :: rows
  return (if lines.length > 1 then String.intercalate "\n" lines else "")

/-- Row loop of `build_procedures_summary`. -/
def procedureLines : List Json → Py (List String)
  | [] => .ok []
  | proc :: rest => do
    let code_data ← proc.getD "code" (.obj [])
    let display ← pyOrM (code_data.getN "text") (get_first_display code_data)
    if display.truthy then
      let performed ← pyOrM (proc.getN "performedDateTime") (do
        let pp ← proc.getD "performedPeriod" (.obj [])
        pp.getN "start")
      let date ← format_date performed
      let line := (if date.truthy then
          "- " ++ display.pyStr ++ " (" ++ date.pyStr ++ ")"
        else
          "- " ++ display.pyStr)
      let more ← procedureLines rest
      pure (line :: more)
    else
      procedureLines rest

/-- `PatientContextBuilder.build_procedures_summary`. -/
def build_procedures_summary (procedures : List Json) (maxItems : Nat) :
    Py String := do
  let rows ← procedureLines (procedures.take maxItems)
  let lines := "## Actes Médicaux et Procédures" :: rows
  return (if lines.length > 1 then String.intercalate "\n" lines else "")

/-- Row loop of `build_encounters_summary`. -/
def encounterLines : List Json → Py (List String)
  | [] => .ok []
  | enc :: rest => do
    let types ← enc.getD "type" (.arr [])
    let type_text ← (if types.truthy then do
        let t0 ← types.index 0
        t0.getN "text"
      else pure (Json.str "Consultation"))
    let period ← enc.getD "period" (.obj [])
    let date ← format_date (← period.getN "start")
    let sp ← enc.getD "serviceProvider" (.obj [])
    let provider ← sp.getD "display" (.str "")
    let reason_codes ← enc.getD "reasonCode" (.arr [])
    let reason ← (if reason_codes.truthy then do
        let rc0 ← reason_codes.index 0
        let codings ← rc0.getD "coding" (.arr [])
        if codings.truthy then do
          let c0 ← codings.index 0
          c0.getN "display"
        else pure Json.null
      else pure Json.null)
    let parts := [type_text]
    let parts := parts ++ (if provider.truthy then [Json.str ("à " ++ provider.pyStr)] else [])
    let parts := parts ++ (if reason.truthy then [Json.str ("pour " ++ reason.pyStr)] else [])
    let parts := parts ++ (if date.truthy then [Json.str ("(" ++ date.pyStr ++ ")")] else [])
    let joined ← pyJoin " " (.arr parts)
    let more ← encounterLines rest
    pure (("- " ++ joined) :: more)

/-- `PatientContextBuilder.build_encounters_summary`. -/
def build_encounters_summary (encounters : List Json) (maxItems : Nat) :
    Py String := do
  let rows ← encounterLines (encounters.take maxItems)
  let lines := "## Consultations Récentes" :: rows
  return (if lines.length > 1 then String.intercalate "\n" lines else "")

/-- Row loop of `build_immunizations_summary`. -/
def immunizationLines : List Json → Py (List String)
  | [] => .ok []
  | imm :: rest => do
    let vaccine ← imm.getD "vaccineCode" (.obj [])
    let display ← pyOrM (vaccine.getN "text") (get_first_display vaccine)
    if display.truthy then
      let date ← format_date (← imm.getN "occurrenceDateTime")
      let line := (if date.truthy then
          "- " ++ display.pyStr ++ " (" ++ date.pyStr ++ ")"
        else
          "- " ++ display.pyStr)
      let more ← immunizationLines rest
      pure (line :: more)
    else
      immunizationLines rest

/-- `PatientContextBuilder.build_immunizations_summary`. -/
def build_immunizations_summary (immunizations : List Json) (maxItems : Nat) :
    Py String := do
  let rows ← immunizationLines (immunizations.take maxItems)
  let lines := "## Vaccinations" :: rows
  return (if lines.length > 1 then String.intercalate "\n" lines else "")

/-- First resource of a type, with the `[None])[0]` default of the source. -/
def firstResource (resources : List (Json × List Json)) (k : String) : Json :=
  match resLookup resources k with
  | some l => l.headD .null
  | none => .null

/-- `PatientContextBuilder.build_full_context`, with the builder's two
truncation limits and the evaluation date as explicit arguments. -/
def build_full_context (maxObs maxItems : Nat) (today : Date) (bundle : Json) :
    Py String := do
  let resources ← parse_resources bundle
  let patient := firstResource resources "Patient"
  let demographicsSections ← (if patient.truthy then do
      let s ← build_demographics patient today
      pure [s]
    else pure [])
  let conditions := (resLookup resources "Condition").getD []
  let conditionSections ← (if !conditions.isEmpty then do
      let s ← build_conditions_summary conditions maxItems
      pure [s]
    else pure [])
  let observations := (resLookup resources "Observation").getD []
  let observationSections ← (if !observations.isEmpty then do
      let s ← build_observations_summary observations maxObs
      pure [s]
    else pure [])
  let medications := (resLookup resources "MedicationRequest").getD []
  let medicationSections ← (if !medications.isEmpty then do
      let s ← build_medications_summary medications maxItems
      pure [s]
    else pure [])
  let allergies := (resLookup resources "AllergyIntolerance").getD []
  let allergySections ← (if !allergies.isEmpty then do
      let s ← build_allergies_summary allergies maxItems
      pure [s]
    else pure [])
  let procedures := (resLookup resources "Procedure").getD []
  let procedureSections ← (if !procedures.isEmpty then do
      let s ← build_procedures_summary procedures maxItems
      pure [s]
    else pure [])
  let encounters := (resLookup resources "Encounter").getD []
  let encounterSections ← (if !encounters.isEmpty then do
      let s ← build_encounters_summary encounters maxItems
      pure [s]
    else pure [])
  let immunizations := (resLookup resources "Immunization").getD []
  let immunizationSections ← (if !immunizations.isEmpty then do
      let s ← build_immunizations_summary immunizations maxItems
      pure [s]
    else pure [])
  let sections := demographicsSections ++ conditionSections ++ observationSections
    ++ medicationSections ++ allergySections ++ procedureSections
    ++ encounterSections ++ immunizationSections
  return String.intercalate "\n\n" (sections.filter (fun s => s ≠ ""))

/-- The gender abbreviation dict lookup of `build_compact_context`. -/
def genderAbbrev (g : Json) : Py String :=
  match g with
  | .arr _ | .obj _ => throw "TypeError: unhashable"
  | .str "male" => pure "H"
  | .str "female" => pure "F"
  | _ => pure "?"

/-- String concatenation operand: Python `+` between `str` and a
non-string raises `TypeError`. -/
def jsonAsStr (j : Json) : Py String :=
  match j with
  | .str s => pure s
  | _ => throw "TypeError: concat"

/-- Guard of the compact active-condition comprehension. -/
def compactCondActive (c : Json) : Py Bool := do
  let cs ← c.getD "clinicalStatus" (.obj [])
  let codings ← cs.getD "coding" (.arr [Json.obj []])
  let c0 ← codings.index 0
  let code ← c0.getN "code"
  pure (code.beq (.str "active"))

/-- Body of the compact condition-name comprehension. -/
def compactCondName (c : Json) : Py Json := do
  let code ← c.getD "code" (.obj [])
  let code2 ← c.getD "code" (.obj [])
  pyOrM (code.getN "text") (get_first_display code2)

/-- Guard of the compact active-medication comprehension. -/
def compactMedActive (m : Json) : Py Bool := do
  let status ← m.getN "status"
  pure (status.beq (.str "active"))

/-- Body of the compact medication-name comprehension. -/
def compactMedName (m : Json) : Py Json := do
  let mcc ← m.getD "medicationCodeableConcept" (.obj [])
  let mcc2 ← m.getD "medicationCodeableConcept" (.obj [])
  pyOrM (mcc.getN "text") (get_first_display mcc2)

/-- Guard of the compact vital-signs comprehension. -/
def compactVital (o : Json) : Py Bool := do
  let cats ← o.getD "category" (.arr [])
  let catList ← cats.iter
  anyPy (fun c => do
    let codings ← c.getD "coding" (.arr [Json.obj []])
    let c0 ← codings.index 0
    let code ← c0.getN "code"
    pure (code.beq (.str "vital-signs"))) catList

/-- Vital-sign row loop of `build_compact_context`. -/
def vitalObsLines : List Json → Py (List String)
  | [] => .ok []
  | obs :: rest => do
    let code ← obs.getD "code" (.obj [])
    let code2 ← obs.getD "code" (.obj [])
    let name ← pyOrM (code.getN "text") (get_first_display code2)
    let value ← extract_observation_value obs
    let more ← vitalObsLines rest
    if name.truthy && value.truthy then
      pure ((name.pyStr ++ ": " ++ value.pyStr) :: more)
    else
      pure more

/-- `PatientContextBuilder.build_compact_context`, with the evaluation
date explicit.  Note the age here is a plain year difference with no
month/day correction, unlike `build_demographics`. -/
def build_compact_context (today : Date) (bundle : Json) : Py String := do
  let resources ← parse_resources bundle
  let patient := firstResource resources "Patient"
  let patientLines ← (if patient.truthy then do
      let names ← patient.getD "name" (.arr [])
      let name ← (if names.truthy then do
          let n0 ← names.index 0
          let givenJ ← n0.getD "given" (.arr [])
          let given ← pyJoin " " givenJ
          let famJ ← n0.getD "family" (.str "")
          let fam ← jsonAsStr famJ
          pure (given ++ " " ++ fam)
        else pure "")
      let genderJ ← patient.getN "gender"
      let gender ← genderAbbrev genderJ
      let birthJ ← patient.getD "birthDate" (.str "")
      let age := (if birthJ.truthy then
          match birthJ with
          | .str s =>
            (match strptimeYMD s with
             | some birth_dt => toString (today.year - birth_dt.year) ++ "ans"
             | none => "")
          | _ => ""
        else "")
      pure ["Patient: " ++ pyStrip name ++ ", " ++ gender ++ ", " ++ age]
    else pure [])
  let conditions := (resLookup resources "Condition").getD []
  let active ← filterPy compactCondActive conditions
  let conditionLines ← (if !active.isEmpty then do
      let cond_names ← mapPy compactCondName (active.take 5)
      let cond_names := cond_names.filter Json.truthy
      if !cond_names.isEmpty then do
        let joined ← pyJoin ", " (.arr cond_names)
        pure ["Diagnostics actifs: " ++ joined]
      else pure []
    else pure [])
  let medications := (resLookup resources "MedicationRequest").getD []
  let active_meds ← filterPy compactMedActive medications
  let medicationLines ← (if !active_meds.isEmpty then do
      let med_names ← mapPy compactMedName (active_meds.take 5)
      let med_names := med_names.filter Json.truthy
      if !med_names.isEmpty then do
        let joined ← pyJoin ", " (.arr med_names)
        pure ["Traitements: " ++ joined]
      else pure []
    else pure [])
  let observations := (resLookup resources "Observation").getD []
  let vital_all ← filterPy compactVital observations
  let vital_obs := vital_all.take 3
  let vitalLines ← (if !vital_obs.isEmpty then do
      let obs_strs ← vitalObsLines vital_obs
      if !obs_strs.isEmpty then
        pure ["Constantes: " ++ String.intercalate "; " obs_strs]
      else pure []
    else pure [])
  let lines := patientLines ++ conditionLines ++ medicationLines ++ vitalLines
  return String.intercalate "\n" lines

/-- `UseCaseTemplate` of `templates.py`; random instruction selection is
modelled by `instructionAt` taking the random index as an argument. -/
structure UseCaseTemplate where
  use_case : String
  name_fr : String
  description : String
  base_instructions : List String
  system_prompt : String
  output_format : String
  llm_prompt_template : String
deriving DecidableEq, Repr

/-- `UseCaseTemplate.get_random_instruction`, the random draw made an
explicit index into the instruction pool. -/
def UseCaseTemplate.instructionAt (t : UseCaseTemplate) (i : Nat) : String :=
  t.base_instructions.getD (i % t.base_instructions.length) ""

/-- `CLINICAL_SUMMARY_TEMPLATE` of `templates.py`. -/
def CLINICAL_SUMMARY_TEMPLATE : UseCaseTemplate where
  use_case := "clinical_summary"
  name_fr := "Résumé Clinique"
  description := "Générer un résumé médical structuré du dossier patient"
  base_instructions := [
    "Génère un résumé clinique complet pour ce patient.",
    "Rédige une synthèse médicale de ce dossier patient.",
    "Fais un compte-rendu médical détaillé de ce patient.",
    "Résume l\u0027historique médical de ce patient de manière structurée.",
    "Établis un résumé clinique incluant antécédents, traitements et observations.",
    "Synthétise les informations médicales essentielles de ce patient.",
    "Produis un résumé médical complet et organisé pour ce dossier.",
    "Rédige une note de synthèse clinique pour ce patient."]
  system_prompt := "Tu es un médecin expert en synthèse de dossiers médicaux. Tu produis des résumés cliniques clairs, structurés et professionnels en français médical. Tes résumés incluent les antécédents pertinents, les diagnostics actuels, les traitements en cours et les observations cliniques importantes."
  output_format := "Résumé structuré avec sections: Identité, Antécédents, Diagnostics actuels, Traitements, Observations récentes"
  llm_prompt_template := "Tu es un médecin expert. Génère un résumé clinique professionnel et structuré pour ce patient.\n\nDONNÉES PATIENT:\n{context}\n\nCONSIGNES:\n- Structure le résumé avec des sections claires\n- Inclus: identité, antécédents, diagnostics actifs, traitements en cours, observations récentes\n- Utilise un langage médical approprié\n- Sois concis mais complet\n- Ne fabrique pas d\u0027informations non présentes dans les données\n\nRÉSUMÉ CLINIQUE:"

/-- `DIAGNOSIS_PREDICTION_TEMPLATE` of `templates.py`. -/
def DIAGNOSIS_PREDICTION_TEMPLATE : UseCaseTemplate where
  use_case := "diagnosis_prediction"
  name_fr := "Prédiction Diagnostique"
  description := "Analyser les symptômes et suggérer des diagnostics différentiels"
  base_instructions := [
    "Quels diagnostics sont les plus probables pour ce patient ?",
    "Analyse les données cliniques et propose des diagnostics différentiels.",
    "Quelles pathologies suspecter chez ce patient ?",
    "Établis une liste de diagnostics possibles basée sur ce dossier.",
    "Quels diagnostics envisager au vu de l\u0027historique médical ?",
    "Propose une analyse diagnostique de ce cas clinique.",
    "Quelles sont les hypothèses diagnostiques pour ce patient ?",
    "Identifie les diagnostics probables à partir des données disponibles."]
  system_prompt := "Tu es un médecin spécialiste en diagnostic médical. Tu analyses les dossiers patients pour identifier les diagnostics les plus probables, en te basant sur les antécédents, symptômes, résultats d\u0027examens et traitements. Tu fournis des diagnostics différentiels argumentés."
  output_format := "Liste de diagnostics probables avec justification et niveau de confiance"
  llm_prompt_template := "Tu es un médecin diagnosticien expert. Analyse ce dossier patient et propose des diagnostics.\n\nDONNÉES PATIENT:\n{context}\n\nCONSIGNES:\n- Liste les diagnostics les plus probables\n- Justifie chaque diagnostic avec les éléments du dossier\n- Indique le niveau de probabilité (très probable, probable, à considérer)\n- Mentionne les examens complémentaires éventuels\n- Base-toi uniquement sur les données fournies\n\nANALYSE DIAGNOSTIQUE:"

/-- `MEDICAL_QA_TEMPLATE` of `templates.py`. -/
def MEDICAL_QA_TEMPLATE : UseCaseTemplate where
  use_case := "medical_qa"
  name_fr := "Questions-Réponses Médicales"
  description := "Répondre à des questions spécifiques sur le dossier patient"
  base_instructions := [
    "Quels sont les antécédents cardiovasculaires du patient ?",
    "Quel est le dernier résultat de glycémie de ce patient ?",
    "Depuis quand le patient prend-il ce traitement ?",
    "Quelles allergies sont documentées pour ce patient ?",
    "Quel est l\u0027historique des vaccinations du patient ?",
    "Quand a eu lieu la dernière consultation du patient ?",
    "Quels traitements le patient prend-il actuellement ?",
    "Y a-t-il des observations anormales récentes ?",
    "Quel est le profil tensionnel du patient ?",
    "Quelles procédures médicales le patient a-t-il subies ?"]
  system_prompt := "Tu es un assistant médical expert en extraction d\u0027informations de dossiers patients. Tu réponds aux questions de manière précise, concise et factuelle, en te basant uniquement sur les données disponibles dans le dossier."
  output_format := "Réponse factuelle et précise basée sur les données du dossier"
  llm_prompt_template := "Tu es un assistant médical. Réponds à la question en te basant sur le dossier patient.\n\nQUESTION: {instruction}\n\nDONNÉES PATIENT:\n{context}\n\nCONSIGNES:\n- Réponds de manière précise et factuelle\n- Cite les données pertinentes du dossier\n- Si l\u0027information n\u0027est pas disponible, indique-le clairement\n- Sois concis et direct\n\nRÉPONSE:"

/-- `TREATMENT_RECOMMENDATION_TEMPLATE` of `templates.py`. -/
def TREATMENT_RECOMMENDATION_TEMPLATE : UseCaseTemplate where
  use_case := "treatment_recommendation"
  name_fr := "Recommandation de Traitement"
  description := "Suggérer des ajustements ou recommandations thérapeutiques"
  base_instructions := [
    "Quels traitements recommander pour ce patient ?",
    "Propose un plan de traitement adapté à ce profil.",
    "Quelles modifications thérapeutiques suggères-tu ?",
    "Recommande des ajustements de traitement pour ce patient.",
    "Quel plan thérapeutique serait approprié ?",
    "Suggère des interventions thérapeutiques adaptées.",
    "Quelles recommandations de prise en charge proposes-tu ?",
    "Établis un plan de soins pour ce patient."]
  system_prompt := "Tu es un médecin expert en thérapeutique. Tu analyses les dossiers patients pour proposer des recommandations de traitement appropriées, en tenant compte des antécédents, interactions médicamenteuses, et bonnes pratiques cliniques."
  output_format := "Recommandations thérapeutiques avec justification et précautions"
  llm_prompt_template := "Tu es un médecin expert en thérapeutique. Propose des recommandations de traitement.\n\nDONNÉES PATIENT:\n{context}\n\nCONSIGNES:\n- Propose des recommandations thérapeutiques adaptées au profil\n- Justifie chaque recommandation\n- Tiens compte des traitements actuels et des interactions possibles\n- Mentionne les précautions et contre-indications\n- Base-toi sur les données disponibles\n\nRECOMMANDATIONS THÉRAPEUTIQUES:"

/-- `AVAILABLE_TEMPLATES`: the four registered use cases, in
registration order. -/
def AVAILABLE_TEMPLATES : List (String × UseCaseTemplate) := [
  ("clinical_summary", CLINICAL_SUMMARY_TEMPLATE),
  ("diagnosis_prediction", DIAGNOSIS_PREDICTION_TEMPLATE),
  ("medical_qa", MEDICAL_QA_TEMPLATE),
  ("treatment_recommendation", TREATMENT_RECOMMENDATION_TEMPLATE)]

/-- `templates.get_template`: registry lookup, `ValueError` on unknown
use-case ids. -/
def get_template (use_case : String) : Py UseCaseTemplate :=
  match (AVAILABLE_TEMPLATES.find? (fun p => p.1 == use_case)).map (fun p => p.2) with
  | some t => .ok t
  | none => .error ("ValueError: Cas d" ++ apos ++ "usage " ++ apos ++ use_case
      ++ apos ++ " inconnu. Disponibles: [" ++ apos ++ "clinical_summary" ++ apos
      ++ ", " ++ apos ++ "diagnosis_prediction" ++ apos ++ ", " ++ apos
      ++ "medical_qa" ++ apos ++ ", " ++ apos ++ "treatment_recommendation" ++ apos ++ "]")

/-- Python `str.lower()` on ASCII text. -/
def pyLower (s : String) : String := String.mk (s.toList.map Char.toLower)

/-- Hexadecimal digit of a value below 16, lowercase as emitted by
`json.dumps`. -/
def hexDigit (n : Nat) : Char :=
  if n < 10 then Char.ofNat (48 + n) else Char.ofNat (87 + n)

/-- Escape of one character inside a JSON string literal, as produced by
`json.dumps(..., ensure_ascii=False)`. -/
def jsonEscapeChar (c : Char) : List Char :=
  if c = '"' then ['\\', '"']
  else if c = '\\' then ['\\', '\\']
  else if c = '\n' then ['\\', 'n']
  else if c = '\t' then ['\\', 't']
  else if c = '\r' then ['\\', 'r']
  else if c = '\x08' then ['\\', 'b']
  else if c = '\x0c' then ['\\', 'f']
  else if c.toNat < 32 then
    ['\\', 'u', '0', '0', hexDigit (c.toNat / 16), hexDigit (c.toNat % 16)]
  else [c]

/-- JSON string-body escape. -/
def jsonEscape (s : String) : String :=
  String.mk (s.toList.flatMap jsonEscapeChar)

mutual

/-- `json.dumps(j, ensure_ascii=False)` with the default separators. -/
def jsonDumps : Json → String
  | .null => "null"
  | .bool b => if b then "true" else "false"
  | .num n => toString n
  | .str s => "\"" ++ jsonEscape s ++ "\""
  | .arr xs => "[" ++ String.intercalate ", " (jsonDumpsList xs) ++ "]"
  | .obj fs => "\x7b" ++ String.intercalate ", " (jsonDumpsFields fs) ++ "\x7d"

/-- Serialization of each array element. -/
def jsonDumpsList : List Json → List String
  | [] => []
  | x :: xs => jsonDumps x :: jsonDumpsList xs

/-- Serialization of each object field. -/
def jsonDumpsFields : List (String × Json) → List String
  | [] => []
  | (k, v) :: fs =>
    ("\"" ++ jsonEscape k ++ "\"" ++ ": " ++ jsonDumps v) :: jsonDumpsFields fs

end

/-- `AlpacaFormatter.format`: instruction/input/output record; the system
prompt is ignored. -/
def AlpacaFormatter.format (instruction input_context output : String)
    (system_prompt : Option String) : Json :=
  .obj [
    ("instruction", .str (pyStrip instruction)),
    ("input", .str (pyStrip input_context)),
    ("output", .str (pyStrip output))]

/-- `ShareGPTFormatter.format`: conversation turns, with a system turn
prepended only when the supplied prompt is truthy (non-empty). -/
def ShareGPTFormatter.format (instruction input_context output : String)
    (system_prompt : Option String) : Json :=
  let conversations : List Json :=
    match system_prompt with
    | some sp =>
      if sp ≠ "" then [.obj [("from", .str "system"), ("value", .str (pyStrip sp))]]
      else []
    | none => []
  let human_message := pyStrip instruction
  let human_message :=
    if pyStrip input_context ≠ "" then
      human_message ++ "\n\n" ++ pyStrip input_context
    else human_message
  let conversations := conversations ++ [
    .obj [("from", .str "human"), ("value", .str human_message)],
    .obj [("from", .str "gpt"), ("value", .str (pyStrip output))]]
  .obj [("conversations", .arr conversations)]

/-- `OpenAIFormatter.DEFAULT_SYSTEM_PROMPT`. -/
def OpenAIFormatter.DEFAULT_SYSTEM_PROMPT : String :=
  "Tu es un assistant médical expert. Tu analyses les dossiers patients "
  ++ "et fournis des informations médicales précises et pertinentes. "
  ++ "Réponds de manière professionnelle et structurée."

/-- `OpenAIFormatter.format`: chat messages with a system message always
present (caller-supplied truthy prompt or the fixed default). -/
def OpenAIFormatter.format (instruction input_context output : String)
    (system_prompt : Option String) : Json :=
  let sys := (match system_prompt with
    | some sp => if sp ≠ "" then sp else OpenAIFormatter.DEFAULT_SYSTEM_PROMPT
    | none => OpenAIFormatter.DEFAULT_SYSTEM_PROMPT)
  let user_message := pyStrip instruction
  let user_message :=
    if pyStrip input_context ≠ "" then
      user_message ++ "\n\n" ++ pyStrip input_context
    else user_message
  .obj [("messages", .arr [
    .obj [("role", .str "system"), ("content", .str (pyStrip sys))],
    .obj [("role", .str "user"), ("content", .str user_message)],
    .obj [("role", .str "assistant"), ("content", .str (pyStrip output))]])]

/-- `ChatMLFormatter.DEFAULT_SYSTEM_PROMPT`. -/
def ChatMLFormatter.DEFAULT_SYSTEM_PROMPT : String :=
  "Tu es un assistant médical expert spécialisé dans l" ++ apos ++ "analyse "
  ++ "de dossiers patients et la synthèse d" ++ apos ++ "informations médicales."

/-- `ChatMLFormatter.format`: one `text` field with the tagged transcript. -/
def ChatMLFormatter.format (instruction input_context output : String)
    (system_prompt : Option String) : Json :=
  let system := (match system_prompt with
    | some sp => if sp ≠ "" then sp else ChatMLFormatter.DEFAULT_SYSTEM_PROMPT
    | none => ChatMLFormatter.DEFAULT_SYSTEM_PROMPT)
  let user_message := pyStrip instruction
  let user_message :=
    if pyStrip input_context ≠ "" then
      user_message ++ "\n\n" ++ pyStrip input_context
    else user_message
  .obj [("text", .str (
    "<|im_start|>system\n" ++ pyStrip system ++ "<|im_end|>\n"
    ++ "<|im_start|>user\n" ++ user_message ++ "<|im_end|>\n"
    ++ "<|im_start|>assistant\n" ++ pyStrip output ++ "<|im_end|>"))]

/-- The four registered output formats. -/
inductive FormatterKind where
  | alpaca | sharegpt | openai | chatml
deriving DecidableEq, Repr

/-- Dispatch of `format` over the configured formatter. -/
def formatRecord : FormatterKind → String → String → String → Option String → Json
  | .alpaca => AlpacaFormatter.format
  | .sharegpt => ShareGPTFormatter.format
  | .openai => OpenAIFormatter.format
  | .chatml => ChatMLFormatter.format

/-- `format_batch`, identical in all four formatters: one
`json.dumps(..., ensure_ascii=False)` line per record. -/
def format_batch (examples : List Json) : String :=
  String.intercalate "\n" (examples.map jsonDumps)

/-- `formatters.get_formatter`: case-insensitive registry lookup,
`ValueError` on unknown format ids. -/
def get_formatter (format_name : String) : Py FormatterKind :=
  match pyLower format_name with
  | "alpaca" => .ok .alpaca
  | "sharegpt" => .ok .sharegpt
  | "openai" => .ok .openai
  | "chatml" => .ok .chatml
  | _ => .error ("ValueError: Format " ++ apos ++ format_name ++ apos
      ++ " non supporté. Formats disponibles: [" ++ apos ++ "alpaca" ++ apos
      ++ ", " ++ apos ++ "sharegpt" ++ apos ++ ", " ++ apos ++ "openai" ++ apos
      ++ ", " ++ apos ++ "chatml" ++ apos ++ "]")

/-- `LLMResponse` of `llm_client.py`. -/
structure LLMResponse where
  content : String
  tokens_input : Nat
  tokens_output : Nat
  model : String
  success : Bool
  error : Option String := none
deriving DecidableEq, Repr

/-- Outcome of one underlying provider API call: a reply with token
usage, or an exception raised by the transport/SDK (including a missing
SDK package). -/
inductive ProviderResult where
  | reply (content : String) (tokens_input tokens_output : Nat)
  | exn (msg : String)
deriving DecidableEq, Repr

/-- Rendering of an `Optional[str]` inside a Python f-string. -/
def optStr : Option String → String
  | some s => s
  | none => "None"

/-- `AnthropicClient.generate`: short-circuit on a missing key, otherwise
convert the provider outcome; never raises. -/
def AnthropicClient.generate (api_key model : String)
    (provider : ProviderResult) : LLMResponse :=
  if api_key = "" then
    { content := "", tokens_input := 0, tokens_output := 0, model := model,
      success := false, error := some "API key Anthropic non configurée" }
  else match provider with
    | .reply c ti tn =>
      { content := c, tokens_input := ti, tokens_output := tn, model := model,
        success := true, error := none }
    | .exn msg =>
      { content := "", tokens_input := 0, tokens_output := 0, model := model,
        success := false, error := some msg }

/-- `OpenAIClient.generate` (also used by `NumihClient`, which only
changes the base URL and default model). -/
def OpenAIClient.generate (api_key model : String)
    (provider : ProviderResult) : LLMResponse :=
  if api_key = "" then
    { content := "", tokens_input := 0, tokens_output := 0, model := model,
      success := false, error := some "API key OpenAI non configurée" }
  else match provider with
    | .reply c ti tn =>
      { content := c, tokens_input := ti, tokens_output := tn, model := model,
        success := true, error := none }
    | .exn msg =>
      { content := "", tokens_input := 0, tokens_output := 0, model := model,
        success := false, error := some msg }

/-- The providers registered in `LLMClient.PROVIDERS`. -/
inductive Provider where
  | numih | anthropic | openai
deriving DecidableEq, Repr

/-- Provider selection in `LLMClient.__init__`: lower-cased lookup,
`ValueError` on unknown ids. -/
def LLMClient.selectProvider (provider : String) : Py Provider :=
  match pyLower provider with
  | "numih" => .ok .numih
  | "anthropic" => .ok .anthropic
  | "openai" => .ok .openai
  | _ => .error ("ValueError: Provider " ++ apos ++ provider ++ apos
      ++ " non supporté. Disponibles: [" ++ apos ++ "numih" ++ apos ++ ", "
      ++ apos ++ "anthropic" ++ apos ++ ", " ++ apos ++ "openai" ++ apos ++ "]")

/-- `LLMClient.generate`: dispatch to the configured provider client. -/
def LLMClient.generate (provider : Provider) (api_key model : String)
    (res : ProviderResult) : LLMResponse :=
  match provider with
  | .numih => OpenAIClient.generate api_key model res
  | .anthropic => AnthropicClient.generate api_key model res
  | .openai => OpenAIClient.generate api_key model res

/-- `LLMClient.is_available`: key presence only. -/
def LLMClient.is_available (api_key : String) : Bool := api_key ≠ ""

/-- One row of `COST_PER_MILLION_TOKENS`: input and output USD rate per
million tokens. -/
structure CostRates where
  input : ℚ
  output : ℚ
deriving DecidableEq, Repr

/-- `COST_PER_MILLION_TOKENS` of `llm_client.py`. -/
def COST_PER_MILLION_TOKENS : List (String × List (String × CostRates)) := [
  ("numih", [
    ("jpacifico/Chocolatine-2-14B-Instruct-v2.0.3", ⟨0, 0⟩)]),
  ("anthropic", [
    ("claude-3-haiku-20240307", ⟨1/4, 5/4⟩),
    ("claude-3-sonnet-20240229", ⟨3, 15⟩),
    ("claude-3-5-sonnet-20241022", ⟨3, 15⟩),
    ("claude-3-opus-20240229", ⟨15, 75⟩)]),
  ("openai", [
    ("gpt-4o-mini", ⟨3/20, 3/5⟩),
    ("gpt-4o", ⟨5/2, 10⟩),
    ("gpt-4-turbo", ⟨10, 30⟩),
    ("gpt-3.5-turbo", ⟨1/2, 3/2⟩)])]

/-- Rate lookup with the source's fallback pair for unknown models. -/
def costRatesFor (provider model : String) : CostRates :=
  let provider_costs :=
    ((COST_PER_MILLION_TOKENS.find? (fun p => p.1 == pyLower provider)).map
      (fun p => p.2)).getD []
  ((provider_costs.find? (fun p => p.1 == model)).map (fun p => p.2)).getD ⟨1, 3⟩

/-- Result shape of `estimate_dataset_cost`. -/
structure CostEstimate where
  total_cost : ℚ
  input_cost : ℚ
  output_cost : ℚ
  total_input_tokens : Nat
  total_output_tokens : Nat
deriving DecidableEq, Repr

/-- `llm_client.estimate_dataset_cost`. -/
def estimate_dataset_cost (provider model : String)
    (num_examples avg_input_tokens avg_output_tokens : Nat) : CostEstimate :=
  let total_input := num_examples * avg_input_tokens
  let total_output := num_examples * avg_output_tokens
  let rates := costRatesFor provider model
  let input_cost := ((total_input : ℚ) / 1000000) * rates.input
  let output_cost := ((total_output : ℚ) / 1000000) * rates.output
  { total_cost := input_cost + output_cost
  , input_cost := input_cost
  , output_cost := output_cost
  , total_input_tokens := total_input
  , total_output_tokens := total_output }

/-- `DatasetConfig` of `core.py` (floating-point sampling parameters are
carried as rationals; they are never computed with). -/
structure DatasetConfig where
  use_cases : List String
  output_format : String := "alpaca"
  examples_per_patient : Nat := 5
  llm_provider : String := "anthropic"
  llm_model : String := "claude-3-haiku-20240307"
  api_key : String := ""
  include_system_prompt : Bool := true
  language : String := "fr"
  temperature : ℚ := 7/10
  max_output_tokens : Nat := 1500
  vary_instructions : Bool := true
deriving DecidableEq, Repr

/-- `DatasetConfig.validate`: the list of error strings, in the source's
append order. -/
def DatasetConfig.validate (c : DatasetConfig) : List String :=
  (if c.use_cases.isEmpty then
    ["Au moins un cas d" ++ apos ++ "usage doit être sélectionné"] else [])
  ++ c.use_cases.filterMap (fun uc =>
      if (AVAILABLE_TEMPLATES.find? (fun p => p.1 == uc)).isNone then
        some ("Cas d" ++ apos ++ "usage " ++ apos ++ uc ++ apos ++ " inconnu")
      else none)
  ++ (if c.examples_per_patient < 1 then ["Au moins 1 exemple par patient requis"] else [])
  ++ (if c.api_key = "" then ["Clé API requise"] else [])

/-- `GeneratedExample` of `core.py`; wall-clock fields and the metadata
timestamp are outside the model. -/
structure GeneratedExample where
  use_case : String
  instruction : String
  input_context : String
  output : String
  patient_id : String
  patient_name : String
  tokens_used : Nat := 0
deriving DecidableEq, Repr

/-- `DatasetStats` of `core.py`; `total_time` (wall clock) is outside the
model. -/
structure DatasetStats where
  total_examples : Nat := 0
  successful_examples : Nat := 0
  failed_examples : Nat := 0
  total_tokens_input : Nat := 0
  total_tokens_output : Nat := 0
  examples_by_use_case : List (String × Nat) := []
  errors : List String := []
deriving DecidableEq, Repr

/-- Increment of a per-use-case counter with dict-style insertion order. -/
def countIncr (m : List (String × Nat)) (k : String) : List (String × Nat) :=
  match m with
  | [] => [(k, 1)]
  | (k0, n) :: rest =>
    if k0 == k then (k0, n + 1) :: rest else (k0, n) :: countIncr rest k

/-- The random and external events consumed by one example slot: either
the Python interpreter raises while the slot is being processed, or the
slot runs with the given random draws and the two provider outcomes. -/
inductive SlotBehavior where
  | raises (msg : String)
  | runs (varyCoin : Bool) (instructionIdx : Nat)
      (variationRes : ProviderResult) (outputRes : ProviderResult)

/-- `_create_use_case_cycle`: value yielded at global slot `t`, given the
successive `random.shuffle` outcomes (`shuffles i` is the i-th shuffled
copy of the configured use-case list). -/
def use_case_at (ucs : List String) (shuffles : Nat → List String) (t : Nat) : String :=
  (shuffles (t / ucs.length)).getD (t % ucs.length) ""

/-- `DatasetBuilder._generate_example`: one generation attempt.  Returns
the optional example and the updated stats, or an uncaught exception
(`Except.error`), which the caller's try/except turns into a failure. -/
def generate_example (cfg : DatasetConfig) (provider : Provider)
    (use_case full_context compact_context patient_id patient_name : String)
    (b : SlotBehavior) (stats : DatasetStats) :
    Py (Option GeneratedExample × DatasetStats) := do
  match b with
  | .raises msg => throw msg
  | .runs varyCoin instructionIdx variationRes outputRes =>
    let template ← get_template use_case
    let context := if use_case == "medical_qa" then compact_context else full_context
    let instruction := template.instructionAt instructionIdx
    let varied := (if cfg.vary_instructions && varyCoin then
        let variation_response :=
          LLMClient.generate provider cfg.api_key cfg.llm_model variationRes
        if variation_response.success && variation_response.content ≠ "" then
          (pyStrip variation_response.content,
           { stats with
             total_tokens_input :=
               stats.total_tokens_input + variation_response.tokens_input,
             total_tokens_output :=
               stats.total_tokens_output + variation_response.tokens_output })
        else (instruction, stats)
      else (instruction, stats))
    let instruction := varied.1
    let stats := varied.2
    let response := LLMClient.generate provider cfg.api_key cfg.llm_model outputRes
    if !response.success then
      return (none, { stats with errors := stats.errors
        ++ ["LLM error for " ++ patient_id ++ ": " ++ optStr response.error] })
    let stats := { stats with
      total_tokens_input := stats.total_tokens_input + response.tokens_input,
      total_tokens_output := stats.total_tokens_output + response.tokens_output }
    return (some {
      use_case := use_case,
      instruction := instruction,
      input_context := context,
      output := response.content,
      patient_id := patient_id,
      patient_name := patient_name,
      tokens_used := response.tokens_input + response.tokens_output }, stats)

/-- First-`Patient` scan of `_extract_patient_info`. -/
def extractFromEntries : List Json → Py (Option (String × String))
  | [] => .ok none
  | entry :: rest => do
    let resource ← entry.getD "resource" (.obj [])
    let rtype ← resource.getN "resourceType"
    if rtype.beq (.str "Patient") then
      let names ← resource.getD "name" (.arr [])
      let name ← (if names.truthy then do
          let name_data ← names.index 0
          let givenJ ← name_data.getD "given" (.arr [])
          let given ← pyJoin " " givenJ
          let family ← name_data.getD "family" (.str "")
          pure (pyStrip (given ++ " " ++ family.pyStr))
        else pure "")
      let idJ ← resource.getD "id" (.str "")
      pure (some (idJ.pyStr, if name ≠ "" then name else "Patient"))
    else
      extractFromEntries rest

/-- `DatasetBuilder._extract_patient_info`, reduced to the id and display
name the callers consume. -/
def extract_patient_info (bundle : Json) : Py (String × String) := do
  let entries ← bundle.getD "entry" (.arr [])
  let entryList ← entries.iter
  let r ← extractFromEntries entryList
  pure (r.getD ("", "Patient"))

/-- Inner example loop of `build_dataset` for one patient: every slot is
attempted, and every exception is caught at slot granularity, so the loop
itself is total. -/
def runPatientSlots (cfg : DatasetConfig) (provider : Provider)
    (shuffles : Nat → List String) (behavior : Nat → SlotBehavior)
    (full_context compact_context patient_id patient_name : String) :
    Nat → Nat → List GeneratedExample → DatasetStats →
    (List GeneratedExample × DatasetStats × Nat)
  | 0, slotIdx, examples, stats => (examples, stats, slotIdx)
  | n + 1, slotIdx, examples, stats =>
    let use_case := use_case_at cfg.use_cases shuffles slotIdx
    let step := (match generate_example cfg provider use_case full_context
        compact_context patient_id patient_name (behavior slotIdx) stats with
      | .ok (some ex, stats2) =>
        (examples ++ [ex],
         { stats2 with
           successful_examples := stats2.successful_examples + 1,
           examples_by_use_case := countIncr stats2.examples_by_use_case use_case })
      | .ok (none, stats2) =>
        (examples, { stats2 with failed_examples := stats2.failed_examples + 1 })
      | .error e =>
        (examples, { stats with
          failed_examples := stats.failed_examples + 1,
          errors := stats.errors ++ ["Patient " ++ patient_id ++ ": " ++ e] }))
    let examples := step.1
    let stats := { step.2 with total_examples := step.2.total_examples + 1 }
    runPatientSlots cfg provider shuffles behavior full_context compact_context
      patient_id patient_name n (slotIdx + 1) examples stats

/-- Outer patient loop of `build_dataset`: patient info and both contexts
are built once per patient, outside the per-example try/except. -/
def buildDatasetGo (cfg : DatasetConfig) (provider : Provider)
    (shuffles : Nat → List String) (behavior : Nat → SlotBehavior)
    (today : Date) :
    List Json → Nat → List GeneratedExample → DatasetStats →
    Py (List GeneratedExample × DatasetStats × Nat)
  | [], slotIdx, examples, stats => .ok (examples, stats, slotIdx)
  | bundle :: rest, slotIdx, examples, stats => do
    let info ← extract_patient_info bundle
    let full_context ← build_full_context 20 10 today bundle
    let compact_context ← build_compact_context today bundle
    let r := runPatientSlots cfg provider shuffles behavior full_context
      compact_context info.1 info.2 cfg.examples_per_patient slotIdx examples stats
    buildDatasetGo cfg provider shuffles behavior today rest r.2.2 r.1 r.2.1

/-- `DatasetBuilder.build_dataset`: resets the accumulators, then drives
the patient × example-slot loops.  Randomness and provider behavior enter
through `shuffles` and `behavior`; progress callbacks (UI side effects)
are outside the model. -/
def build_dataset (cfg : DatasetConfig) (provider : Provider)
    (shuffles : Nat → List String) (behavior : Nat → SlotBehavior)
    (today : Date) (patient_bundles : List Json) :
    Py (List GeneratedExample × DatasetStats) := do
  let r ← buildDatasetGo cfg provider shuffles behavior today patient_bundles 0 [] {}
  pure (r.1, r.2.1)

/-- In-memory state of a constructed `DatasetBuilder`. -/
structure DatasetBuilder where
  config : DatasetConfig
  formatter : FormatterKind
  provider : Provider
  examples : List GeneratedExample
  stats : DatasetStats

/-- `DatasetBuilder.format_examples`: a falsy argument (`None` or the
empty list) falls back to the accumulated example list. -/
def DatasetBuilder.format_examples (b : DatasetBuilder)
    (examples : Option (List GeneratedExample)) : Py (List Json) :=
  let examples := (match examples with
    | some l => if l.isEmpty then b.examples else l
    | none => b.examples)
  mapPy (fun ex => do
    let template ← get_template ex.use_case
    let system_prompt := (if b.config.include_system_prompt then
        some template.system_prompt else none)
    pure (formatRecord b.formatter ex.instruction ex.input_context
      ex.output system_prompt)) examples

/-- Text content written by `DatasetBuilder.export_jsonl` (the file-system
write is outside the model). -/
def DatasetBuilder.export_jsonl_content (b : DatasetBuilder)
    (examples : Option (List GeneratedExample)) : Py String := do
  let formatted ← b.format_examples examples
  pure (format_batch formatted)

/-- Record list serialized by `DatasetBuilder.export_json` (the pretty
printing and file write are outside the model). -/
def DatasetBuilder.export_json_records (b : DatasetBuilder)
    (examples : Option (List GeneratedExample)) : Py (List Json) :=
  b.format_examples examples

/-- `DatasetBuilder.get_preview`. -/
def DatasetBuilder.get_preview (b : DatasetBuilder) (num_examples : Nat) :
    Py (List Json) :=
  b.format_examples (some (b.examples.take num_examples))

/-- Result shape of `DatasetBuilder.get_statistics`; the wall-clock rate
fields are outside the model. -/
structure Statistics where
  total_examples : Nat
  successful : Nat
  failed : Nat
  success_rate : ℚ
  tokens_input : Nat
  tokens_output : Nat
  tokens_total : Nat
  by_use_case : List (String × Nat)
  errors : List String
  estimated_cost : Option CostEstimate
deriving DecidableEq, Repr

/-- `DatasetBuilder.get_statistics`. -/
def get_statistics (cfg : DatasetConfig) (stats : DatasetStats) : Statistics :=
  { total_examples := stats.total_examples
  , successful := stats.successful_examples
  , failed := stats.failed_examples
  , success_rate := (if stats.total_examples > 0 then
      (stats.successful_examples : ℚ) / (stats.total_examples : ℚ) * 100 else 0)
  , tokens_input := stats.total_tokens_input
  , tokens_output := stats.total_tokens_output
  , tokens_total := stats.total_tokens_input + stats.total_tokens_output
  , by_use_case := stats.examples_by_use_case
  , errors := stats.errors.take 10
  , estimated_cost := (if stats.successful_examples > 0 then
      some (estimate_dataset_cost cfg.llm_provider cfg.llm_model
        stats.successful_examples
        (stats.total_tokens_input / max stats.successful_examples 1)
        (stats.total_tokens_output / max stats.successful_examples 1))
    else none) }

/-- Keys of a JSON object, in order. -/
def objKeys (j : Json) : List String :=
  match j with
  | .obj fs => fs.map (fun p => p.1)
  | _ => []

/-- Value of a key in a JSON object. -/
def objGet (j : Json) (k : String) : Option Json :=
  match j with
  | .obj fs => lookupField fs k
  | _ => none

/-- Turn list of a ShareGPT record. -/
def conversationTurns (j : Json) : List Json :=
  match objGet j "conversations" with
  | some (.arr ts) => ts
  | _ => []

/-- Speaker tag of one conversation turn. -/
def turnRole (j : Json) : String :=
  match objGet j "from" with
  | some (.str r) => r
  | _ => ""

/-- Value carried by the first turn of a given speaker. -/
def turnValue (turns : List Json) (role : String) : Option String :=
  turns.findSome? (fun t =>
    match objGet t "from", objGet t "value" with
    | some (.str r), some (.str v) => if r = role then some v else none
    | _, _ => none)

/-- String payload of a JSON leaf. -/
def Json.asString : Json → Option String
  | .str s => some s
  | _ => none

/-- Shape tests for JSON values. -/
def Json.isObj : Json → Bool
  | .obj _ => true
  | _ => false

/-- String test for JSON values. -/
def Json.isStr : Json → Bool
  | .str _ => true
  | _ => false

/-- Well-formedness of an optional object field: when present, the value
satisfies the given shape predicate. -/
def fieldWf (fs : List (String × Json)) (k : String) (p : Json → Bool) : Bool :=
  match lookupField fs k with
  | some v => p v
  | none => true

/-- Date-valued fields must be strings or falsy for `_format_date` (and
the demographics try/except blocks) to stay within the caught paths. -/
def wfDateV (d : Json) : Bool := d.isStr || !d.truthy

/-- String-valued-or-falsy field: rendered values that may also flow into
a Python `str.join`, which requires strings (falsy ones are filtered out
before the join). -/
def wfStrLike (j : Json) : Bool := j.isStr || !j.truthy

/-- CodeableConcept shape: an object whose `text` is a string (or falsy),
and whose `coding`, when present, is a list of objects with string (or
falsy) displays. -/
def wfCC (j : Json) : Bool :=
  match j with
  | .obj fs =>
    fieldWf fs "text" wfStrLike
    && fieldWf fs "coding" (fun c => match c with
      | .arr xs => xs.all (fun e => match e with
          | .obj efs => fieldWf efs "display" wfStrLike
          | _ => false)
      | _ => false)
  | _ => false

/-- HumanName shape: given names are a list of strings (they are joined),
the family name a string (compact context concatenates it). -/
def wfName (n : Json) : Bool :=
  match n with
  | .obj fs =>
    fieldWf fs "given" (fun g => match g with
      | .arr xs => xs.all Json.isStr
      | _ => false)
    && fieldWf fs "family" Json.isStr
  | _ => false

/-- Patient resource shape as read by the demographics builders. -/
def wfPatient (j : Json) : Bool :=
  match j with
  | .obj fs =>
    fieldWf fs "name" (fun n => match n with
      | .arr xs => xs.all wfName
      | _ => false)
    && fieldWf fs "gender" (fun g => !g.unhashable)
    && fieldWf fs "maritalStatus" Json.isObj
    && fieldWf fs "address" (fun a => match a with
      | .arr xs => xs.all Json.isObj
      | _ => false)
  | _ => false

/-- Clinical-status coding list: nonempty objects whose `code` is usable
as a dict key (the compact filter indexes element 0 unconditionally). -/
def wfStatusCoding (c : Json) : Bool :=
  match c with
  | .arr (x :: xs) => (x :: xs).all (fun e => match e with
      | .obj efs => fieldWf efs "code" (fun v => !v.unhashable)
      | _ => false)
  | _ => false

/-- ClinicalStatus shape. -/
def wfClinicalStatus (j : Json) : Bool :=
  match j with
  | .obj fs => fieldWf fs "coding" wfStatusCoding
  | _ => false

/-- Condition resource shape. -/
def wfCondition (c : Json) : Bool :=
  match c with
  | .obj fs =>
    fieldWf fs "code" wfCC
    && fieldWf fs "clinicalStatus" wfClinicalStatus
    && fieldWf fs "onsetDateTime" wfDateV
    && fieldWf fs "recordedDate" wfDateV
  | _ => false

/-- Category coding list: nonempty objects whose `code` is a string (the
label rendering calls string methods on it). -/
def wfCatCoding (c : Json) : Bool :=
  match c with
  | .arr (x :: xs) => (x :: xs).all (fun e => match e with
      | .obj efs => fieldWf efs "code" Json.isStr
      | _ => false)
  | _ => false

/-- One observation category entry. -/
def wfCategoryEntry (c : Json) : Bool :=
  match c with
  | .obj fs => fieldWf fs "coding" wfCatCoding
  | _ => false

/-- One observation component. -/
def wfComponent (comp : Json) : Bool :=
  match comp with
  | .obj fs => fieldWf fs "code" wfCC && fieldWf fs "valueQuantity" Json.isObj
  | _ => false

/-- Observation resource shape. -/
def wfObservation (o : Json) : Bool :=
  match o with
  | .obj fs =>
    fieldWf fs "category" (fun cat => match cat with
      | .arr xs => xs.all wfCategoryEntry
      | _ => false)
    && fieldWf fs "code" wfCC
    && fieldWf fs "valueQuantity" Json.isObj
    && fieldWf fs "valueCodeableConcept" wfCC
    && fieldWf fs "component" (fun comp => match comp with
      | .arr xs => xs.all wfComponent
      | _ => false)
    && fieldWf fs "effectiveDateTime" wfDateV
    && fieldWf fs "issued" wfDateV
  | _ => false

/-- MedicationRequest resource shape. -/
def wfMedication (m : Json) : Bool :=
  match m with
  | .obj fs =>
    fieldWf fs "medicationCodeableConcept" wfCC
    && fieldWf fs "status" (fun s => !s.unhashable)
    && fieldWf fs "authoredOn" wfDateV
  | _ => false

/-- AllergyIntolerance resource shape. -/
def wfAllergy (a : Json) : Bool :=
  match a with
  | .obj fs =>
    fieldWf fs "code" wfCC
    && fieldWf fs "type" (fun t => !t.unhashable)
    && fieldWf fs "category" (fun c => match c with
      | .arr xs => xs.all Json.isStr
      | v => !v.truthy)
  | _ => false

/-- Procedure resource shape. -/
def wfProcedure (p : Json) : Bool :=
  match p with
  | .obj fs =>
    fieldWf fs "code" wfCC
    && fieldWf fs "performedDateTime" wfDateV
    && fieldWf fs "performedPeriod" (fun pp => match pp with
      | .obj pfs => fieldWf pfs "start" wfDateV
      | _ => false)
  | _ => false

/-- Encounter `type` list: when truthy, its first element carries a
string `text` (the join of the row parts requires a string). -/
def wfEncounterType (t : Json) : Bool :=
  match t with
  | .arr [] => true
  | .arr (x :: _) => (match x with
      | .obj xfs => (match lookupField xfs "text" with
          | some (.str _) => true
          | _ => false)
      | _ => false)
  | v => !v.truthy

/-- Encounter resource shape. -/
def wfEncounter (e : Json) : Bool :=
  match e with
  | .obj fs =>
    fieldWf fs "type" wfEncounterType
    && fieldWf fs "period" (fun p => match p with
      | .obj pfs => fieldWf pfs "start" wfDateV
      | _ => false)
    && fieldWf fs "serviceProvider" Json.isObj
    && fieldWf fs "reasonCode" (fun rc => match rc with
      | .arr [] => true
      | .arr (x :: _) => (match x with
          | .obj xfs => fieldWf xfs "coding" (fun c => match c with
              | .arr [] => true
              | .arr (y :: _) => y.isObj
              | v => !v.truthy)
          | _ => false)
      | v => !v.truthy)
  | _ => false

/-- Immunization resource shape. -/
def wfImmunization (i : Json) : Bool :=
  match i with
  | .obj fs =>
    fieldWf fs "vaccineCode" wfCC
    && fieldWf fs "occurrenceDateTime" wfDateV
  | _ => false

/-- Shape of one bundle resource, dispatched on its `resourceType`. -/
def wfResource (r : Json) : Bool :=
  match r with
  | .obj fs =>
    (match lookupField fs "resourceType" with
     | some (.str "Patient") => wfPatient r
     | some (.str "Condition") => wfCondition r
     | some (.str "Observation") => wfObservation r
     | some (.str "MedicationRequest") => wfMedication r
     | some (.str "AllergyIntolerance") => wfAllergy r
     | some (.str "Procedure") => wfProcedure r
     | some (.str "Encounter") => wfEncounter r
     | some (.str "Immunization") => wfImmunization r
     | some v => !v.unhashable
     | none => true)
  | _ => false

/-- Shape of one bundle entry. -/
def wfEntry (e : Json) : Bool :=
  match e with
  | .obj fs => (match lookupField fs "resource" with
      | some r => wfResource r
      | none => true)
  | _ => false

/-- FHIR-shaped bundle: an object whose `entry`, when present, is a list
of well-shaped entries.  On such bundles both context builders succeed. -/
def wfBundle (b : Json) : Bool :=
  match b with
  | .obj fs => fieldWf fs "entry" (fun e => match e with
      | .arr xs => xs.all wfEntry
      | _ => false)
  | _ => false

/-- Hexadecimal digit value, lowercase or digit. -/
def hexVal (c : Char) : Option Nat :=
  if '0' ≤ c && c ≤ '9' then some (c.toNat - 48)
  else if 'a' ≤ c && c ≤ 'f' then some (c.toNat - 87)
  else none

/-- Body of a JSON string literal: characters until the closing quote,
undoing the escapes `json.dumps` produces. -/
def parseStringBody : List Char → Option (List Char × List Char)
  | [] => none
  | c :: cs =>
    if c = '"' then some ([], cs)
    else if c = '\\' then
      match cs with
      | [] => none
      | e :: cs2 =>
        if e = 'n' then (parseStringBody cs2).map (fun p => ('\n' :: p.1, p.2))
        else if e = 't' then (parseStringBody cs2).map (fun p => ('\t' :: p.1, p.2))
        else if e = 'r' then (parseStringBody cs2).map (fun p => ('\r' :: p.1, p.2))
        else if e = 'b' then (parseStringBody cs2).map (fun p => ('\x08' :: p.1, p.2))
        else if e = 'f' then (parseStringBody cs2).map (fun p => ('\x0c' :: p.1, p.2))
        else if e = '"' then (parseStringBody cs2).map (fun p => ('"' :: p.1, p.2))
        else if e = '\\' then (parseStringBody cs2).map (fun p => ('\\' :: p.1, p.2))
        else if e = 'u' then
          match cs2 with
          | h1 :: h2 :: h3 :: h4 :: cs3 =>
            (match hexVal h1, hexVal h2, hexVal h3, hexVal h4 with
             | some v1, some v2, some v3, some v4 =>
               (parseStringBody cs3).map (fun p =>
                 (Char.ofNat (v1 * 4096 + v2 * 256 + v3 * 16 + v4) :: p.1, p.2))
             | _, _, _, _ => none)
          | _ => none
        else none
    else (parseStringBody cs).map (fun p => (c :: p.1, p.2))

/-- Consume an exact character sequence. -/
def expectChars (pat : List Char) (cs : List Char) : Option (List Char) :=
  if charsStart pat cs then some (cs.drop pat.length) else none

/-- Parser for one serialized Alpaca record, the exact line grammar
emitted by `format_batch` over `AlpacaFormatter` records. -/
def parseAlpacaLine (s : String) : Option (String × String × String) := do
  let cs := s.toList
  let cs ← expectChars ("\x7b\"instruction\": \"").toList cs
  let pi ← parseStringBody cs
  let cs ← expectChars (", \"input\": \"").toList pi.2
  let pn ← parseStringBody cs
  let cs ← expectChars (", \"output\": \"").toList pn.2
  let po ← parseStringBody cs
  let cs ← expectChars ("\x7d").toList po.2
  if cs.isEmpty then
    some (String.mk pi.1, String.mk pn.1, String.mk po.1)
  else none

/-- Use cases assigned to the first `T` global slots by the shuffled
round-robin cycle. -/
def assignedSlots (ucs : List String) (shuffles : Nat → List String) (T : Nat) :
    List String :=
  (List.range T).map (use_case_at ucs shuffles)

/-- Number of slots among the first `T` that the cycle assigns to one use
case. -/
def countAssigned (ucs : List String) (shuffles : Nat → List String)
    (uc : String) (T : Nat) : Nat :=
  (assignedSlots ucs shuffles T).count uc

/-- Concatenation of the first `k` shuffled batches — the first `k`
passes of the generator's outer loop. -/
def cycleOut (shuffles : Nat → List String) (k : Nat) : List String :=
  (List.range k).flatMap shuffles

/-- Patient fixture used by the concrete evaluations. -/
def samplePatient : Json := .obj [
  ("resourceType", .str "Patient"),
  ("id", .str "p1"),
  ("name", .arr [.obj [("given", .arr [.str "Jean"]), ("family", .str "Martin")]]),
  ("gender", .str "male"),
  ("birthDate", .str "1990-06-15")]

/-- Bundle fixture holding only `samplePatient`. -/
def sampleBundle : Json := .obj [("entry", .arr [.obj [("resource", samplePatient)]])]

/-- Patient fixture with a recorded death date well before the
evaluation dates used in the age theorems. -/
def deceasedPatient : Json := .obj [
  ("resourceType", .str "Patient"),
  ("id", .str "p2"),
  ("gender", .str "female"),
  ("birthDate", .str "1990-06-15"),
  ("deceasedDateTime", .str "2000-01-01T00:00:00Z")]

/-- Bundle fixture holding only `deceasedPatient`. -/
def deceasedBundle : Json := .obj [("entry", .arr [.obj [("resource", deceasedPatient)]])]

/-- Bundle fixture with one resource of every kind the context builders
render, used to evaluate the well-formedness witness. -/
def richBundle : Json := .obj [("entry", .arr [
  .obj [("resource", samplePatient)],
  .obj [("resource", .obj [
    ("resourceType", .str "Condition"),
    ("code", .obj [("text", .str "Hypertension")]),
    ("clinicalStatus", .obj [("coding", .arr [.obj [("code", .str "active")]])]),
    ("onsetDateTime", .str "2015-03-02")])],
  .obj [("resource", .obj [
    ("resourceType", .str "Observation"),
    ("category", .arr [.obj [("coding", .arr [.obj [("code", .str "vital-signs")]])]]),
    ("code", .obj [("text", .str "Poids")]),
    ("valueQuantity", .obj [("value", .num 80), ("unit", .str "kg")]),
    ("effectiveDateTime", .str "2023-01-05")])],
  .obj [("resource", .obj [
    ("resourceType", .str "MedicationRequest"),
    ("medicationCodeableConcept", .obj [("text", .str "Lisinopril")]),
    ("status", .str "active"),
    ("authoredOn", .str "2020-06-01")])],
  .obj [("resource", .obj [
    ("resourceType", .str "AllergyIntolerance"),
    ("code", .obj [("text", .str "Pollen")]),
    ("type", .str "allergy"),
    ("category", .arr [.str "environment"])])],
  .obj [("resource", .obj [
    ("resourceType", .str "Procedure"),
    ("code", .obj [("text", .str "Appendicectomie")]),
    ("performedDateTime", .str "2010-09-09")])],
  .obj [("resource", .obj [
    ("resourceType", .str "Encounter"),
    ("type", .arr [.obj [("text", .str "Consultation")]]),
    ("period", .obj [("start", .str "2023-02-03")]),
    ("serviceProvider", .obj [("display", .str "CH Lille")])])],
  .obj [("resource", .obj [
    ("resourceType", .str "Immunization"),
    ("vaccineCode", .obj [("text", .str "Grippe")]),
    ("occurrenceDateTime", .str "2022-10-10")])]])]

/-- Example fixture for the export-fallback witness. -/
def sampleExample : GeneratedExample :=
  { use_case := "clinical_summary", instruction := "I", input_context := "C",
    output := "O", patient_id := "p1", patient_name := "Jean Martin" }

/-- Builder fixture holding one accumulated example. -/
def sampleBuilder : DatasetBuilder :=
  { config := { use_cases := ["clinical_summary"], api_key := "x" },
    formatter := .alpaca, provider := .anthropic,
    examples := [sampleExample], stats := {} }

/-- Success of a fallible computation together with a postcondition on
the produced value. -/
def pyOkAnd {a : Type} (e : Py a) (p : a → Prop) : Prop :=
  ∃ v, e = Except.ok v ∧ p v

/-- Boolean success-with-postcondition, convenient for functions defined
by string-literal matches. -/
def pyOkB {a : Type} (e : Py a) (p : a → Bool) : Bool :=
  match e with
  | .ok v => p v
  | .error _ => false

/-- Invariant of the `_parse_resources` grouping: every bucket key is a
hashable value, and every resource in a bucket is well shaped and carries
a `resourceType` equal (in the Python `==` sense) to the bucket key. -/
def bucketInv (m : List (Json × List Json)) : Prop :=
  ∀ p ∈ m, p.1.unhashable = false ∧ ∀ r ∈ p.2, wfResource r = true ∧
    ∃ rfs, r = Json.obj rfs ∧ ∃ k2, lookupField rfs "resourceType" = some k2 ∧
      p.1.beq k2 = true

section Theorems

/-- Mapping a fallible body over a list succeeds when it succeeds on every
element, and preserves length. -/
theorem mapPy_ok {α β : Type} (f : α → Py β) :
    ∀ l : List α, (∀ x ∈ l, (f x).isOk) →
      ∃ r, mapPy f l = .ok r ∧ r.length = l.length := by
  intro l
  induction l with
  | nil => intro _; exact ⟨[], rfl, rfl⟩
  | cons x xs ih =>
    intro h
    have hx := h x (List.mem_cons_self x xs)
    obtain ⟨y, hy⟩ : ∃ y, f x = .ok y := by
      cases hfx : f x with
      | ok y => exact ⟨y, rfl⟩
      | error e => rw [hfx] at hx; simp [Except.isOk, Except.toBool] at hx
    obtain ⟨r, hr, hlen⟩ := ih (fun z hz => h z (List.mem_cons_of_mem x hz))
    refine ⟨y :: r, ?_, by simp [hlen]⟩
    simp only [mapPy, hy, hr]
    rfl

/-- C9: `DatasetConfig.validate` is a pure function of the configuration;
with no use cases and no API key it returns exactly the two distinct
errors (empty use-case list, missing key), and with
`use_cases = ["clinical_summary"]` and a non-empty key it returns no
error. -/
theorem C9_config_validation :
    (DatasetConfig.validate { use_cases := [], api_key := "" } =
      ["Au moins un cas d" ++ apos ++ "usage doit être sélectionné",
       "Clé API requise"]
     ∧ ("Au moins un cas d" ++ apos ++ "usage doit être sélectionné" : String)
        ≠ "Clé API requise")
    ∧ DatasetConfig.validate { use_cases := ["clinical_summary"], api_key := "x" } = [] :=
  ⟨⟨rfl, by decide⟩, rfl⟩

/-- C7 counterexample: with the empty string supplied as system prompt
(`system_prompt = some ""`), `ShareGPTFormatter.format` emits no system
turn, contradicting the claim that a system turn is prepended whenever a
system prompt is supplied. -/
theorem C7_counterexample :
    ((conversationTurns (ShareGPTFormatter.format "i" "c" "o" (some ""))).map
      turnRole = ["human", "gpt"])
    ∧ ShareGPTFormatter.format "i" "c" "o" (some "") =
        ShareGPTFormatter.format "i" "c" "o" none :=
  ⟨rfl, rfl⟩

/-- C7 (amended): the first turn is a system turn exactly when a
non-empty system prompt string is supplied; the human turn is the
stripped instruction, joined to the stripped context by a blank line when
the stripped context is non-empty; the gpt turn is the stripped output. -/
theorem C7_sharegpt_shape (instruction input_context output : String)
    (sys : Option String) :
    ((∃ s, sys = some s ∧ s ≠ "") →
      (conversationTurns (ShareGPTFormatter.format instruction input_context
        output sys)).map turnRole = ["system", "human", "gpt"])
    ∧ ((sys = none ∨ sys = some "") →
      (conversationTurns (ShareGPTFormatter.format instruction input_context
        output sys)).map turnRole = ["human", "gpt"])
    ∧ (∀ s, sys = some s → s ≠ "" →
      turnValue (conversationTurns (ShareGPTFormatter.format instruction
        input_context output sys)) "system" = some (pyStrip s))
    ∧ (pyStrip input_context ≠ "" →
      turnValue (conversationTurns (ShareGPTFormatter.format instruction
        input_context output sys)) "human" =
        some (pyStrip instruction ++ "\n\n" ++ pyStrip input_context))
    ∧ (pyStrip input_context = "" →
      turnValue (conversationTurns (ShareGPTFormatter.format instruction
        input_context output sys)) "human" = some (pyStrip instruction))
    ∧ turnValue (conversationTurns (ShareGPTFormatter.format instruction
        input_context output sys)) "gpt" = some (pyStrip output) := by
  have hmain : ∀ (pre : List Json),
      turnValue (pre ++ [.obj [("from", .str "human"), ("value", .str
        (if pyStrip input_context ≠ "" then
          pyStrip instruction ++ "\n\n" ++ pyStrip input_context
        else pyStrip instruction))],
        .obj [("from", .str "gpt"), ("value", .str (pyStrip output))]]) "gpt"
        = some (pyStrip output) → True := fun _ _ => trivial
  clear hmain
  cases sys with
  | none =>
    refine ⟨?_, ?_, ?_, ?_, ?_, ?_⟩
    · rintro ⟨s, hs, -⟩; cases hs
    · intro _
      by_cases hc : pyStrip input_context = "" <;>
        simp [ShareGPTFormatter.format, conversationTurns, objGet, lookupField,
          turnRole, hc]
    · intro s hs; cases hs
    · intro hc
      simp [ShareGPTFormatter.format, conversationTurns, objGet, lookupField,
        turnValue, turnRole, hc]
    · intro hc
      simp [ShareGPTFormatter.format, conversationTurns, objGet, lookupField,
        turnValue, turnRole, hc]
    · by_cases hc : pyStrip input_context = "" <;>
        simp [ShareGPTFormatter.format, conversationTurns, objGet, lookupField,
          turnValue, turnRole, hc]
  | some s =>
    by_cases hs : s = ""
    · subst hs
      refine ⟨?_, ?_, ?_, ?_, ?_, ?_⟩
      · rintro ⟨s2, hs2, hne⟩
        injection hs2 with h2; exact absurd h2.symm hne
      · intro _
        by_cases hc : pyStrip input_context = "" <;>
          simp [ShareGPTFormatter.format, conversationTurns, objGet, lookupField,
            turnRole, hc]
      · intro s2 hs2 hne
        injection hs2 with h2; exact absurd h2.symm hne
      · intro hc
        simp [ShareGPTFormatter.format, conversationTurns, objGet, lookupField,
          turnValue, turnRole, hc]
      · intro hc
        simp [ShareGPTFormatter.format, conversationTurns, objGet, lookupField,
          turnValue, turnRole, hc]
      · by_cases hc : pyStrip input_context = "" <;>
          simp [ShareGPTFormatter.format, conversationTurns, objGet, lookupField,
            turnValue, turnRole, hc]
    · refine ⟨?_, ?_, ?_, ?_, ?_, ?_⟩
      · intro _
        by_cases hc : pyStrip input_context = "" <;>
          simp [ShareGPTFormatter.format, conversationTurns, objGet, lookupField,
            turnRole, hs, hc]
      · rintro (h | h)
        · cases h
        · injection h with h2; exact absurd h2 hs
      · intro s2 hs2 _
        injection hs2 with h2
        subst h2
        by_cases hc : pyStrip input_context = "" <;>
          simp [ShareGPTFormatter.format, conversationTurns, objGet, lookupField,
            turnValue, turnRole, hs, hc]
      · intro hc
        simp [ShareGPTFormatter.format, conversationTurns, objGet, lookupField,
          turnValue, turnRole, hs, hc]
      · intro hc
        simp [ShareGPTFormatter.format, conversationTurns, objGet, lookupField,
          turnValue, turnRole, hs, hc]
      · by_cases hc : pyStrip input_context = "" <;>
          simp [ShareGPTFormatter.format, conversationTurns, objGet, lookupField,
            turnValue, turnRole, hs, hc]

/-- C7 witness: the amended shape theorem applied to a concrete non-empty
system prompt. -/
theorem C7_sharegpt_shape_witness :
    (conversationTurns (ShareGPTFormatter.format "i" "c" "o" (some "s"))).map
      turnRole = ["system", "human", "gpt"] :=
  (C7_sharegpt_shape "i" "c" "o" (some "s")).1 ⟨"s", rfl, by decide⟩

/-- C3: `LLMClient.generate` always returns a fully populated
`LLMResponse` (it is a total function — the source catches every provider
exception): a failed response carries an error message, empty content and
zero token counts; a successful one carries no error; and with no API key
configured the result is a failure independent of the provider outcome,
which is never consulted. -/
theorem C3_llm_generate (provider : Provider) (api_key model : String)
    (res : ProviderResult) :
    ((LLMClient.generate provider api_key model res).success = false →
      (LLMClient.generate provider api_key model res).error ≠ none
      ∧ (LLMClient.generate provider api_key model res).content = ""
      ∧ (LLMClient.generate provider api_key model res).tokens_input = 0
      ∧ (LLMClient.generate provider api_key model res).tokens_output = 0)
    ∧ ((LLMClient.generate provider api_key model res).success = true →
      (LLMClient.generate provider api_key model res).error = none)
    ∧ (api_key = "" →
      (LLMClient.generate provider api_key model res).success = false
      ∧ ∀ res2, LLMClient.generate provider api_key model res2 =
          LLMClient.generate provider api_key model res)
    ∧ (∀ c ti tn, api_key ≠ "" → res = .reply c ti tn →
      (LLMClient.generate provider api_key model res).success = true
      ∧ (LLMClient.generate provider api_key model res).content = c) := by
  cases provider <;> cases res <;> by_cases hk : api_key = "" <;>
    simp_all [LLMClient.generate, AnthropicClient.generate, OpenAIClient.generate]

/-- C3 witness: a missing key short-circuits to a failure for a concrete
provider outcome. -/
theorem C3_llm_generate_witness :
    (LLMClient.generate .anthropic "" "claude-3-haiku-20240307"
      (.reply "ok" 5 7)).success = false :=
  ((C3_llm_generate .anthropic "" "claude-3-haiku-20240307"
    (.reply "ok" 5 7)).2.2.1 rfl).1

/-- C10: a falsy `examples` argument — in particular the explicit empty
list — makes `format_examples` (and the export operations delegating to
it) fall back to the builder's full accumulated example list; when every
accumulated use case is registered, the export of `[]` therefore emits
one record per accumulated example. -/
theorem C10_format_examples_fallback (b : DatasetBuilder) :
    b.format_examples (some []) = b.format_examples none
    ∧ b.format_examples none = b.format_examples (some b.examples)
    ∧ b.export_jsonl_content (some []) = b.export_jsonl_content none
    ∧ b.export_json_records (some []) = b.export_json_records none
    ∧ ((∀ ex ∈ b.examples,
        (AVAILABLE_TEMPLATES.find? (fun p => p.1 == ex.use_case)).isSome) →
      ∃ out, b.format_examples (some []) = .ok out
        ∧ out.length = b.examples.length) := by
  have h1 : b.format_examples (some []) = b.format_examples none := by
    simp [DatasetBuilder.format_examples]
  have h2 : b.format_examples none = b.format_examples (some b.examples) := by
    simp only [DatasetBuilder.format_examples]
    cases hE : b.examples <;> simp [hE]
  refine ⟨h1, h2, ?_, ?_, ?_⟩
  · simp [DatasetBuilder.export_jsonl_content, h1]
  · simp [DatasetBuilder.export_json_records, h1]
  · intro h
    have : ∀ ex ∈ b.examples, ((fun ex => do
        let template ← get_template ex.use_case
        let system_prompt := (if b.config.include_system_prompt then
            some template.system_prompt else none)
        pure (formatRecord b.formatter ex.instruction ex.input_context
          ex.output system_prompt) : GeneratedExample → Py Json) ex).isOk := by
      intro ex hex
      have := h ex hex
      cases hf : AVAILABLE_TEMPLATES.find? (fun p => p.1 == ex.use_case) with
      | none => rw [hf] at this; simp at this
      | some t =>
        simp only [get_template, hf, Option.map_some]
        rfl
    obtain ⟨out, hout, hlen⟩ := mapPy_ok _ b.examples this
    refine ⟨out, ?_, hlen⟩
    rw [h1]
    simpa [DatasetBuilder.format_examples] using hout

/-- C10 witness: the fallback theorem applied to a concrete builder with
one accumulated example of a registered use case. -/
theorem C10_format_examples_fallback_witness :
    ∃ out, sampleBuilder.format_examples (some []) = .ok out
      ∧ out.length = sampleBuilder.examples.length :=
  (C10_format_examples_fallback sampleBuilder).2.2.2.2 (by
    intro ex hex
    have hx : ex = sampleExample := by simpa [sampleBuilder] using hex
    subst hx
    rfl)

/-- C2 counterexample: the claim fails on the code at the claimed inputs.
The compact context of a patient born 1990-06-15 evaluated on 2024-06-14
shows 34 (plain year subtraction, no month/day correction), not the
claimed 33; and the full context of a patient who died on 2000-01-01
still ages with the evaluation date (34 at 2024-06-20), not with the
death date (which would give 9). -/
theorem C2_counterexample :
    build_compact_context ⟨2024, 6, 14⟩ sampleBundle =
      .ok "Patient: Jean Martin, H, 34ans"
    ∧ build_demographics deceasedPatient ⟨2024, 6, 20⟩ =
      .ok ("## Informations Patient\n- Sexe: Femme\n- Âge: 34 ans "
        ++ "(né(e) le 15/06/1990)\n- Décédé(e) le: 01/01/2000") :=
  ⟨rfl, rfl⟩

/-- C2 (amended): the full-context age is computed from the birth date to
the evaluation date — never to the death date — by calendar-year
subtraction with the minus-one correction, so the sample patient renders
33 on 2024-06-14 and 34 on 2024-06-15; the compact context instead uses a
plain year difference with no correction and renders 34 on both dates. -/
theorem C2_age_rendering :
    (∀ today : Date, build_demographics samplePatient today =
      .ok (String.intercalate "\n" ["## Informations Patient",
        "- Nom: Jean Martin", "- Sexe: Homme",
        "- Âge: " ++ toString (pyAge ⟨1990, 6, 15⟩ today)
          ++ " ans (né(e) le " ++ "15/06/1990" ++ ")"]))
    ∧ (∀ today : Date, build_demographics deceasedPatient today =
      .ok (String.intercalate "\n" ["## Informations Patient", "- Sexe: Femme",
        "- Âge: " ++ toString (pyAge ⟨1990, 6, 15⟩ today)
          ++ " ans (né(e) le " ++ "15/06/1990" ++ ")",
        "- Décédé(e) le: 01/01/2000"]))
    ∧ pyAge ⟨1990, 6, 15⟩ ⟨2024, 6, 14⟩ = 33
    ∧ pyAge ⟨1990, 6, 15⟩ ⟨2024, 6, 15⟩ = 34
    ∧ build_full_context 20 10 ⟨2024, 6, 14⟩ sampleBundle =
      .ok ("## Informations Patient\n- Nom: Jean Martin\n- Sexe: Homme\n"
        ++ "- Âge: 33 ans (né(e) le 15/06/1990)")
    ∧ build_full_context 20 10 ⟨2024, 6, 15⟩ sampleBundle =
      .ok ("## Informations Patient\n- Nom: Jean Martin\n- Sexe: Homme\n"
        ++ "- Âge: 34 ans (né(e) le 15/06/1990)")
    ∧ build_compact_context ⟨2024, 6, 14⟩ sampleBundle =
      .ok "Patient: Jean Martin, H, 34ans"
    ∧ build_compact_context ⟨2024, 6, 15⟩ sampleBundle =
      .ok "Patient: Jean Martin, H, 34ans" :=
  ⟨fun _ => rfl, fun _ => rfl, rfl, rfl, rfl, rfl, rfl, rfl⟩

/-- One more pass of the cycle appends one more shuffled batch. -/
theorem cycleOut_succ (shuffles : Nat → List String) (k : Nat) :
    cycleOut shuffles (k + 1) = cycleOut shuffles k ++ shuffles k := by
  simp [cycleOut, List.range_succ]

/-- The first `T` assigned slots are the complete batches consumed so
far followed by the consumed prefix of the current batch. -/
theorem assignedSlots_decomp (ucs : List String) (shuffles : Nat → List String)
    (hlen : ∀ i, (shuffles i).length = ucs.length) (hn : 0 < ucs.length) :
    ∀ T, assignedSlots ucs shuffles T =
      cycleOut shuffles (T / ucs.length)
        ++ (shuffles (T / ucs.length)).take (T % ucs.length) := by
  set n := ucs.length with hn_def
  intro T
  induction T with
  | zero => simp [assignedSlots, cycleOut, Nat.zero_div, Nat.zero_mod]
  | succ T ih =>
    have hrange : List.range (T + 1) = List.range T ++ [T] := by
      rw [List.range_succ]
    have hstep : assignedSlots ucs shuffles (T + 1) =
        assignedSlots ucs shuffles T ++ [(shuffles (T / n)).getD (T % n) ""] := by
      simp [assignedSlots, hrange, use_case_at]
    have hmod : T % n < n := Nat.mod_lt _ hn
    have hdm : n * (T / n) + T % n = T := Nat.div_add_mod T n
    by_cases hb : T % n + 1 = n
    · have hdiv : (T + 1) / n = T / n + 1 := by
        have : T + 1 = n * (T / n + 1) := by
          rw [Nat.mul_add, Nat.mul_one]
          omega
        rw [this, Nat.mul_div_cancel_left _ hn]
      have hmod2 : (T + 1) % n = 0 := by
        have : T + 1 = n * (T / n + 1) := by
          rw [Nat.mul_add, Nat.mul_one]
          omega
        rw [this, Nat.mul_mod_right]
      have hlt : T % n < (shuffles (T / n)).length := by rw [hlen]; exact hmod
      have htake : (shuffles (T / n)).take (T % n)
          ++ [(shuffles (T / n)).getD (T % n) ""] = shuffles (T / n) := by
        rw [List.getD_eq_getElem _ _ hlt, List.take_concat_get' _ _ hlt]
        have hlen2 : T % n + 1 = (shuffles (T / n)).length := by rw [hlen]; exact hb
        rw [hlen2, List.take_length]
      rw [hstep, ih, hdiv, hmod2, cycleOut_succ]
      rw [List.take_zero, List.append_nil, List.append_assoc, htake]
    · have hlt2 : T % n + 1 < n := by omega
      have hdiv : (T + 1) / n = T / n := by
        have h1 : T + 1 = n * (T / n) + (T % n + 1) := by omega
        rw [h1, Nat.mul_add_div hn, Nat.div_eq_of_lt hlt2, Nat.add_zero]
      have hmod2 : (T + 1) % n = T % n + 1 := by
        have h1 : T + 1 = n * (T / n) + (T % n + 1) := by omega
        rw [h1, Nat.mul_add_mod, Nat.mod_eq_of_lt hlt2]
      have hlt : T % n < (shuffles (T / n)).length := by rw [hlen]; exact hmod
      rw [hstep, ih, hdiv, hmod2]
      rw [List.getD_eq_getElem _ _ hlt, List.append_assoc,
        List.take_concat_get' _ _ hlt]

/-- Each complete batch contributes the base multiplicity of a use case. -/
theorem count_cycleOut (ucs : List String) (shuffles : Nat → List String)
    (hperm : ∀ i, (shuffles i).Perm ucs) (uc : String) :
    ∀ k, (cycleOut shuffles k).count uc = k * ucs.count uc := by
  intro k
  induction k with
  | zero => simp [cycleOut]
  | succ k ih =>
    rw [cycleOut_succ, List.count_append, ih, (hperm k).count_eq]
    ring

/-- C6: the shuffled round-robin consumes each freshly shuffled
permutation in order, so after `T` slots every configured use case has
been assigned either `T / n` or `T / n + 1` times (`n` the number of
configured use cases); any two use-case counts differ by at most one;
and with `use_cases = [a, b]` and 100 slots the counts are exactly 50
each, inside the claimed `[40, 60]`. -/
theorem C6_use_case_cycle (ucs : List String) (shuffles : Nat → List String)
    (hperm : ∀ i, (shuffles i).Perm ucs) (hne : ucs ≠ []) :
    (∀ T, assignedSlots ucs shuffles T =
      cycleOut shuffles (T / ucs.length)
        ++ (shuffles (T / ucs.length)).take (T % ucs.length))
    ∧ (∀ uc, uc ∈ ucs → ucs.Nodup → ∀ T,
        T / ucs.length ≤ countAssigned ucs shuffles uc T
        ∧ countAssigned ucs shuffles uc T ≤ T / ucs.length + 1)
    ∧ (∀ a b, ucs.Nodup → a ∈ ucs → b ∈ ucs → ∀ T,
        (countAssigned ucs shuffles a T : Int)
          - (countAssigned ucs shuffles b T : Int) ≤ 1)
    ∧ (∀ a b, ucs = [a, b] → a ≠ b →
        countAssigned ucs shuffles a 100 = 50
        ∧ countAssigned ucs shuffles b 100 = 50
        ∧ 40 ≤ countAssigned ucs shuffles a 100
        ∧ countAssigned ucs shuffles a 100 ≤ 60) := by
  have hn : 0 < ucs.length := List.length_pos.mpr hne
  have hlen : ∀ i, (shuffles i).length = ucs.length := fun i => (hperm i).length_eq
  have hdecomp := assignedSlots_decomp ucs shuffles hlen hn
  have hcount : ∀ uc, uc ∈ ucs → ucs.Nodup → ∀ T,
      countAssigned ucs shuffles uc T = T / ucs.length +
        ((shuffles (T / ucs.length)).take (T % ucs.length)).count uc := by
    intro uc hmem hnodup T
    have h1 : ucs.count uc = 1 := List.count_eq_one_of_mem hnodup hmem
    rw [countAssigned, hdecomp T, List.count_append,
      count_cycleOut ucs shuffles hperm uc, h1, Nat.mul_one]
  have htake_le : ∀ uc, uc ∈ ucs → ucs.Nodup → ∀ q r,
      ((shuffles q).take r).count uc ≤ 1 := by
    intro uc hmem hnodup q r
    have h1 : ucs.count uc = 1 := List.count_eq_one_of_mem hnodup hmem
    calc ((shuffles q).take r).count uc
        ≤ (shuffles q).count uc := (List.take_sublist r _).count_le uc
      _ = ucs.count uc := (hperm q).count_eq uc
      _ = 1 := h1
  refine ⟨hdecomp, ?_, ?_, ?_⟩
  · intro uc hmem hnodup T
    rw [hcount uc hmem hnodup T]
    constructor
    · exact Nat.le_add_right _ _
    · have := htake_le uc hmem hnodup (T / ucs.length) (T % ucs.length)
      omega
  · intro a b hnodup ha hb T
    have hA := (by
      rw [hcount a ha hnodup T]
      constructor
      · exact Nat.le_add_right _ _
      · have := htake_le a ha hnodup (T / ucs.length) (T % ucs.length)
        omega : T / ucs.length ≤ countAssigned ucs shuffles a T
          ∧ countAssigned ucs shuffles a T ≤ T / ucs.length + 1)
    have hB := (by
      rw [hcount b hb hnodup T]
      constructor
      · exact Nat.le_add_right _ _
      · have := htake_le b hb hnodup (T / ucs.length) (T % ucs.length)
        omega : T / ucs.length ≤ countAssigned ucs shuffles b T
          ∧ countAssigned ucs shuffles b T ≤ T / ucs.length + 1)
    omega
  · intro a b hab hne2
    subst hab
    have hnodup : List.Nodup [a, b] := by simp [hne2]
    have hmema : a ∈ [a, b] := by simp
    have hmemb : b ∈ [a, b] := by simp
    have hLen : ([a, b] : List String).length = 2 := rfl
    have hca := hcount a hmema hnodup 100
    have hcb := hcount b hmemb hnodup 100
    rw [hLen] at hca hcb
    norm_num at hca hcb
    refine ⟨?_, ?_, ?_, ?_⟩ <;> omega

/-- C6 witness: a concrete two-element configuration with the identity
shuffle stream reaches the exact 50/50 split over 100 slots. -/
theorem C6_use_case_cycle_witness :
    countAssigned ["a", "b"] (fun _ => ["a", "b"]) "a" 100 = 50 :=
  ((C6_use_case_cycle ["a", "b"] (fun _ => ["a", "b"])
    (fun _ => List.Perm.refl _) (by decide)).2.2.2 "a" "b" rfl
    (by decide)).1

set_option maxHeartbeats 1000000 in
theorem psbQuote (rest : List Char) : parseStringBody ('"' :: rest) = some ([], rest) := by
  rw [parseStringBody.eq_def]
  simp

set_option maxHeartbeats 1000000 in
theorem psbEscN (rest : List Char) : parseStringBody ('\\' :: 'n' :: rest) =
    (parseStringBody rest).map (fun p => ('\n' :: p.1, p.2)) := by
  rw [parseStringBody.eq_def]
  simp

set_option maxHeartbeats 1000000 in
theorem psbEscT (rest : List Char) : parseStringBody ('\\' :: 't' :: rest) =
    (parseStringBody rest).map (fun p => ('\t' :: p.1, p.2)) := by
  rw [parseStringBody.eq_def]
  simp

set_option maxHeartbeats 1000000 in
theorem psbEscR (rest : List Char) : parseStringBody ('\\' :: 'r' :: rest) =
    (parseStringBody rest).map (fun p => ('\r' :: p.1, p.2)) := by
  rw [parseStringBody.eq_def]
  simp

set_option maxHeartbeats 1000000 in
theorem psbEscB (rest : List Char) : parseStringBody ('\\' :: 'b' :: rest) =
    (parseStringBody rest).map (fun p => ('\x08' :: p.1, p.2)) := by
  rw [parseStringBody.eq_def]
  simp

set_option maxHeartbeats 1000000 in
theorem psbEscF (rest : List Char) : parseStringBody ('\\' :: 'f' :: rest) =
    (parseStringBody rest).map (fun p => ('\x0c' :: p.1, p.2)) := by
  rw [parseStringBody.eq_def]
  simp

set_option maxHeartbeats 1000000 in
theorem psbEscQ (rest : List Char) : parseStringBody ('\\' :: '\"' :: rest) =
    (parseStringBody rest).map (fun p => ('\"' :: p.1, p.2)) := by
  rw [parseStringBody.eq_def]
  simp

set_option maxHeartbeats 1000000 in
theorem psbEscS (rest : List Char) : parseStringBody ('\\' :: '\\' :: rest) =
    (parseStringBody rest).map (fun p => ('\\' :: p.1, p.2)) := by
  rw [parseStringBody.eq_def]
  simp

set_option maxHeartbeats 1000000 in
theorem psbEscU (a b c d : Char) (rest : List Char) :
    parseStringBody ('\\' :: 'u' :: a :: b :: c :: d :: rest) =
    (match hexVal a, hexVal b, hexVal c, hexVal d with
     | some v1, some v2, some v3, some v4 =>
       (parseStringBody rest).map (fun p =>
         (Char.ofNat (v1 * 4096 + v2 * 256 + v3 * 16 + v4) :: p.1, p.2))
     | _, _, _, _ => none) := by
  rw [parseStringBody.eq_def]
  simp

set_option maxHeartbeats 1000000 in
theorem psbPlain (c : Char) (hc1 : c ≠ '"') (hc2 : c ≠ '\\') (rest : List Char) :
    parseStringBody (c :: rest) =
    (parseStringBody rest).map (fun p => (c :: p.1, p.2)) := by
  rw [parseStringBody.eq_def]
  simp [hc1, hc2]


theorem strData_append (s t : String) : (s ++ t).toList = s.toList ++ t.toList := rfl

theorem jsonEscape_data (s : String) :
    (jsonEscape s).data = s.data.flatMap jsonEscapeChar := rfl

theorem hexVal_hexDigit : ∀ m, m < 16 → hexVal (hexDigit m) = some m := by decide

theorem hexValZero : hexVal '0' = some 0 := by decide

set_option maxHeartbeats 4000000 in
theorem parseStringBody_escape :
    ∀ (l : List Char) (rest : List Char),
      parseStringBody (l.flatMap jsonEscapeChar ++ '"' :: rest) = some (l, rest) := by
  intro l
  induction l with
  | nil =>
    intro rest
    rw [List.flatMap_nil, List.nil_append, psbQuote]
  | cons ch l ih =>
    intro rest
    show parseStringBody ((jsonEscapeChar ch ++ l.flatMap jsonEscapeChar) ++ '"' :: rest) = _
    by_cases h1 : ch = '"'
    · subst h1
      rw [show jsonEscapeChar '"' = ['\\', '"'] from rfl]
      simp only [List.cons_append, List.nil_append]
      rw [psbEscQ, ih]
      rfl
    by_cases h2 : ch = '\\'
    · subst h2
      rw [show jsonEscapeChar '\\' = ['\\', '\\'] from rfl]
      simp only [List.cons_append, List.nil_append]
      rw [psbEscS, ih]
      rfl
    by_cases h3 : ch = '\n'
    · subst h3
      rw [show jsonEscapeChar '\n' = ['\\', 'n'] from rfl]
      simp only [List.cons_append, List.nil_append]
      rw [psbEscN, ih]
      rfl
    by_cases h4 : ch = '\t'
    · subst h4
      rw [show jsonEscapeChar '\t' = ['\\', 't'] from rfl]
      simp only [List.cons_append, List.nil_append]
      rw [psbEscT, ih]
      rfl
    by_cases h5 : ch = '\r'
    · subst h5
      rw [show jsonEscapeChar '\r' = ['\\', 'r'] from rfl]
      simp only [List.cons_append, List.nil_append]
      rw [psbEscR, ih]
      rfl
    by_cases h6 : ch = '\x08'
    · subst h6
      rw [show jsonEscapeChar '\x08' = ['\\', 'b'] from rfl]
      simp only [List.cons_append, List.nil_append]
      rw [psbEscB, ih]
      rfl
    by_cases h7 : ch = '\x0c'
    · subst h7
      rw [show jsonEscapeChar '\x0c' = ['\\', 'f'] from rfl]
      simp only [List.cons_append, List.nil_append]
      rw [psbEscF, ih]
      rfl
    by_cases h8 : ch.toNat < 32
    · have he : jsonEscapeChar ch =
          ['\\', 'u', '0', '0', hexDigit (ch.toNat / 16), hexDigit (ch.toNat % 16)] := by
        unfold jsonEscapeChar
        simp [h1, h2, h3, h4, h5, h6, h7, h8]
      have d1 : ch.toNat / 16 < 16 := by omega
      have d2 : ch.toNat % 16 < 16 := by omega
      have hch : ch.toNat / 16 * 16 + ch.toNat % 16 = ch.toNat := by omega
      rw [he]
      simp only [List.cons_append, List.nil_append]
      rw [psbEscU]
      simp only [hexValZero, hexVal_hexDigit _ d1, hexVal_hexDigit _ d2, ih]
      simp only [Nat.zero_mul, Nat.zero_add]
      rw [hch, Char.ofNat_toNat]
      rfl
    · have he : jsonEscapeChar ch = [ch] := by
        unfold jsonEscapeChar
        simp [h1, h2, h3, h4, h5, h6, h7, h8]
      rw [he]
      simp only [List.cons_append, List.nil_append]
      rw [psbPlain ch h1 h2, ih]
      rfl

theorem charsStart_self_append : ∀ (pat rest : List Char),
    charsStart pat (pat ++ rest) = true := by
  intro pat
  induction pat with
  | nil => intro rest; rfl
  | cons c cs ih => intro rest; simp [charsStart, ih]

theorem expectChars_self_append (pat rest : List Char) :
    expectChars pat (pat ++ rest) = some rest := by
  simp [expectChars, charsStart_self_append, List.drop_left]

theorem optBind_some {α β : Type} (a : α) (f : α → Option β) :
    (Bind.bind (some a) f) = f a := rfl

theorem alpacaDumps_toList (i c o : String) (sys : Option String) :
    (jsonDumps (AlpacaFormatter.format i c o sys)).toList =
      ("\x7b\"instruction\": \"").toList
        ++ ((pyStrip i).toList.flatMap jsonEscapeChar
        ++ '"' :: ((", \"input\": \"").toList
        ++ ((pyStrip c).toList.flatMap jsonEscapeChar
        ++ '"' :: ((", \"output\": \"").toList
        ++ ((pyStrip o).toList.flatMap jsonEscapeChar
        ++ '"' :: ("\x7d").toList))))) := by
  have h1 : jsonEscape "instruction" = "instruction" := rfl
  have h2 : jsonEscape "input" = "input" := rfl
  have h3 : jsonEscape "output" = "output" := rfl
  simp [AlpacaFormatter.format, jsonDumps, jsonDumpsFields,
    String.intercalate, String.intercalate.go, strData_append, h1, h2, h3,
    jsonEscape_data, List.append_assoc]

theorem parseAlpacaLine_roundtrip (i c o : String) (sys : Option String) :
    parseAlpacaLine (jsonDumps (AlpacaFormatter.format i c o sys)) =
      some (pyStrip i, pyStrip c, pyStrip o) := by
  have hL := alpacaDumps_toList i c o sys
  simp only [parseAlpacaLine]
  rw [hL]
  rw [expectChars_self_append]
  simp only [optBind_some]
  rw [parseStringBody_escape]
  simp only [optBind_some]
  rw [expectChars_self_append]
  simp only [optBind_some]
  rw [parseStringBody_escape]
  simp only [optBind_some]
  rw [expectChars_self_append]
  simp only [optBind_some]
  rw [parseStringBody_escape]
  simp only [optBind_some]
  rfl


theorem hexDigit_ne_newline : ∀ m, m < 16 → hexDigit m ≠ '\n' := by decide

theorem jsonEscapeChar_no_newline (ch : Char) : '\n' ∉ jsonEscapeChar ch := by
  by_cases h1 : ch = '"'
  · subst h1; decide
  by_cases h2 : ch = '\\'
  · subst h2; decide
  by_cases h3 : ch = '\n'
  · subst h3; decide
  by_cases h4 : ch = '\t'
  · subst h4; decide
  by_cases h5 : ch = '\r'
  · subst h5; decide
  by_cases h6 : ch = '\x08'
  · subst h6; decide
  by_cases h7 : ch = '\x0c'
  · subst h7; decide
  by_cases h8 : ch.toNat < 32
  · have he : jsonEscapeChar ch =
        ['\\', 'u', '0', '0', hexDigit (ch.toNat / 16), hexDigit (ch.toNat % 16)] := by
      unfold jsonEscapeChar
      simp [h1, h2, h3, h4, h5, h6, h7, h8]
    have d1 : ch.toNat / 16 < 16 := by omega
    have d2 : ch.toNat % 16 < 16 := by omega
    rw [he]
    simp only [List.mem_cons, List.not_mem_nil, or_false]
    push_neg
    exact ⟨by decide, by decide, by decide, by decide,
      fun h => hexDigit_ne_newline _ d1 h.symm,
      fun h => hexDigit_ne_newline _ d2 h.symm⟩
  · have he : jsonEscapeChar ch = [ch] := by
      unfold jsonEscapeChar
      simp [h1, h2, h3, h4, h5, h6, h7, h8]
    rw [he]
    simp only [List.mem_cons, List.not_mem_nil, or_false]
    exact fun h => h3 h.symm

theorem flatMap_escape_no_newline (l : List Char) :
    '\n' ∉ l.flatMap jsonEscapeChar := by
  intro h
  obtain ⟨c, -, hc⟩ := List.mem_flatMap.mp h
  exact jsonEscapeChar_no_newline c hc

theorem alpacaLine_no_newline (i c o : String) (sys : Option String) :
    '\n' ∉ (jsonDumps (AlpacaFormatter.format i c o sys)).toList := by
  rw [alpacaDumps_toList]
  intro h
  simp only [List.mem_append, List.mem_cons] at h
  rcases h with h | h | h | h | h | h | h | h | h | h
  · revert h; decide
  · exact flatMap_escape_no_newline _ h
  · exact absurd h (by decide)
  · revert h; decide
  · exact flatMap_escape_no_newline _ h
  · exact absurd h (by decide)
  · revert h; decide
  · exact flatMap_escape_no_newline _ h
  · exact absurd h (by decide)
  · revert h; decide

theorem splitListOn_cons_head (sep : Char) :
    ∀ (first rest : List Char), sep ∉ first → ∀ g gs,
      splitListOn sep rest = g :: gs →
      splitListOn sep (first ++ rest) = (first ++ g) :: gs := by
  intro first
  induction first with
  | nil => intro rest _ g gs h; simpa using h
  | cons ch cs ih =>
    intro rest hsep g gs h
    have hch : ch ≠ sep := by
      intro hc; exact hsep (by simp [hc])
    have hcs : sep ∉ cs := fun hc => hsep (List.mem_cons_of_mem _ hc)
    have ihr := ih rest hcs g gs h
    simp only [List.cons_append, splitListOn, if_neg hch, List.append_eq, ihr]

theorem splitListOn_sep_cons (sep : Char) (rest : List Char) :
    splitListOn sep (sep :: rest) = [] :: splitListOn sep rest := by
  simp [splitListOn]

theorem splitListOn_join (sep : Char) :
    ∀ (lines : List (List Char)) (first : List Char), sep ∉ first →
      (∀ l ∈ lines, sep ∉ l) →
      splitListOn sep (first ++ lines.flatMap (fun l => sep :: l)) = first :: lines := by
  intro lines
  induction lines with
  | nil =>
    intro first h _
    have := splitListOn_cons_head sep first [] h [] [] rfl
    simpa using this
  | cons l ls ih =>
    intro first h hall
    have hrest : splitListOn sep (l ++ ls.flatMap (fun x => sep :: x)) = l :: ls :=
      ih l (hall l (List.mem_cons_self l ls))
        (fun x hx => hall x (List.mem_cons_of_mem l hx))
    have hsepc : splitListOn sep (sep :: (l ++ ls.flatMap (fun x => sep :: x)))
        = [] :: l :: ls := by
      rw [splitListOn_sep_cons, hrest]
    have hshape : (l :: ls).flatMap (fun x => sep :: x)
        = sep :: (l ++ ls.flatMap (fun x => sep :: x)) := by simp
    rw [hshape, splitListOn_cons_head sep first _ h ([]) (l :: ls) hsepc,
      List.append_nil]

theorem intercalateGo_data (s : String) :
    ∀ (as : List String) (acc : String),
      (String.intercalate.go acc s as).data
        = acc.data ++ as.flatMap (fun a => s.data ++ a.data) := by
  intro as
  induction as with
  | nil => intro acc; simp [String.intercalate.go]
  | cons a as ih =>
    intro acc
    rw [String.intercalate.go, ih]
    simp [strData_append, List.append_assoc]

theorem intercalate_data (s a : String) (as : List String) :
    (String.intercalate s (a :: as)).data
      = a.data ++ as.flatMap (fun x => s.data ++ x.data) := by
  rw [String.intercalate, intercalateGo_data]

theorem format_batch_split (records : List Json) (h : records ≠ [])
    (hnl : ∀ r ∈ records, '\n' ∉ (jsonDumps r).toList) :
    splitOnCh '\n' (format_batch records) = records.map jsonDumps := by
  cases records with
  | nil => exact absurd rfl h
  | cons r rs =>
    have hdata : (format_batch (r :: rs)).toList
        = (jsonDumps r).toList
          ++ ((rs.map jsonDumps).map String.toList).flatMap (fun l => '\n' :: l) := by
      show (String.intercalate "\n" ((r :: rs).map jsonDumps)).data = _
      rw [List.map_cons, intercalate_data]
      simp [List.flatMap_map]
    have hsplit := splitListOn_join '\n' ((rs.map jsonDumps).map String.toList)
      ((jsonDumps r).toList) (hnl r (List.mem_cons_self r rs))
      (by
        intro l hl
        obtain ⟨x, hx, hxl⟩ := List.mem_map.mp hl
        obtain ⟨j, hj, hjx⟩ := List.mem_map.mp hx
        subst hxl; subst hjx
        exact hnl j (List.mem_cons_of_mem r hj))
    show (splitListOn '\n' (format_batch (r :: rs)).toList).map String.mk = _
    rw [hdata, hsplit]
    simp only [List.map_cons, List.map_map]
    rw [show (String.mk ∘ String.toList ∘ jsonDumps) = jsonDumps from rfl]
    rfl


/-- C8: `AlpacaFormatter.format` returns a record with exactly the keys
instruction/input/output holding the stripped inputs, independent of the
system prompt; serialized Alpaca lines contain no raw newline, so
`format_batch` over N newline-free records yields exactly N
newline-separated lines, the i-th being the serialization of the i-th
record, and each line parses back to its stripped field values. -/
theorem C8_alpaca_format (i c o : String) (sys : Option String)
    (records : List Json) :
    objKeys (AlpacaFormatter.format i c o sys) = ["instruction", "input", "output"]
    ∧ objGet (AlpacaFormatter.format i c o sys) "instruction" = some (.str (pyStrip i))
    ∧ objGet (AlpacaFormatter.format i c o sys) "input" = some (.str (pyStrip c))
    ∧ objGet (AlpacaFormatter.format i c o sys) "output" = some (.str (pyStrip o))
    ∧ AlpacaFormatter.format i c o sys = AlpacaFormatter.format i c o none
    ∧ '\n' ∉ (jsonDumps (AlpacaFormatter.format i c o sys)).toList
    ∧ parseAlpacaLine (jsonDumps (AlpacaFormatter.format i c o sys)) =
        some (pyStrip i, pyStrip c, pyStrip o)
    ∧ (records ≠ [] → (∀ r ∈ records, '\n' ∉ (jsonDumps r).toList) →
        splitOnCh '\n' (format_batch records) = records.map jsonDumps
        ∧ (splitOnCh '\n' (format_batch records)).length = records.length) := by
  refine ⟨rfl, rfl, rfl, rfl, rfl, alpacaLine_no_newline i c o sys,
    parseAlpacaLine_roundtrip i c o sys, ?_⟩
  intro hne hnl
  have hs := format_batch_split records hne hnl
  exact ⟨hs, by rw [hs, List.length_map]⟩

/-- C8 witness: a concrete two-record batch splits back into its two
serialized lines. -/
theorem C8_alpaca_format_witness :
    splitOnCh '\n' (format_batch
      [AlpacaFormatter.format "a" "b" "c" none,
       AlpacaFormatter.format "x" "y" "z" none]) =
      [jsonDumps (AlpacaFormatter.format "a" "b" "c" none),
       jsonDumps (AlpacaFormatter.format "x" "y" "z" none)] :=
  ((C8_alpaca_format "a" "b" "c" none
      [AlpacaFormatter.format "a" "b" "c" none,
       AlpacaFormatter.format "x" "y" "z" none]).2.2.2.2.2.2.2
    (List.cons_ne_nil _ _) (by
      intro r hr
      simp only [List.mem_cons, List.not_mem_nil, or_false] at hr
      rcases hr with h | h <;> subst h
      · exact (C8_alpaca_format "a" "b" "c" none []).2.2.2.2.2.1
      · exact (C8_alpaca_format "x" "y" "z" none []).2.2.2.2.2.1)).1

/-- Bind of a successful computation reduces to the continuation. -/
theorem pyBind_ok {a b : Type} (x : a) (f : a → Py b) :
    Bind.bind (Except.ok x : Py a) f = f x := rfl

/-- A present field satisfying a shape predicate keeps satisfying it
after the `get`-with-default, provided the default satisfies it too. -/
theorem fieldWf_getD {fs : List (String × Json)} {k : String} {p : Json → Bool}
    (d : Json) (h : fieldWf fs k p = true) (hd : p d = true) :
    p ((lookupField fs k).getD d) = true := by
  unfold fieldWf at h
  cases hF : lookupField fs k with
  | none => simpa using hd
  | some v => rw [hF] at h; simpa using h

/-- Python equality against a string value forces the same string. -/
theorem beq_str_right {j : Json} {s : String} (h : Json.beq j (.str s) = true) :
    j = .str s := by
  cases j <;> simp_all [Json.beq]

/-- Symmetric variant of `beq_str_right`. -/
theorem beq_str_left {j : Json} {s : String} (h : Json.beq (.str s) j = true) :
    j = .str s := by
  cases j <;> simp_all [Json.beq]

/-- A truthy `get` result means the key is present, and subscripting
returns the same value. -/
theorem item_of_truthy {fs : List (String × Json)} {k : String}
    (h : ((lookupField fs k).getD .null).truthy = true) :
    ∃ v, lookupField fs k = some v ∧ (Json.obj fs).item k = .ok v := by
  cases hF : lookupField fs k with
  | none => rw [hF] at h; simp [Json.truthy] at h
  | some v => exact ⟨v, rfl, by simp [Json.item, hF]⟩

/-- A true dict-membership test means the key is present. -/
theorem lookup_of_any {fs : List (String × Json)} {k : String}
    (h : fs.any (fun p => p.1 == k) = true) :
    ∃ v, lookupField fs k = some v := by
  unfold lookupField
  cases hf : List.find? (fun p => p.1 == k) fs with
  | none =>
    rw [List.find?_eq_none] at hf
    obtain ⟨p, hp, he⟩ := List.any_eq_true.mp h
    exact absurd he (by simpa using hf p hp)
  | some p => exact ⟨p.2, rfl⟩

/-- An effectful map succeeds when the body succeeds on every element
(`List.mapM` version, used by `pyJoin`). -/
theorem listMapM_ok {α β : Type} (f : α → Py β) :
    ∀ l : List α, (∀ x ∈ l, ∃ y, f x = .ok y) → ∃ ys, l.mapM f = .ok ys := by
  intro l
  induction l with
  | nil => intro _; exact ⟨[], rfl⟩
  | cons x xs ih =>
    intro h
    obtain ⟨y, hy⟩ := h x (List.mem_cons_self x xs)
    obtain ⟨ys, hys⟩ := ih (fun z hz => h z (List.mem_cons_of_mem x hz))
    refine ⟨y :: ys, ?_⟩
    rw [List.mapM_cons, hy, hys]
    rfl

/-- Joining a list of JSON strings succeeds. -/
theorem pyJoin_ok (sep : String) (xs : List Json)
    (h : ∀ e ∈ xs, e.isStr = true) : ∃ s, pyJoin sep (.arr xs) = .ok s := by
  have hmap : ∃ ys, xs.mapM (fun e => match e with
      | Json.str s => Except.ok s
      | _ => Except.error "TypeError: join") = .ok ys := by
    apply listMapM_ok
    intro x hx
    have := h x hx
    cases x <;> simp_all [Json.isStr]
  obtain ⟨ys, hys⟩ := hmap
  refine ⟨String.intercalate sep ys, ?_⟩
  unfold pyJoin
  rw [show Json.iter (Json.arr xs) = Except.ok xs from rfl, pyBind_ok, hys, pyBind_ok]
  rfl

/-- Filtered-truthy string-like values are strings. -/
theorem wfStrLike_truthy {j : Json} (h : wfStrLike j = true)
    (ht : j.truthy = true) : j.isStr = true := by
  unfold wfStrLike at h
  cases hs : j.isStr with
  | true => rfl
  | false => rw [hs] at h; simp at h; rw [ht] at h; simp at h

/-- The disjunction of two string-like values is string-like. -/
theorem pyOr_wfStrLike {a b : Json} (ha : wfStrLike a = true)
    (hb : wfStrLike b = true) : wfStrLike (pyOr a b) = true := by
  unfold pyOr
  by_cases h : a.truthy = true <;> simp [h, ha, hb]


/-- Stepping rule: a bind succeeds when its head produces a value on
which the continuation succeeds. -/
theorem pyOkAnd_bind {a b : Type} {e : Py a} {f : a → Py b} {q : b → Prop}
    (v : a) (hv : e = Except.ok v) (hf : pyOkAnd (f v) q) :
    pyOkAnd (Bind.bind e f) q := by
  obtain ⟨w, hw, hq⟩ := hf
  exact ⟨w, by rw [hv]; exact hw, hq⟩

/-- `pure` satisfies any postcondition its value satisfies. -/
theorem pyOkAnd_pure {a : Type} {p : a → Prop} (v : a) (hv : p v) :
    pyOkAnd (pure v : Py a) p := ⟨v, rfl, hv⟩

/-- `Except.ok` satisfies any postcondition its value satisfies. -/
theorem pyOkAnd_ok {a : Type} {p : a → Prop} (v : a) (hv : p v) :
    pyOkAnd (Except.ok v : Py a) p := ⟨v, rfl, hv⟩

/-- Postconditions can be weakened. -/
theorem pyOkAnd_imp {a : Type} {e : Py a} {p q : a → Prop} (h : pyOkAnd e p)
    (hpq : ∀ v, p v → q v) : pyOkAnd e q := by
  obtain ⟨v, hv, hp⟩ := h
  exact ⟨v, hv, hpq v hp⟩

/-- `dict.get` on an object value. -/
theorem getD_obj (fs : List (String × Json)) (k : String) (d : Json) :
    Json.getD (.obj fs) k d = .ok ((lookupField fs k).getD d) := rfl

/-- `dict.get` with `None` default on an object value. -/
theorem getN_obj (fs : List (String × Json)) (k : String) :
    Json.getN (.obj fs) k = .ok ((lookupField fs k).getD .null) := rfl

/-- A present field's value satisfies the field's shape predicate. -/
theorem fieldWf_some {fs : List (String × Json)} {k : String}
    {p : Json → Bool} {v : Json} (h : fieldWf fs k p = true)
    (hv : lookupField fs k = some v) : p v = true := by
  unfold fieldWf at h
  rw [hv] at h
  exact h

/-- A truthy `get`-with-`None` result comes from a present key. -/
theorem lookup_of_truthyD {fs : List (String × Json)} {k : String}
    (h : ((lookupField fs k).getD .null).truthy = true) :
    lookupField fs k = some ((lookupField fs k).getD .null) := by
  cases hF : lookupField fs k with
  | none => rw [hF] at h; simp [Json.truthy] at h
  | some v => simp

/-- Python `a or b` with fallible operands preserves a common
postcondition. -/
theorem pyOrM_okAnd {a b : Py Json} {p : Json → Prop}
    (ha : pyOkAnd a p) (hb : pyOkAnd b p) : pyOkAnd (pyOrM a b) p := by
  obtain ⟨va, hva, hpa⟩ := ha
  unfold pyOrM
  refine pyOkAnd_bind va hva ?_
  by_cases ht : va.truthy = true
  · simp only [ht, if_true]
    exact pyOkAnd_pure va hpa
  · simp only [ht, if_false]
    exact hb

/-- Effectful map: a pointwise postcondition lifts to all elements of
the produced list. -/
theorem mapPy_okAnd {a b : Type} {f : a → Py b} {q : b → Prop} :
    ∀ l : List a, (∀ x ∈ l, pyOkAnd (f x) q) →
      pyOkAnd (mapPy f l) (fun ys => ∀ y ∈ ys, q y) := by
  intro l
  induction l with
  | nil => exact fun _ => ⟨[], rfl, by simp⟩
  | cons x xs ih =>
    intro h
    obtain ⟨y, hy, hqy⟩ := h x (List.mem_cons_self x xs)
    obtain ⟨ys, hys, hqys⟩ := ih (fun z hz => h z (List.mem_cons_of_mem x hz))
    refine ⟨y :: ys, ?_, ?_⟩
    · simp only [mapPy]
      rw [hy, pyBind_ok, hys, pyBind_ok]
      rfl
    · intro z hz
      rcases List.mem_cons.mp hz with h1 | h2
      · exact h1 ▸ hqy
      · exact hqys z h2

/-- Effectful filter: succeeds when every guard does, and only keeps
elements of the input. -/
theorem filterPy_okAnd {a : Type} {p : a → Py Bool} :
    ∀ l : List a, (∀ x ∈ l, ∃ v, p x = Except.ok v) →
      pyOkAnd (filterPy p l) (fun ys => ∀ y ∈ ys, y ∈ l) := by
  intro l
  induction l with
  | nil => exact fun _ => ⟨[], rfl, by simp⟩
  | cons x xs ih =>
    intro h
    obtain ⟨v, hv⟩ := h x (List.mem_cons_self x xs)
    obtain ⟨ys, hys, hsub⟩ := ih (fun z hz => h z (List.mem_cons_of_mem x hz))
    refine ⟨if v then x :: ys else ys, ?_, ?_⟩
    · simp only [filterPy]
      rw [hv, pyBind_ok, hys, pyBind_ok]
      rfl
    · intro z hz
      cases v with
      | true =>
        simp at hz
        rcases hz with h1 | h2
        · exact h1 ▸ List.mem_cons_self x xs
        · exact List.mem_cons_of_mem x (hsub z h2)
      | false =>
        simp at hz
        exact List.mem_cons_of_mem x (hsub z hz)

/-- Effectful `any`: succeeds when every guard does. -/
theorem anyPy_ok {a : Type} {p : a → Py Bool} :
    ∀ l : List a, (∀ x ∈ l, ∃ v, p x = Except.ok v) →
      ∃ v, anyPy p l = Except.ok v := by
  intro l
  induction l with
  | nil => exact fun _ => ⟨false, rfl⟩
  | cons x xs ih =>
    intro h
    obtain ⟨v, hv⟩ := h x (List.mem_cons_self x xs)
    obtain ⟨w, hw⟩ := ih (fun z hz => h z (List.mem_cons_of_mem x hz))
    cases v with
    | true =>
      refine ⟨true, ?_⟩
      simp only [anyPy]
      rw [hv, pyBind_ok]
      rfl
    | false =>
      refine ⟨w, ?_⟩
      simp only [anyPy]
      rw [hv, pyBind_ok]
      exact hw

/-- `_format_date` succeeds on string-or-falsy input and returns a
string. -/
theorem format_date_ok {d : Json} (h : wfDateV d = true) :
    pyOkAnd (format_date d) (fun v => v.isStr = true) := by
  by_cases ht : d.truthy = true
  · have hs : d.isStr = true := wfStrLike_truthy h ht
    cases d with
    | str s =>
      unfold format_date
      simp only [ht, Bool.not_true, Bool.false_eq_true, if_false]
      cases hp : (if s.toList.contains (Char.ofNat 84) then fromisoformat (replaceZ s)
          else strptimeYMD s) with
      | some dd => exact ⟨_, rfl, rfl⟩
      | none => exact ⟨_, rfl, rfl⟩
    | null => simp [Json.isStr] at hs
    | bool b => simp [Json.isStr] at hs
    | num n => simp [Json.isStr] at hs
    | arr xs => simp [Json.isStr] at hs
    | obj fs => simp [Json.isStr] at hs
  · unfold format_date
    have ht2 : d.truthy = false := by
      cases hd : d.truthy
      · rfl
      · exact absurd hd ht
    simp only [ht2, Bool.not_false, if_true]
    exact ⟨_, rfl, rfl⟩

/-- `_get_first_display` on a well-shaped CodeableConcept returns a
string-like value. -/
theorem get_first_display_ok {fs : List (String × Json)}
    (h : wfCC (.obj fs) = true) :
    pyOkAnd (get_first_display (.obj fs)) (fun v => wfStrLike v = true) := by
  simp only [wfCC, Bool.and_eq_true] at h
  obtain ⟨h1, h2⟩ := h
  unfold get_first_display
  cases hF : lookupField fs "coding" with
  | none =>
    rw [getD_obj, hF, pyBind_ok]
    exact ⟨Json.null, rfl, rfl⟩
  | some cod =>
    have hc := fieldWf_some h2 hF
    rw [getD_obj, hF, pyBind_ok]
    cases cod with
    | arr xs =>
      cases xs with
      | nil => exact ⟨Json.null, rfl, rfl⟩
      | cons x xs =>
        simp only [List.all_cons, Bool.and_eq_true] at hc
        obtain ⟨hx, _⟩ := hc
        cases x with
        | obj efs =>
          show pyOkAnd (do
            let c0 ← Json.index (.arr (Json.obj efs :: xs)) 0
            c0.getN "display") (fun v => wfStrLike v = true)
          have hidx : Json.index (.arr (Json.obj efs :: xs)) 0 = .ok (.obj efs) := by
            simp [Json.index]
          rw [hidx, pyBind_ok, getN_obj]
          exact ⟨_, rfl, fieldWf_getD Json.null hx rfl⟩
        | null => simp at hx
        | bool b => simp at hx
        | num n => simp at hx
        | str s => simp at hx
        | arr ys => simp at hx
    | null => simp at hc
    | bool b => simp at hc
    | num n => simp at hc
    | str s => simp at hc
    | obj gs => simp at hc


/-- Bridge from the boolean form to the existential form. -/
theorem pyOkB_exists {a : Type} {e : Py a} {p : a → Bool}
    (h : pyOkB e p = true) : ∃ v, e = .ok v ∧ p v = true := by
  cases e with
  | ok v => exact ⟨v, rfl, h⟩
  | error m => simp [pyOkB] at h

/-- Indexing the head of a nonempty JSON array. -/
theorem index_cons (x : Json) (xs : List Json) :
    Json.index (.arr (x :: xs)) 0 = .ok x := by
  simp [Json.index]

/-- A well-shaped CodeableConcept is an object. -/
theorem wfCC_obj {j : Json} (h : wfCC j = true) : ∃ fs, j = .obj fs := by
  cases j with
  | obj fs => exact ⟨fs, rfl⟩
  | null => simp [wfCC] at h
  | bool b => simp [wfCC] at h
  | num n => simp [wfCC] at h
  | str s => simp [wfCC] at h
  | arr xs => simp [wfCC] at h

/-- The `text` of a well-shaped CodeableConcept is string-like. -/
theorem wfCC_text {fs : List (String × Json)} (h : wfCC (.obj fs) = true) :
    pyOkAnd (Json.getN (.obj fs) "text") (fun v => wfStrLike v = true) := by
  simp only [wfCC, Bool.and_eq_true] at h
  exact ⟨_, getN_obj fs "text", fieldWf_getD Json.null h.1 rfl⟩

/-- The `text or first display` disjunction of a well-shaped
CodeableConcept succeeds with a string-like value. -/
theorem displayOf_ok {fs : List (String × Json)} (h : wfCC (.obj fs) = true) :
    pyOkAnd (pyOrM (Json.getN (.obj fs) "text") (get_first_display (.obj fs)))
      (fun v => wfStrLike v = true) :=
  pyOrM_okAnd (wfCC_text h) (get_first_display_ok h)

/-- A CodeableConcept-shaped field read with an empty-object default is
well shaped. -/
theorem ccField_wf {fs : List (String × Json)} {k : String}
    (h : fieldWf fs k wfCC = true) :
    wfCC ((lookupField fs k).getD (.obj [])) = true :=
  fieldWf_getD (.obj []) h rfl

/-- The French clinical-status mapping succeeds on hashable values. -/
theorem condStatusFr_ok {s : Json} (h : s.unhashable = false) :
    ∃ v, condStatusFr s = Except.ok v := by
  have : pyOkB (condStatusFr s) (fun _ => true) = true := by
    cases s with
    | arr xs => simp [Json.unhashable] at h
    | obj fs => simp [Json.unhashable] at h
    | str t => unfold condStatusFr; split <;> simp_all [pyOkB, Json.isStr]
    | null => rfl
    | bool b => rfl
    | num n => rfl
  obtain ⟨v, hv, _⟩ := pyOkB_exists this
  exact ⟨v, hv⟩

/-- The French medication-status mapping succeeds on hashable values. -/
theorem medStatusFr_ok {s : Json} (h : s.unhashable = false) :
    ∃ v, medStatusFr s = Except.ok v := by
  have : pyOkB (medStatusFr s) (fun _ => true) = true := by
    cases s with
    | arr xs => simp [Json.unhashable] at h
    | obj fs => simp [Json.unhashable] at h
    | str t => unfold medStatusFr; split <;> simp_all [pyOkB, Json.isStr]
    | null => rfl
    | bool b => rfl
    | num n => rfl
  obtain ⟨v, hv, _⟩ := pyOkB_exists this
  exact ⟨v, hv⟩

/-- The French allergy-type mapping succeeds on hashable values. -/
theorem allergyTypeFr_ok {t : Json} (h : t.unhashable = false) :
    ∃ v, allergyTypeFr t = Except.ok v := by
  have : pyOkB (allergyTypeFr t) (fun _ => true) = true := by
    cases t with
    | arr xs => simp [Json.unhashable] at h
    | obj fs => simp [Json.unhashable] at h
    | str u => unfold allergyTypeFr; split <;> simp_all [pyOkB, Json.isStr]
    | null => rfl
    | bool b => rfl
    | num n => rfl
  obtain ⟨v, hv, _⟩ := pyOkB_exists this
  exact ⟨v, hv⟩

/-- The French allergy-category mapping keeps string values string. -/
theorem allergyCatFr_ok {c : Json} (h : c.isStr = true) :
    pyOkAnd (allergyCatFr c) (fun v => v.isStr = true) := by
  have : pyOkB (allergyCatFr c) Json.isStr = true := by
    cases c with
    | str t => unfold allergyCatFr; split <;> simp_all [pyOkB, Json.isStr]
    | null => simp [Json.isStr] at h
    | bool b => simp [Json.isStr] at h
    | num n => simp [Json.isStr] at h
    | arr xs => simp [Json.isStr] at h
    | obj fs => simp [Json.isStr] at h
  obtain ⟨v, hv, hp⟩ := pyOkB_exists this
  exact ⟨v, hv, hp⟩

/-- The observation category label succeeds on string categories. -/
theorem categoryLabel_ok {c : Json} (h : c.isStr = true) :
    ∃ s, categoryLabel c = Except.ok s := by
  cases c with
  | str t => exact ⟨_, rfl⟩
  | null => simp [Json.isStr] at h
  | bool b => simp [Json.isStr] at h
  | num n => simp [Json.isStr] at h
  | arr xs => simp [Json.isStr] at h
  | obj fs => simp [Json.isStr] at h

/-- A `dict.get` on an object succeeds with the field shape given by
`fieldWf` when the default also has that shape. -/
theorem getD_wf {fs : List (String × Json)} {k : String} {p : Json → Bool}
    (d : Json) (h : fieldWf fs k p = true) (hd : p d = true) :
    pyOkAnd (Json.getD (.obj fs) k d) (fun v => p v = true) :=
  ⟨_, getD_obj fs k d, fieldWf_getD d h hd⟩

/-- A `dict.get` with `None` default on an object succeeds with the
field shape given by `fieldWf` when `None` has that shape. -/
theorem getN_wf {fs : List (String × Json)} {k : String} {p : Json → Bool}
    (h : fieldWf fs k p = true) (hnull : p .null = true) :
    pyOkAnd (Json.getN (.obj fs) k) (fun v => p v = true) :=
  ⟨_, getN_obj fs k, fieldWf_getD .null h hnull⟩

/-- Weakest-precondition stepping rule for bind: the head succeeds with
a postcondition under which the continuation succeeds. -/
theorem pyOkAnd_bind2 {a b : Type} {e : Py a} {f : a → Py b} {q : b → Prop}
    (p : a → Prop) (he : pyOkAnd e p) (hf : ∀ v, p v → pyOkAnd (f v) q) :
    pyOkAnd (Bind.bind e f) q := by
  obtain ⟨v, hv, hp⟩ := he
  obtain ⟨w, hw, hq⟩ := hf v hp
  exact ⟨w, by rw [hv]; exact hw, hq⟩

/-- The gender dict lookup succeeds on hashable values. -/
theorem genderFr_ok {g : Json} (h : g.unhashable = false) :
    ∃ v, genderFr g = Except.ok v := by
  have : pyOkB (genderFr g) (fun _ => true) = true := by
    cases g with
    | arr xs => simp [Json.unhashable] at h
    | obj fs => simp [Json.unhashable] at h
    | str t => unfold genderFr; split <;> first | rfl | simp_all [pyOkB]
    | null => rfl
    | bool b => rfl
    | num n => rfl
  obtain ⟨v, hv, _⟩ := pyOkB_exists this
  exact ⟨v, hv⟩

/-- The compact gender dict lookup succeeds on hashable values. -/
theorem genderAbbrev_ok {g : Json} (h : g.unhashable = false) :
    ∃ v, genderAbbrev g = Except.ok v := by
  have : pyOkB (genderAbbrev g) (fun _ => true) = true := by
    cases g with
    | arr xs => simp [Json.unhashable] at h
    | obj fs => simp [Json.unhashable] at h
    | str t => unfold genderAbbrev; split <;> first | rfl | simp_all [pyOkB]
    | null => rfl
    | bool b => rfl
    | num n => rfl
  obtain ⟨v, hv, _⟩ := pyOkB_exists this
  exact ⟨v, hv⟩

/-- String coercion succeeds on strings. -/
theorem jsonAsStr_ok {j : Json} (h : j.isStr = true) :
    ∃ s, jsonAsStr j = Except.ok s := by
  cases j with
  | str s => exact ⟨s, rfl⟩
  | null => simp [Json.isStr] at h
  | bool b => simp [Json.isStr] at h
  | num n => simp [Json.isStr] at h
  | arr xs => simp [Json.isStr] at h
  | obj fs => simp [Json.isStr] at h

/-- The demographics section builder succeeds on well-shaped patients. -/
theorem build_demographics_ok {fs : List (String × Json)} (today : Date)
    (h : wfPatient (.obj fs) = true) :
    pyOkAnd (build_demographics (.obj fs) today) (fun _ => True) := by
  simp only [wfPatient, Bool.and_eq_true] at h
  obtain ⟨⟨⟨hname, hgender⟩, hmar⟩, haddr⟩ := h
  unfold build_demographics
  refine pyOkAnd_bind2 _ (getD_wf (.arr []) hname rfl) (fun names hn => ?_)
  refine pyOkAnd_bind2 (fun _ => True) ?_ (fun nameLines _ => ?_)
  · by_cases ht : names.truthy = true
    · rw [if_pos ht]
      cases names with
      | arr xs =>
        cases xs with
        | nil => simp [Json.truthy] at ht
        | cons x xs =>
          refine pyOkAnd_bind2 (fun v => v = x) ⟨x, index_cons x xs, rfl⟩
            (fun nd hnd => ?_)
          subst hnd
          simp only [List.all_cons, Bool.and_eq_true] at hn
          obtain ⟨hx, _⟩ := hn
          cases nd with
          | obj nfs =>
            simp only [wfName, Bool.and_eq_true] at hx
            obtain ⟨hgiven, hfam⟩ := hx
            refine pyOkAnd_bind2 _ (getD_wf (.arr []) hgiven rfl)
              (fun givenJ hg => ?_)
            cases givenJ with
            | arr ys =>
              obtain ⟨j, hj⟩ := pyJoin_ok " " ys (by
                intro e he
                exact List.all_eq_true.mp (by simpa using hg) e he)
              refine pyOkAnd_bind2 (fun _ => True) ⟨j, hj, trivial⟩
                (fun given _ => ?_)
              refine pyOkAnd_bind2 (fun _ => True)
                ⟨_, getD_obj nfs "family" (.str ""), trivial⟩ (fun family _ => ?_)
              exact ⟨_, rfl, trivial⟩
            | null => simp at hg
            | bool b => simp at hg
            | num n => simp at hg
            | str s => simp at hg
            | obj gfs => simp at hg
          | null => simp [wfName] at hx
          | bool b => simp [wfName] at hx
          | num n => simp [wfName] at hx
          | str s => simp [wfName] at hx
          | arr ys => simp [wfName] at hx
      | null => simp at hn
      | bool b => simp at hn
      | num n => simp at hn
      | str s => simp at hn
      | obj gfs => simp at hn
    · rw [if_neg ht]
      exact ⟨[], rfl, trivial⟩
  refine pyOkAnd_bind2 _ (getN_wf hgender rfl) (fun gender hg => ?_)
  have hgh : gender.unhashable = false := by simpa using hg
  obtain ⟨gfr, hgfr⟩ := genderFr_ok hgh
  refine pyOkAnd_bind2 (fun _ => True) ⟨gfr, hgfr, trivial⟩ (fun gender_fr _ => ?_)
  refine pyOkAnd_bind2 (fun _ => True) ⟨_, getN_obj fs "birthDate", trivial⟩
    (fun birth_date _ => ?_)
  refine pyOkAnd_bind2 (fun _ => True) ⟨_, getN_obj fs "deceasedDateTime", trivial⟩
    (fun deceased_date _ => ?_)
  refine pyOkAnd_bind2 _ (getD_wf (.arr []) haddr rfl) (fun addresses ha => ?_)
  refine pyOkAnd_bind2 (fun _ => True) ?_ (fun addressLines _ => ?_)
  · by_cases ht : addresses.truthy = true
    · rw [if_pos ht]
      cases addresses with
      | arr xs =>
        cases xs with
        | nil => simp [Json.truthy] at ht
        | cons x xs =>
          refine pyOkAnd_bind2 (fun v => v = x) ⟨x, index_cons x xs, rfl⟩
            (fun addr haddr0 => ?_)
          subst haddr0
          simp only [List.all_cons, Bool.and_eq_true] at ha
          obtain ⟨hx, _⟩ := ha
          cases addr with
          | obj afs =>
            refine pyOkAnd_bind2 (fun _ => True)
              ⟨_, getD_obj afs "city" (.str ""), trivial⟩ (fun city _ => ?_)
            refine pyOkAnd_bind2 (fun _ => True)
              ⟨_, getD_obj afs "state" (.str ""), trivial⟩ (fun region _ => ?_)
            refine pyOkAnd_bind2 (fun _ => True)
              ⟨_, getD_obj afs "postalCode" (.str ""), trivial⟩ (fun postal _ => ?_)
            by_cases hc : (city.truthy || region.truthy) = true
            · rw [if_pos hc]
              exact ⟨_, rfl, trivial⟩
            · rw [if_neg hc]
              exact ⟨[], rfl, trivial⟩
          | null => simp [Json.isObj] at hx
          | bool b => simp [Json.isObj] at hx
          | num n => simp [Json.isObj] at hx
          | str s => simp [Json.isObj] at hx
          | arr ys => simp [Json.isObj] at hx
      | null => simp at ha
      | bool b => simp at ha
      | num n => simp at ha
      | str s => simp at ha
      | obj gfs => simp at ha
    · rw [if_neg ht]
      exact ⟨[], rfl, trivial⟩
  refine pyOkAnd_bind2 _ (getD_wf (.obj []) hmar rfl) (fun marital hm => ?_)
  cases marital with
  | obj mfs =>
    refine pyOkAnd_bind2 (fun mt => mt = (lookupField mfs "text").getD .null)
      ⟨_, getN_obj mfs "text", rfl⟩ (fun maritalText hmt => ?_)
    refine pyOkAnd_bind2 (fun _ => True) ?_ (fun maritalLines _ => ?_)
    · by_cases ht : maritalText.truthy = true
      · rw [if_pos ht]
        rw [hmt] at ht
        obtain ⟨v, hF, hitem⟩ := item_of_truthy ht
        refine pyOkAnd_bind2 (fun _ => True) ⟨v, hitem, trivial⟩ (fun t _ => ?_)
        exact ⟨_, rfl, trivial⟩
      · rw [if_neg ht]
        exact ⟨[], rfl, trivial⟩
    exact ⟨_, rfl, trivial⟩
  | null => simp [Json.isObj] at hm
  | bool b => simp [Json.isObj] at hm
  | num n => simp [Json.isObj] at hm
  | str s => simp [Json.isObj] at hm
  | arr ys => simp [Json.isObj] at hm

/-- A well-shaped value for `wfCondition` is an object. -/
theorem wfCondition_obj {j : Json} (h : wfCondition j = true) : ∃ fs, j = .obj fs := by
  cases j with
  | obj fs => exact ⟨fs, rfl⟩
  | null => simp [wfCondition] at h
  | bool b => simp [wfCondition] at h
  | num n => simp [wfCondition] at h
  | str s => simp [wfCondition] at h
  | arr xs => simp [wfCondition] at h

/-- A well-shaped value for `wfClinicalStatus` is an object. -/
theorem wfClinicalStatus_obj {j : Json} (h : wfClinicalStatus j = true) : ∃ fs, j = .obj fs := by
  cases j with
  | obj fs => exact ⟨fs, rfl⟩
  | null => simp [wfClinicalStatus] at h
  | bool b => simp [wfClinicalStatus] at h
  | num n => simp [wfClinicalStatus] at h
  | str s => simp [wfClinicalStatus] at h
  | arr xs => simp [wfClinicalStatus] at h

/-- A well-shaped value for `wfObservation` is an object. -/
theorem wfObservation_obj {j : Json} (h : wfObservation j = true) : ∃ fs, j = .obj fs := by
  cases j with
  | obj fs => exact ⟨fs, rfl⟩
  | null => simp [wfObservation] at h
  | bool b => simp [wfObservation] at h
  | num n => simp [wfObservation] at h
  | str s => simp [wfObservation] at h
  | arr xs => simp [wfObservation] at h

/-- A well-shaped value for `wfCategoryEntry` is an object. -/
theorem wfCategoryEntry_obj {j : Json} (h : wfCategoryEntry j = true) : ∃ fs, j = .obj fs := by
  cases j with
  | obj fs => exact ⟨fs, rfl⟩
  | null => simp [wfCategoryEntry] at h
  | bool b => simp [wfCategoryEntry] at h
  | num n => simp [wfCategoryEntry] at h
  | str s => simp [wfCategoryEntry] at h
  | arr xs => simp [wfCategoryEntry] at h

/-- A well-shaped value for `wfComponent` is an object. -/
theorem wfComponent_obj {j : Json} (h : wfComponent j = true) : ∃ fs, j = .obj fs := by
  cases j with
  | obj fs => exact ⟨fs, rfl⟩
  | null => simp [wfComponent] at h
  | bool b => simp [wfComponent] at h
  | num n => simp [wfComponent] at h
  | str s => simp [wfComponent] at h
  | arr xs => simp [wfComponent] at h

/-- A well-shaped value for `wfMedication` is an object. -/
theorem wfMedication_obj {j : Json} (h : wfMedication j = true) : ∃ fs, j = .obj fs := by
  cases j with
  | obj fs => exact ⟨fs, rfl⟩
  | null => simp [wfMedication] at h
  | bool b => simp [wfMedication] at h
  | num n => simp [wfMedication] at h
  | str s => simp [wfMedication] at h
  | arr xs => simp [wfMedication] at h

/-- A well-shaped value for `wfAllergy` is an object. -/
theorem wfAllergy_obj {j : Json} (h : wfAllergy j = true) : ∃ fs, j = .obj fs := by
  cases j with
  | obj fs => exact ⟨fs, rfl⟩
  | null => simp [wfAllergy] at h
  | bool b => simp [wfAllergy] at h
  | num n => simp [wfAllergy] at h
  | str s => simp [wfAllergy] at h
  | arr xs => simp [wfAllergy] at h

/-- A well-shaped value for `wfProcedure` is an object. -/
theorem wfProcedure_obj {j : Json} (h : wfProcedure j = true) : ∃ fs, j = .obj fs := by
  cases j with
  | obj fs => exact ⟨fs, rfl⟩
  | null => simp [wfProcedure] at h
  | bool b => simp [wfProcedure] at h
  | num n => simp [wfProcedure] at h
  | str s => simp [wfProcedure] at h
  | arr xs => simp [wfProcedure] at h

/-- A well-shaped value for `wfEncounter` is an object. -/
theorem wfEncounter_obj {j : Json} (h : wfEncounter j = true) : ∃ fs, j = .obj fs := by
  cases j with
  | obj fs => exact ⟨fs, rfl⟩
  | null => simp [wfEncounter] at h
  | bool b => simp [wfEncounter] at h
  | num n => simp [wfEncounter] at h
  | str s => simp [wfEncounter] at h
  | arr xs => simp [wfEncounter] at h

/-- A well-shaped value for `wfImmunization` is an object. -/
theorem wfImmunization_obj {j : Json} (h : wfImmunization j = true) : ∃ fs, j = .obj fs := by
  cases j with
  | obj fs => exact ⟨fs, rfl⟩
  | null => simp [wfImmunization] at h
  | bool b => simp [wfImmunization] at h
  | num n => simp [wfImmunization] at h
  | str s => simp [wfImmunization] at h
  | arr xs => simp [wfImmunization] at h

/-- A well-shaped value for `wfPatient` is an object. -/
theorem wfPatient_obj {j : Json} (h : wfPatient j = true) : ∃ fs, j = .obj fs := by
  cases j with
  | obj fs => exact ⟨fs, rfl⟩
  | null => simp [wfPatient] at h
  | bool b => simp [wfPatient] at h
  | num n => simp [wfPatient] at h
  | str s => simp [wfPatient] at h
  | arr xs => simp [wfPatient] at h

/-- Classification loop of the conditions summary: succeeds on
well-shaped conditions, and every collected status is hashable. -/
theorem conditionsClassify_ok (l : List Json) :
    ∀ (act : List (Json × Json)) (res : List (Json × Json × Json)),
      (∀ c ∈ l, wfCondition c = true) →
      (∀ x ∈ res, x.2.2.unhashable = false) →
      pyOkAnd (conditionsClassify l act res)
        (fun r => ∀ x ∈ r.2, x.2.2.unhashable = false) := by
  induction l with
  | nil =>
    intro act res _ hres
    exact ⟨(act, res), rfl, hres⟩
  | cons c rest ih =>
    intro act res h hres
    have hc := h c (List.mem_cons_self c rest)
    obtain ⟨cfs, rfl⟩ := wfCondition_obj hc
    simp only [wfCondition, Bool.and_eq_true] at hc
    obtain ⟨⟨⟨hcode, hcs⟩, hon⟩, hrec⟩ := hc
    have hrest : ∀ x ∈ rest, wfCondition x = true :=
      fun x hx => h x (List.mem_cons_of_mem _ hx)
    simp only [conditionsClassify]
    refine pyOkAnd_bind2 _ (getD_wf (.obj []) hcode rfl) (fun code_data hcd => ?_)
    obtain ⟨gfs, rfl⟩ := wfCC_obj hcd
    refine pyOkAnd_bind2 _ (displayOf_ok hcd) (fun display hd => ?_)
    by_cases ht : display.truthy = true
    · rw [if_pos ht]
      refine pyOkAnd_bind2 _ (getD_wf (.obj []) hcs rfl)
        (fun clinical_status hcls => ?_)
      obtain ⟨csfs, rfl⟩ := wfClinicalStatus_obj hcls
      simp only [wfClinicalStatus] at hcls
      refine pyOkAnd_bind2
        (fun v => v = (lookupField csfs "coding").getD (.arr []))
        ⟨_, getD_obj csfs "coding" (.arr []), rfl⟩ (fun cs_codings hcc => ?_)
      refine pyOkAnd_bind2 (fun st => st.unhashable = false) ?_
        (fun status hst => ?_)
      · cases hF : lookupField csfs "coding" with
        | none =>
          rw [hF, Option.getD_none] at hcc
          subst hcc
          exact ⟨Json.null, rfl, rfl⟩
        | some cod =>
          have hwf := fieldWf_some hcls hF
          rw [hF, Option.getD_some] at hcc
          subst hcc
          cases cs_codings with
          | arr xs =>
            cases xs with
            | nil => simp [wfStatusCoding] at hwf
            | cons x xs =>
              simp only [wfStatusCoding, List.all_cons, Bool.and_eq_true] at hwf
              obtain ⟨hx, _⟩ := hwf
              rw [if_pos (by rfl)]
              refine pyOkAnd_bind2 (fun v => v = x) ⟨x, index_cons x xs, rfl⟩
                (fun c0 hc0 => ?_)
              subst hc0
              cases c0 with
              | obj efs =>
                refine pyOkAnd_imp (getN_wf hx rfl) (fun v hv => ?_)
                simpa using hv
              | null => simp at hx
              | bool b => simp at hx
              | num n => simp at hx
              | str s => simp at hx
              | arr ys => simp at hx
          | null => simp [wfStatusCoding] at hwf
          | bool b => simp [wfStatusCoding] at hwf
          | num n => simp [wfStatusCoding] at hwf
          | str s => simp [wfStatusCoding] at hwf
          | obj gfs2 => simp [wfStatusCoding] at hwf
      refine pyOkAnd_bind2 _ (pyOrM_okAnd (getN_wf hon rfl) (getN_wf hrec rfl))
        (fun onset honset => ?_)
      refine pyOkAnd_bind2 (fun _ => True) ?_ (fun date_str _ => ?_)
      · by_cases hot : onset.truthy = true
        · rw [if_pos hot]
          exact pyOkAnd_imp (format_date_ok honset) (fun _ _ => trivial)
        · rw [if_neg hot]
          exact ⟨_, rfl, trivial⟩
      by_cases hact : status.beq (.str "active") = true
      · rw [if_pos hact]
        exact ih (act ++ [(display, date_str)]) res hrest hres
      · rw [if_neg hact]
        refine ih act (res ++ [(display, date_str, status)]) hrest ?_
        intro x hx
        rcases List.mem_append.mp hx with h1 | h2
        · exact hres x h1
        · rcases List.mem_singleton.mp h2 with rfl
          exact hst
    · rw [if_neg ht]
      exact ih act res hrest hres

/-- Rendering of the resolved conditions succeeds when every status is
hashable. -/
theorem resolvedCondLines_ok (l : List (Json × Json × Json))
    (h : ∀ x ∈ l, x.2.2.unhashable = false) :
    pyOkAnd (resolvedCondLines l) (fun _ => True) := by
  induction l with
  | nil => exact ⟨[], rfl, trivial⟩
  | cons x xs ih =>
    obtain ⟨name, date, status⟩ := x
    obtain ⟨sfr, hsfr⟩ := condStatusFr_ok (h (name, date, status)
      (List.mem_cons_self _ _))
    simp only [resolvedCondLines]
    refine pyOkAnd_bind2 (fun _ => True) ⟨sfr, hsfr, trivial⟩
      (fun status_fr _ => ?_)
    refine pyOkAnd_bind2 (fun _ => True)
      (ih (fun y hy => h y (List.mem_cons_of_mem _ hy))) (fun more _ => ?_)
    exact ⟨_, rfl, trivial⟩

/-- The conditions summary succeeds on well-shaped conditions. -/
theorem build_conditions_summary_ok (l : List Json) (maxItems : Nat)
    (h : ∀ c ∈ l, wfCondition c = true) :
    pyOkAnd (build_conditions_summary l maxItems) (fun _ => True) := by
  unfold build_conditions_summary
  refine pyOkAnd_bind2 _ (conditionsClassify_ok l [] [] h (by simp))
    (fun cls hcls => ?_)
  refine pyOkAnd_bind2 (fun _ => True) ?_ (fun lines _ => ?_)
  · by_cases hres : (!cls.2.isEmpty) = true
    · rw [if_pos hres]
      refine pyOkAnd_bind2 (fun _ => True)
        (resolvedCondLines_ok _ (fun x hx => hcls x (List.mem_of_mem_take hx)))
        (fun rl _ => ?_)
      exact ⟨_, rfl, trivial⟩
    · rw [if_neg hres]
      exact ⟨_, rfl, trivial⟩
  exact ⟨_, rfl, trivial⟩

/-- An object-shaped value is an object. -/
theorem isObj_exists {j : Json} (h : j.isObj = true) : ∃ fs, j = .obj fs := by
  cases j with
  | obj fs => exact ⟨fs, rfl⟩
  | null => simp [Json.isObj] at h
  | bool b => simp [Json.isObj] at h
  | num n => simp [Json.isObj] at h
  | str s => simp [Json.isObj] at h
  | arr xs => simp [Json.isObj] at h

/-- Subscripting an object on a present key returns its value. -/
theorem item_some {fs : List (String × Json)} {k : String} {v : Json}
    (hv : lookupField fs k = some v) : Json.item (.obj fs) k = .ok v := by
  simp [Json.item, hv]

/-- Python `in` on a dict value. -/
theorem pyContains_obj (fs : List (String × Json)) (k : String) :
    pyContains (.obj fs) k = .ok (fs.any (fun q => q.1 == k)) := rfl

/-- Subscripting on a key known present by a membership test yields the
field's shape. -/
theorem item_wf {fs : List (String × Json)} {k : String} {p : Json → Bool}
    (h : fieldWf fs k p = true) (hany : fs.any (fun q => q.1 == k) = true) :
    pyOkAnd (Json.item (.obj fs) k) (fun v => p v = true) := by
  obtain ⟨v, hv⟩ := lookup_of_any hany
  exact ⟨v, item_some hv, fieldWf_some h hv⟩

/-- Component loop of `_extract_observation_value` succeeds on
well-shaped components. -/
theorem componentValues_ok (l : List Json) :
    ∀ acc : List String, (∀ c ∈ l, wfComponent c = true) →
      pyOkAnd (componentValues l acc) (fun _ => True) := by
  induction l with
  | nil => intro acc _; exact ⟨acc, rfl, trivial⟩
  | cons comp rest ih =>
    intro acc h
    have hc := h comp (List.mem_cons_self _ _)
    obtain ⟨cfs, rfl⟩ := wfComponent_obj hc
    simp only [wfComponent, Bool.and_eq_true] at hc
    obtain ⟨hcode, hvq⟩ := hc
    have hrest : ∀ c ∈ rest, wfComponent c = true :=
      fun c hx => h c (List.mem_cons_of_mem _ hx)
    simp only [componentValues]
    refine pyOkAnd_bind2 _ (getD_wf (.obj []) hcode rfl) (fun code hcd => ?_)
    refine pyOkAnd_bind2 _ (getD_wf (.obj []) hcode rfl) (fun code2 hcd2 => ?_)
    obtain ⟨gfs, rfl⟩ := wfCC_obj hcd
    obtain ⟨gfs2, rfl⟩ := wfCC_obj hcd2
    refine pyOkAnd_bind2 (fun _ => True) (pyOkAnd_imp
      (pyOrM_okAnd (wfCC_text hcd) (get_first_display_ok hcd2))
      (fun _ _ => trivial)) (fun name _ => ?_)
    refine pyOkAnd_bind2 (fun b => b = cfs.any (fun q => q.1 == "valueQuantity"))
      ⟨_, pyContains_obj cfs "valueQuantity", rfl⟩ (fun b hb => ?_)
    cases b with
    | true =>
      rw [if_pos rfl]
      refine pyOkAnd_bind2 _ (item_wf hvq hb.symm) (fun vq hvqv => ?_)
      obtain ⟨vqfs, rfl⟩ := isObj_exists hvqv
      refine pyOkAnd_bind2 (fun _ => True) ⟨_, getN_obj vqfs "value", trivial⟩
        (fun val _ => ?_)
      refine pyOkAnd_bind2 (fun _ => True)
        ⟨_, getD_obj vqfs "unit" (.str ""), trivial⟩ (fun unit _ => ?_)
      by_cases hv : (!(val.beq .null)) = true
      · rw [if_pos hv]
        exact ih _ hrest
      · rw [if_neg hv]
        exact ih _ hrest
    | false =>
      rw [if_neg (by simp)]
      exact ih _ hrest

/-- The component branch of `_extract_observation_value` succeeds. -/
theorem observationComponents_ok {fs : List (String × Json)}
    (hcomp : fieldWf fs "component" (fun c => match c with
      | .arr xs => xs.all wfComponent
      | _ => false) = true) :
    pyOkAnd (observationComponents (.obj fs)) (fun _ => True) := by
  unfold observationComponents
  refine pyOkAnd_bind2 _ (getD_wf (.arr []) hcomp rfl) (fun components hcm => ?_)
  by_cases ht : components.truthy = true
  · rw [if_pos ht]
    cases components with
    | arr xs =>
      refine pyOkAnd_bind2 (fun v => v = xs) ⟨xs, rfl, rfl⟩ (fun comps hcs => ?_)
      subst hcs
      refine pyOkAnd_bind2 (fun _ => True) (componentValues_ok comps []
        (fun c hcmem => List.all_eq_true.mp (by simpa using hcm) c hcmem))
        (fun comp_values _ => ?_)
      by_cases he : (!comp_values.isEmpty) = true
      · rw [if_pos he]
        exact ⟨_, rfl, trivial⟩
      · rw [if_neg he]
        exact ⟨_, rfl, trivial⟩
    | null => simp at hcm
    | bool b => simp at hcm
    | num n => simp at hcm
    | str s => simp at hcm
    | obj gfs => simp at hcm
  · rw [if_neg ht]
    exact ⟨_, rfl, trivial⟩

/-- `_extract_observation_value` succeeds on well-shaped observations. -/
theorem extract_observation_value_ok {fs : List (String × Json)}
    (h : wfObservation (.obj fs) = true) :
    pyOkAnd (extract_observation_value (.obj fs)) (fun _ => True) := by
  simp only [wfObservation, Bool.and_eq_true] at h
  obtain ⟨⟨⟨⟨⟨⟨hcat, hcode⟩, hvq⟩, hvcc⟩, hcomp⟩, heff⟩, hiss⟩ := h
  unfold extract_observation_value
  refine pyOkAnd_bind2 (fun b => b = fs.any (fun q => q.1 == "valueQuantity"))
    ⟨_, pyContains_obj fs "valueQuantity", rfl⟩ (fun b hb => ?_)
  cases b with
  | true =>
    rw [if_pos rfl]
    refine pyOkAnd_bind2 _ (item_wf hvq hb.symm) (fun vq hvqv => ?_)
    obtain ⟨vqfs, rfl⟩ := isObj_exists hvqv
    refine pyOkAnd_bind2 (fun _ => True) ⟨_, getN_obj vqfs "value", trivial⟩
      (fun value _ => ?_)
    refine pyOkAnd_bind2 (fun _ => True)
      ⟨_, getD_obj vqfs "code" (.str ""), trivial⟩ (fun codeD _ => ?_)
    refine pyOkAnd_bind2 (fun _ => True)
      ⟨_, getD_obj vqfs "unit" codeD, trivial⟩ (fun unit _ => ?_)
    by_cases hv : (!(value.beq .null)) = true
    · rw [if_pos hv]
      exact ⟨_, rfl, trivial⟩
    · rw [if_neg hv]
      exact observationComponents_ok hcomp
  | false =>
    rw [if_neg (by simp)]
    refine pyOkAnd_bind2
      (fun b2 => b2 = fs.any (fun q => q.1 == "valueCodeableConcept"))
      ⟨_, pyContains_obj fs "valueCodeableConcept", rfl⟩ (fun b2 hb2 => ?_)
    cases b2 with
    | true =>
      rw [if_pos rfl]
      refine pyOkAnd_bind2 _ (item_wf hvcc hb2.symm) (fun vcc hvccv => ?_)
      obtain ⟨vfs, rfl⟩ := wfCC_obj hvccv
      refine pyOkAnd_bind2 (fun _ => True) (pyOkAnd_imp
        (pyOrM_okAnd (wfCC_text hvccv) (get_first_display_ok hvccv))
        (fun _ _ => trivial)) (fun r _ => ?_)
      exact ⟨_, rfl, trivial⟩
    | false =>
      rw [if_neg (by simp)]
      refine pyOkAnd_bind2
        (fun b3 => b3 = fs.any (fun q => q.1 == "valueString"))
        ⟨_, pyContains_obj fs "valueString", rfl⟩ (fun b3 hb3 => ?_)
      cases b3 with
      | true =>
        rw [if_pos rfl]
        obtain ⟨v, hv⟩ := lookup_of_any hb3.symm
        exact ⟨v, item_some hv, trivial⟩
      | false =>
        rw [if_neg (by simp)]
        refine pyOkAnd_bind2
          (fun b4 => b4 = fs.any (fun q => q.1 == "valueBoolean"))
          ⟨_, pyContains_obj fs "valueBoolean", rfl⟩ (fun b4 hb4 => ?_)
        cases b4 with
        | true =>
          rw [if_pos rfl]
          obtain ⟨v, hv⟩ := lookup_of_any hb4.symm
          refine pyOkAnd_bind2 (fun _ => True) ⟨v, item_some hv, trivial⟩
            (fun bv _ => ?_)
          exact ⟨_, rfl, trivial⟩
        | false =>
          rw [if_neg (by simp)]
          exact observationComponents_ok hcomp

/-- Appending to a category grouping keeps every bucket key a string
when the inserted key is a string. -/
theorem groupAppend_keys {a : Type} (k : Json) (v : a) (hk : k.isStr = true) :
    ∀ m : List (Json × List a), (∀ p ∈ m, p.1.isStr = true) →
      ∀ p ∈ groupAppend m k v, p.1.isStr = true := by
  intro m
  induction m with
  | nil =>
    intro _ p hp
    simp only [groupAppend, List.mem_singleton] at hp
    subst hp
    exact hk
  | cons q rest ih =>
    obtain ⟨k0, vs⟩ := q
    intro hm p hp
    simp only [groupAppend] at hp
    by_cases hb : k0.beq k = true
    · rw [if_pos hb] at hp
      rcases List.mem_cons.mp hp with h1 | h2
      · subst h1
        exact hm (k0, vs) (List.mem_cons_self _ _)
      · exact hm p (List.mem_cons_of_mem _ h2)
    · rw [if_neg hb] at hp
      rcases List.mem_cons.mp hp with h1 | h2
      · subst h1
        exact hm (k0, vs) (List.mem_cons_self _ _)
      · exact ih (fun r hr => hm r (List.mem_cons_of_mem _ hr)) p h2

/-- Grouping loop of the observations summary: succeeds on well-shaped
observations, and every bucket key is a string. -/
theorem observationsGroup_ok (l : List Json) :
    ∀ acc : List (Json × List (Json × Json × Json)),
      (∀ o ∈ l, wfObservation o = true) →
      (∀ p ∈ acc, p.1.isStr = true) →
      pyOkAnd (observationsGroup l acc) (fun r => ∀ p ∈ r, p.1.isStr = true) := by
  induction l with
  | nil => intro acc _ hacc; exact ⟨acc, rfl, hacc⟩
  | cons obs rest ih =>
    intro acc h hacc
    have hoFull := h obs (List.mem_cons_self _ _)
    obtain ⟨ofs, rfl⟩ := wfObservation_obj hoFull
    have ho := hoFull
    simp only [wfObservation, Bool.and_eq_true] at ho
    obtain ⟨⟨⟨⟨⟨⟨hcat, hcode⟩, hvq⟩, hvcc⟩, hcomp⟩, heff⟩, hiss⟩ := ho
    have hrest : ∀ x ∈ rest, wfObservation x = true :=
      fun x hx => h x (List.mem_cons_of_mem _ hx)
    simp only [observationsGroup]
    refine pyOkAnd_bind2 _ (getD_wf (.arr []) hcat rfl) (fun categories hcats => ?_)
    refine pyOkAnd_bind2 (fun cat => cat.isStr = true) ?_
      (fun category hcisStr => ?_)
    · by_cases ht : categories.truthy = true
      · rw [if_pos ht]
        cases categories with
        | arr xs =>
          cases xs with
          | nil => simp [Json.truthy] at ht
          | cons x xs =>
            refine pyOkAnd_bind2 (fun v => v = x) ⟨x, index_cons x xs, rfl⟩
              (fun cat0 hc0 => ?_)
            subst hc0
            have hx : wfCategoryEntry cat0 = true :=
              List.all_eq_true.mp (by simpa using hcats) cat0
                (List.mem_cons_self _ _)
            obtain ⟨xfs, rfl⟩ := wfCategoryEntry_obj hx
            simp only [wfCategoryEntry] at hx
            refine pyOkAnd_bind2
              (fun v => v = (lookupField xfs "coding").getD (.arr []))
              ⟨_, getD_obj xfs "coding" (.arr []), rfl⟩ (fun cat_codings hcc => ?_)
            cases hF : lookupField xfs "coding" with
            | none =>
              rw [hF, Option.getD_none] at hcc
              subst hcc
              exact ⟨_, rfl, rfl⟩
            | some cod =>
              have hwf := fieldWf_some hx hF
              rw [hF, Option.getD_some] at hcc
              subst hcc
              cases cat_codings with
              | arr ys =>
                cases ys with
                | nil => simp [wfCatCoding] at hwf
                | cons y ys =>
                  rw [if_pos (by rfl)]
                  simp only [wfCatCoding, List.all_cons, Bool.and_eq_true] at hwf
                  obtain ⟨hy, _⟩ := hwf
                  refine pyOkAnd_bind2 (fun v => v = y) ⟨y, index_cons y ys, rfl⟩
                    (fun cc0 hcc0 => ?_)
                  subst hcc0
                  cases cc0 with
                  | obj efs => exact getD_wf (.str "autres") hy rfl
                  | null => simp at hy
                  | bool b => simp at hy
                  | num n => simp at hy
                  | str s => simp at hy
                  | arr zs => simp at hy
              | null => simp [wfCatCoding] at hwf
              | bool b => simp [wfCatCoding] at hwf
              | num n => simp [wfCatCoding] at hwf
              | str s => simp [wfCatCoding] at hwf
              | obj gfs => simp [wfCatCoding] at hwf
        | null => simp at hcats
        | bool b => simp at hcats
        | num n => simp at hcats
        | str s => simp at hcats
        | obj gfs => simp at hcats
      · rw [if_neg ht]
        exact ⟨_, rfl, rfl⟩
    refine pyOkAnd_bind2 _ (getD_wf (.obj []) hcode rfl) (fun code_data hcd => ?_)
    obtain ⟨gfs, rfl⟩ := wfCC_obj hcd
    refine pyOkAnd_bind2 _ (displayOf_ok hcd) (fun display hd => ?_)
    by_cases ht2 : display.truthy = true
    · rw [if_pos ht2]
      refine pyOkAnd_bind2 (fun _ => True)
        (extract_observation_value_ok hoFull) (fun value_str _ => ?_)
      refine pyOkAnd_bind2 _ (pyOrM_okAnd (getN_wf heff rfl) (getN_wf hiss rfl))
        (fun dval hdv => ?_)
      refine pyOkAnd_bind2 (fun _ => True)
        (pyOkAnd_imp (format_date_ok hdv) (fun _ _ => trivial)) (fun date _ => ?_)
      have hunh : category.unhashable = false := by
        cases category <;> simp_all [Json.isStr, Json.unhashable]
      rw [if_neg (by simp [hunh])]
      exact ih _ hrest (groupAppend_keys category _ hcisStr acc hacc)
    · rw [if_neg ht2]
      exact ih acc hrest hacc

/-- Rendering of the category buckets succeeds on string keys. -/
theorem obsCategoryLines_ok (perCat : Nat) :
    ∀ l : List (Json × List (Json × Json × Json)),
      (∀ p ∈ l, p.1.isStr = true) →
      pyOkAnd (obsCategoryLines l perCat) (fun _ => True) := by
  intro l
  induction l with
  | nil => intro _; exact ⟨[], rfl, trivial⟩
  | cons q rest ih =>
    intro h
    obtain ⟨cat, obs_list⟩ := q
    obtain ⟨lbl, hlbl⟩ := categoryLabel_ok (h (cat, obs_list)
      (List.mem_cons_self _ _))
    simp only [obsCategoryLines]
    refine pyOkAnd_bind2 (fun _ => True) ⟨lbl, hlbl, trivial⟩
      (fun cat_label _ => ?_)
    refine pyOkAnd_bind2 (fun _ => True)
      (ih (fun p hp => h p (List.mem_cons_of_mem _ hp))) (fun more _ => ?_)
    exact ⟨_, rfl, trivial⟩

/-- The observations summary succeeds on well-shaped observations. -/
theorem build_observations_summary_ok (l : List Json) (maxObs : Nat)
    (h : ∀ o ∈ l, wfObservation o = true) :
    pyOkAnd (build_observations_summary l maxObs) (fun _ => True) := by
  unfold build_observations_summary
  refine pyOkAnd_bind2 _ (observationsGroup_ok l [] h (by simp))
    (fun by_category hbc => ?_)
  refine pyOkAnd_bind2 (fun _ => True) (obsCategoryLines_ok _ _ hbc)
    (fun catLines _ => ?_)
  exact ⟨_, rfl, trivial⟩

/-- Classification loop of the medications summary: succeeds on
well-shaped medication requests, and every collected status is
hashable. -/
theorem medicationsClassify_ok (l : List Json) :
    ∀ (act : List (Json × Json)) (oth : List (Json × Json × Json)),
      (∀ m ∈ l, wfMedication m = true) →
      (∀ x ∈ oth, x.2.2.unhashable = false) →
      pyOkAnd (medicationsClassify l act oth)
        (fun r => ∀ x ∈ r.2, x.2.2.unhashable = false) := by
  induction l with
  | nil =>
    intro act oth _ hoth
    exact ⟨(act, oth), rfl, hoth⟩
  | cons med rest ih =>
    intro act oth h hoth
    have hm := h med (List.mem_cons_self _ _)
    obtain ⟨mfs, rfl⟩ := wfMedication_obj hm
    simp only [wfMedication, Bool.and_eq_true] at hm
    obtain ⟨⟨hmcc, hstat⟩, hauth⟩ := hm
    have hrest : ∀ x ∈ rest, wfMedication x = true :=
      fun x hx => h x (List.mem_cons_of_mem _ hx)
    simp only [medicationsClassify]
    refine pyOkAnd_bind2 _ (getD_wf (.obj []) hmcc rfl) (fun med_cc hcc => ?_)
    obtain ⟨gfs, rfl⟩ := wfCC_obj hcc
    refine pyOkAnd_bind2 _ (displayOf_ok hcc) (fun display hd => ?_)
    by_cases ht : display.truthy = true
    · rw [if_pos ht]
      refine pyOkAnd_bind2 _ (getN_wf hstat rfl) (fun status hst => ?_)
      refine pyOkAnd_bind2 _ (getN_wf hauth rfl) (fun authored hau => ?_)
      refine pyOkAnd_bind2 (fun _ => True)
        (pyOkAnd_imp (format_date_ok hau) (fun _ _ => trivial)) (fun date _ => ?_)
      by_cases hact : status.beq (.str "active") = true
      · rw [if_pos hact]
        exact ih (act ++ [(display, date)]) oth hrest hoth
      · rw [if_neg hact]
        refine ih act (oth ++ [(display, date, status)]) hrest ?_
        intro x hx
        rcases List.mem_append.mp hx with h1 | h2
        · exact hoth x h1
        · rcases List.mem_singleton.mp h2 with rfl
          simpa using hst
    · rw [if_neg ht]
      exact ih act oth hrest hoth

/-- Rendering of the past medications succeeds when every status is
hashable. -/
theorem otherMedLines_ok (l : List (Json × Json × Json))
    (h : ∀ x ∈ l, x.2.2.unhashable = false) :
    pyOkAnd (otherMedLines l) (fun _ => True) := by
  induction l with
  | nil => exact ⟨[], rfl, trivial⟩
  | cons x xs ih =>
    obtain ⟨name, date, status⟩ := x
    obtain ⟨sfr, hsfr⟩ := medStatusFr_ok (h (name, date, status)
      (List.mem_cons_self _ _))
    simp only [otherMedLines]
    refine pyOkAnd_bind2 (fun _ => True) ⟨sfr, hsfr, trivial⟩
      (fun status_fr _ => ?_)
    refine pyOkAnd_bind2 (fun _ => True)
      (ih (fun y hy => h y (List.mem_cons_of_mem _ hy))) (fun more _ => ?_)
    exact ⟨_, rfl, trivial⟩

/-- The medications summary succeeds on well-shaped medication
requests. -/
theorem build_medications_summary_ok (l : List Json) (maxItems : Nat)
    (h : ∀ m ∈ l, wfMedication m = true) :
    pyOkAnd (build_medications_summary l maxItems) (fun _ => True) := by
  unfold build_medications_summary
  refine pyOkAnd_bind2 _ (medicationsClassify_ok l [] [] h (by simp))
    (fun cls hcls => ?_)
  refine pyOkAnd_bind2 (fun _ => True) ?_ (fun lines _ => ?_)
  · by_cases hoth : (!cls.2.isEmpty) = true
    · rw [if_pos hoth]
      refine pyOkAnd_bind2 (fun _ => True)
        (otherMedLines_ok _ (fun x hx => hcls x (List.mem_of_mem_take hx)))
        (fun ol _ => ?_)
      exact ⟨_, rfl, trivial⟩
    · rw [if_neg hoth]
      exact ⟨_, rfl, trivial⟩
  exact ⟨_, rfl, trivial⟩

/-- Row loop of the allergies summary succeeds on well-shaped
allergies. -/
theorem allergyLines_ok : ∀ l : List Json,
    (∀ a ∈ l, wfAllergy a = true) →
    pyOkAnd (allergyLines l) (fun _ => True) := by
  intro l
  induction l with
  | nil => intro _; exact ⟨[], rfl, trivial⟩
  | cons a rest ih =>
    intro h
    have ha := h a (List.mem_cons_self _ _)
    obtain ⟨afs, rfl⟩ := wfAllergy_obj ha
    simp only [wfAllergy, Bool.and_eq_true] at ha
    obtain ⟨⟨hcode, htype⟩, hcat⟩ := ha
    have hrest : ∀ x ∈ rest, wfAllergy x = true :=
      fun x hx => h x (List.mem_cons_of_mem _ hx)
    simp only [allergyLines]
    refine pyOkAnd_bind2 _ (getD_wf (.obj []) hcode rfl) (fun code_data hcd => ?_)
    obtain ⟨gfs, rfl⟩ := wfCC_obj hcd
    refine pyOkAnd_bind2 _ (displayOf_ok hcd) (fun display hd => ?_)
    by_cases ht : display.truthy = true
    · rw [if_pos ht]
      refine pyOkAnd_bind2 _ (getN_wf htype rfl) (fun allergy_type hat => ?_)
      obtain ⟨tfr, htfr⟩ := allergyTypeFr_ok (by simpa using hat)
      refine pyOkAnd_bind2 (fun _ => True) ⟨tfr, htfr, trivial⟩
        (fun type_fr _ => ?_)
      refine pyOkAnd_bind2 _ (getD_wf (.arr []) hcat rfl)
        (fun categories hcats => ?_)
      refine pyOkAnd_bind2 (fun _ => True) ?_ (fun category _ => ?_)
      · by_cases htc : categories.truthy = true
        · rw [if_pos htc]
          cases categories with
          | arr xs =>
            refine pyOkAnd_bind2 (fun v => v = xs) ⟨xs, rfl, rfl⟩
              (fun cats hcs => ?_)
            subst hcs
            refine pyOkAnd_bind2 _ (mapPy_okAnd cats (fun c hc =>
              allergyCatFr_ok (List.all_eq_true.mp (by simpa using hcats) c hc)))
              (fun labels hlab => ?_)
            obtain ⟨js, hjs⟩ := pyJoin_ok ", " labels hlab
            exact ⟨js, hjs, trivial⟩
          | null => simp_all
          | bool b => simp_all
          | num n => simp_all
          | str s => simp_all
          | obj gfs => simp_all
        · rw [if_neg htc]
          exact ⟨"", rfl, trivial⟩
      refine pyOkAnd_bind2 (fun _ => True)
        (ih hrest) (fun more _ => ?_)
      exact ⟨_, rfl, trivial⟩
    · rw [if_neg ht]
      exact ih hrest

/-- The allergies summary succeeds on well-shaped allergies. -/
theorem build_allergies_summary_ok (l : List Json) (maxItems : Nat)
    (h : ∀ a ∈ l, wfAllergy a = true) :
    pyOkAnd (build_allergies_summary l maxItems) (fun _ => True) := by
  unfold build_allergies_summary
  refine pyOkAnd_bind2 (fun _ => True)
    (allergyLines_ok _ (fun a hx => h a (List.mem_of_mem_take hx)))
    (fun rows _ => ?_)
  exact ⟨_, rfl, trivial⟩

/-- Membership in a conditional singleton of a string value. -/
theorem mem_ite_str {c : Prop} [Decidable c] {s : String} {e : Json}
    (he : e ∈ (if c then [Json.str s] else [])) : e.isStr = true := by
  by_cases h : c
  · rw [if_pos h] at he
    rcases List.mem_singleton.mp he with rfl
    rfl
  · rw [if_neg h] at he
    simp at he

/-- Row loop of the procedures summary succeeds on well-shaped
procedures. -/
theorem procedureLines_ok : ∀ l : List Json,
    (∀ p ∈ l, wfProcedure p = true) →
    pyOkAnd (procedureLines l) (fun _ => True) := by
  intro l
  induction l with
  | nil => intro _; exact ⟨[], rfl, trivial⟩
  | cons p rest ih =>
    intro h
    have hp := h p (List.mem_cons_self _ _)
    obtain ⟨pfs, rfl⟩ := wfProcedure_obj hp
    simp only [wfProcedure, Bool.and_eq_true] at hp
    obtain ⟨⟨hcode, hpdt⟩, hpp⟩ := hp
    have hrest : ∀ x ∈ rest, wfProcedure x = true :=
      fun x hx => h x (List.mem_cons_of_mem _ hx)
    simp only [procedureLines]
    refine pyOkAnd_bind2 _ (getD_wf (.obj []) hcode rfl) (fun code_data hcd => ?_)
    obtain ⟨gfs, rfl⟩ := wfCC_obj hcd
    refine pyOkAnd_bind2 _ (displayOf_ok hcd) (fun display hd => ?_)
    by_cases ht : display.truthy = true
    · rw [if_pos ht]
      refine pyOkAnd_bind2 _ (pyOrM_okAnd (getN_wf hpdt rfl) ?_)
        (fun performed hperf => ?_)
      · refine pyOkAnd_bind2 _ (getD_wf (.obj []) hpp rfl) (fun pp hppwf => ?_)
        cases pp with
        | obj pfs2 => exact getN_wf (by simpa using hppwf) rfl
        | null => simp at hppwf
        | bool b => simp at hppwf
        | num n => simp at hppwf
        | str s => simp at hppwf
        | arr xs => simp at hppwf
      refine pyOkAnd_bind2 (fun _ => True)
        (pyOkAnd_imp (format_date_ok hperf) (fun _ _ => trivial))
        (fun date _ => ?_)
      refine pyOkAnd_bind2 (fun _ => True) (ih hrest) (fun more _ => ?_)
      exact ⟨_, rfl, trivial⟩
    · rw [if_neg ht]
      exact ih hrest

/-- The procedures summary succeeds on well-shaped procedures. -/
theorem build_procedures_summary_ok (l : List Json) (maxItems : Nat)
    (h : ∀ p ∈ l, wfProcedure p = true) :
    pyOkAnd (build_procedures_summary l maxItems) (fun _ => True) := by
  unfold build_procedures_summary
  refine pyOkAnd_bind2 (fun _ => True)
    (procedureLines_ok _ (fun p hx => h p (List.mem_of_mem_take hx)))
    (fun rows _ => ?_)
  exact ⟨_, rfl, trivial⟩

/-- Row loop of the encounters summary succeeds on well-shaped
encounters. -/
theorem encounterLines_ok : ∀ l : List Json,
    (∀ e ∈ l, wfEncounter e = true) →
    pyOkAnd (encounterLines l) (fun _ => True) := by
  intro l
  induction l with
  | nil => intro _; exact ⟨[], rfl, trivial⟩
  | cons e rest ih =>
    intro h
    have he := h e (List.mem_cons_self _ _)
    obtain ⟨efs, rfl⟩ := wfEncounter_obj he
    simp only [wfEncounter, Bool.and_eq_true] at he
    obtain ⟨⟨⟨h1, h2⟩, h3⟩, h4⟩ := he
    have hrest : ∀ x ∈ rest, wfEncounter x = true :=
      fun x hx => h x (List.mem_cons_of_mem _ hx)
    simp only [encounterLines]
    refine pyOkAnd_bind2 _ (getD_wf (.arr []) h1 rfl) (fun types htyp => ?_)
    refine pyOkAnd_bind2 (fun tt => tt.isStr = true) ?_ (fun type_text htt => ?_)
    · by_cases ht : types.truthy = true
      · rw [if_pos ht]
        cases types with
        | arr xs =>
          cases xs with
          | nil => simp [Json.truthy] at ht
          | cons x xs =>
            refine pyOkAnd_bind2 (fun v => v = x) ⟨x, index_cons x xs, rfl⟩
              (fun t0 ht0 => ?_)
            subst ht0
            cases t0 with
            | obj xfs =>
              cases hT : lookupField xfs "text" with
              | some v =>
                cases v with
                | str s => exact ⟨Json.str s, by rw [getN_obj, hT, Option.getD_some], rfl⟩
                | null => simp [wfEncounterType, hT] at htyp
                | bool b => simp [wfEncounterType, hT] at htyp
                | num n => simp [wfEncounterType, hT] at htyp
                | arr ys => simp [wfEncounterType, hT] at htyp
                | obj gfs => simp [wfEncounterType, hT] at htyp
              | none => simp [wfEncounterType, hT] at htyp
            | null => simp [wfEncounterType] at htyp
            | bool b => simp [wfEncounterType] at htyp
            | num n => simp [wfEncounterType] at htyp
            | str s => simp [wfEncounterType] at htyp
            | arr ys => simp [wfEncounterType] at htyp
        | null => simp [Json.truthy] at ht
        | bool b => simp_all [wfEncounterType, Json.truthy]
        | num n => simp_all [wfEncounterType, Json.truthy]
        | str s => simp_all [wfEncounterType, Json.truthy]
        | obj gfs => simp_all [wfEncounterType, Json.truthy]
      · rw [if_neg ht]
        exact ⟨_, rfl, rfl⟩
    refine pyOkAnd_bind2 _ (getD_wf (.obj []) h2 rfl) (fun period hper => ?_)
    cases period with
    | obj pfs2 =>
      refine pyOkAnd_bind2 _ (getN_wf (by simpa using hper) rfl)
        (fun pstart hps => ?_)
      refine pyOkAnd_bind2 (fun _ => True)
        (pyOkAnd_imp (format_date_ok hps) (fun _ _ => trivial))
        (fun date _ => ?_)
      refine pyOkAnd_bind2 _ (getD_wf (.obj []) h3 rfl) (fun sp hsp => ?_)
      obtain ⟨sfs, rfl⟩ := isObj_exists hsp
      refine pyOkAnd_bind2 (fun _ => True)
        ⟨_, getD_obj sfs "display" (.str ""), trivial⟩ (fun provider _ => ?_)
      refine pyOkAnd_bind2 _ (getD_wf (.arr []) h4 rfl)
        (fun reason_codes hrc => ?_)
      refine pyOkAnd_bind2 (fun _ => True) ?_ (fun reason _ => ?_)
      · by_cases hrt : reason_codes.truthy = true
        · rw [if_pos hrt]
          cases reason_codes with
          | arr xs =>
            cases xs with
            | nil => simp [Json.truthy] at hrt
            | cons x xs =>
              refine pyOkAnd_bind2 (fun v => v = x) ⟨x, index_cons x xs, rfl⟩
                (fun rc0 hrc0 => ?_)
              subst hrc0
              cases rc0 with
              | obj xfs2 =>
                have hcod : fieldWf xfs2 "coding" (fun c => match c with
                    | .arr [] => true
                    | .arr (y :: _) => y.isObj
                    | v => !v.truthy) = true := by simpa using hrc
                refine pyOkAnd_bind2
                  (fun v => v = (lookupField xfs2 "coding").getD (.arr []))
                  ⟨_, getD_obj xfs2 "coding" (.arr []), rfl⟩
                  (fun codings hcods => ?_)
                cases hF : lookupField xfs2 "coding" with
                | none =>
                  rw [hF, Option.getD_none] at hcods
                  subst hcods
                  exact ⟨Json.null, rfl, trivial⟩
                | some cod =>
                  have hwf := fieldWf_some hcod hF
                  rw [hF, Option.getD_some] at hcods
                  subst hcods
                  cases codings with
                  | arr ys =>
                    cases ys with
                    | nil => exact ⟨Json.null, rfl, trivial⟩
                    | cons y ys =>
                      rw [if_pos (by rfl)]
                      refine pyOkAnd_bind2 (fun v => v = y)
                        ⟨y, index_cons y ys, rfl⟩ (fun c0 hc0 => ?_)
                      subst hc0
                      obtain ⟨yfs, rfl⟩ := isObj_exists (by simpa using hwf)
                      exact ⟨_, getN_obj yfs "display", trivial⟩
                  | null =>
                    by_cases htc : Json.truthy .null = true
                    · simp [Json.truthy] at htc
                    · rw [if_neg htc]
                      exact ⟨Json.null, rfl, trivial⟩
                  | bool b =>
                    by_cases htc : (Json.bool b).truthy = true
                    · simp_all
                    · rw [if_neg htc]
                      exact ⟨Json.null, rfl, trivial⟩
                  | num n =>
                    by_cases htc : (Json.num n).truthy = true
                    · simp_all
                    · rw [if_neg htc]
                      exact ⟨Json.null, rfl, trivial⟩
                  | str s =>
                    by_cases htc : (Json.str s).truthy = true
                    · simp_all
                    · rw [if_neg htc]
                      exact ⟨Json.null, rfl, trivial⟩
                  | obj gfs =>
                    by_cases htc : (Json.obj gfs).truthy = true
                    · simp_all
                    · rw [if_neg htc]
                      exact ⟨Json.null, rfl, trivial⟩
              | null => simp at hrc
              | bool b => simp at hrc
              | num n => simp at hrc
              | str s => simp at hrc
              | arr ys => simp at hrc
          | null => simp [Json.truthy] at hrt
          | bool b => simp_all [Json.truthy]
          | num n => simp_all [Json.truthy]
          | str s => simp_all [Json.truthy]
          | obj gfs => simp_all [Json.truthy]
        · rw [if_neg hrt]
          exact ⟨Json.null, rfl, trivial⟩
      refine pyOkAnd_bind2 (fun _ => True) ?_ (fun joined _ => ?_)
      · have hall : ∀ el ∈ ([type_text] ++
            (if provider.truthy = true
              then [Json.str ("à " ++ provider.pyStr)] else []) ++
            (if reason.truthy = true
              then [Json.str ("pour " ++ reason.pyStr)] else []) ++
            (if date.truthy = true
              then [Json.str ("(" ++ date.pyStr ++ ")")] else [])),
            el.isStr = true := by
          intro el hel
          rcases List.mem_append.mp hel with he1 | heD
          · rcases List.mem_append.mp he1 with he2 | he3
            · rcases List.mem_append.mp he2 with he4 | he5
              · rcases List.mem_singleton.mp he4 with rfl
                exact htt
              · exact mem_ite_str he5
            · exact mem_ite_str he3
          · exact mem_ite_str heD
        obtain ⟨js, hjs⟩ := pyJoin_ok " " _ hall
        exact ⟨js, hjs, trivial⟩
      refine pyOkAnd_bind2 (fun _ => True) (ih hrest) (fun more _ => ?_)
      exact ⟨_, rfl, trivial⟩
    | null => simp at hper
    | bool b => simp at hper
    | num n => simp at hper
    | str s => simp at hper
    | arr ys => simp at hper

/-- The encounters summary succeeds on well-shaped encounters. -/
theorem build_encounters_summary_ok (l : List Json) (maxItems : Nat)
    (h : ∀ e ∈ l, wfEncounter e = true) :
    pyOkAnd (build_encounters_summary l maxItems) (fun _ => True) := by
  unfold build_encounters_summary
  refine pyOkAnd_bind2 (fun _ => True)
    (encounterLines_ok _ (fun e hx => h e (List.mem_of_mem_take hx)))
    (fun rows _ => ?_)
  exact ⟨_, rfl, trivial⟩

/-- Row loop of the immunizations summary succeeds on well-shaped
immunizations. -/
theorem immunizationLines_ok : ∀ l : List Json,
    (∀ i ∈ l, wfImmunization i = true) →
    pyOkAnd (immunizationLines l) (fun _ => True) := by
  intro l
  induction l with
  | nil => intro _; exact ⟨[], rfl, trivial⟩
  | cons i rest ih =>
    intro h
    have hi := h i (List.mem_cons_self _ _)
    obtain ⟨ifs, rfl⟩ := wfImmunization_obj hi
    simp only [wfImmunization, Bool.and_eq_true] at hi
    obtain ⟨hvac, hocc⟩ := hi
    have hrest : ∀ x ∈ rest, wfImmunization x = true :=
      fun x hx => h x (List.mem_cons_of_mem _ hx)
    simp only [immunizationLines]
    refine pyOkAnd_bind2 _ (getD_wf (.obj []) hvac rfl) (fun vaccine hvc => ?_)
    obtain ⟨gfs, rfl⟩ := wfCC_obj hvc
    refine pyOkAnd_bind2 _ (displayOf_ok hvc) (fun display hd => ?_)
    by_cases ht : display.truthy = true
    · rw [if_pos ht]
      refine pyOkAnd_bind2 _ (getN_wf hocc rfl) (fun occ hoc => ?_)
      refine pyOkAnd_bind2 (fun _ => True)
        (pyOkAnd_imp (format_date_ok hoc) (fun _ _ => trivial))
        (fun date _ => ?_)
      refine pyOkAnd_bind2 (fun _ => True) (ih hrest) (fun more _ => ?_)
      exact ⟨_, rfl, trivial⟩
    · rw [if_neg ht]
      exact ih hrest

/-- The immunizations summary succeeds on well-shaped immunizations. -/
theorem build_immunizations_summary_ok (l : List Json) (maxItems : Nat)
    (h : ∀ i ∈ l, wfImmunization i = true) :
    pyOkAnd (build_immunizations_summary l maxItems) (fun _ => True) := by
  unfold build_immunizations_summary
  refine pyOkAnd_bind2 (fun _ => True)
    (immunizationLines_ok _ (fun i hx => h i (List.mem_of_mem_take hx)))
    (fun rows _ => ?_)
  exact ⟨_, rfl, trivial⟩

/-- Python `==` is reflexive on hashable (scalar) values. -/
theorem beq_refl_scalar {j : Json} (h : j.unhashable = false) :
    j.beq j = true := by
  cases j <;> simp_all [Json.beq, Json.unhashable]

/-- Python `==` implies equality when the left operand is scalar. -/
theorem beq_eq_scalar {a b : Json} (ha : a.unhashable = false)
    (h : a.beq b = true) : a = b := by
  cases a <;> cases b <;> simp_all [Json.beq, Json.unhashable]

/-- A well-shaped bundle entry is an object. -/
theorem wfEntry_obj {j : Json} (h : wfEntry j = true) : ∃ fs, j = .obj fs := by
  cases j with
  | obj fs => exact ⟨fs, rfl⟩
  | null => simp [wfEntry] at h
  | bool b => simp [wfEntry] at h
  | num n => simp [wfEntry] at h
  | str s => simp [wfEntry] at h
  | arr xs => simp [wfEntry] at h

/-- A well-shaped resource is an object. -/
theorem wfResource_obj {j : Json} (h : wfResource j = true) :
    ∃ fs, j = .obj fs := by
  cases j with
  | obj fs => exact ⟨fs, rfl⟩
  | null => simp [wfResource] at h
  | bool b => simp [wfResource] at h
  | num n => simp [wfResource] at h
  | str s => simp [wfResource] at h
  | arr xs => simp [wfResource] at h

/-- The `resourceType` of a well-shaped resource is hashable. -/
theorem wfResource_rt_hashable {rfs : List (String × Json)} {rt : Json}
    (h : wfResource (.obj rfs) = true)
    (hrt : lookupField rfs "resourceType" = some rt) :
    rt.unhashable = false := by
  cases rt <;> simp_all [wfResource, Json.unhashable]

/-- A well-shaped resource whose `resourceType` is `Patient` satisfies
`wfPatient`. -/
theorem wfResource_Patient {rfs : List (String × Json)}
    (h : wfResource (.obj rfs) = true)
    (ht : lookupField rfs "resourceType" = some (.str "Patient")) :
    wfPatient (.obj rfs) = true := by
  simp_all [wfResource]

/-- A well-shaped resource whose `resourceType` is `Condition` satisfies
`wfCondition`. -/
theorem wfResource_Condition {rfs : List (String × Json)}
    (h : wfResource (.obj rfs) = true)
    (ht : lookupField rfs "resourceType" = some (.str "Condition")) :
    wfCondition (.obj rfs) = true := by
  simp_all [wfResource]

/-- A well-shaped resource whose `resourceType` is `Observation` satisfies
`wfObservation`. -/
theorem wfResource_Observation {rfs : List (String × Json)}
    (h : wfResource (.obj rfs) = true)
    (ht : lookupField rfs "resourceType" = some (.str "Observation")) :
    wfObservation (.obj rfs) = true := by
  simp_all [wfResource]

/-- A well-shaped resource whose `resourceType` is `MedicationRequest` satisfies
`wfMedication`. -/
theorem wfResource_MedicationRequest {rfs : List (String × Json)}
    (h : wfResource (.obj rfs) = true)
    (ht : lookupField rfs "resourceType" = some (.str "MedicationRequest")) :
    wfMedication (.obj rfs) = true := by
  simp_all [wfResource]

/-- A well-shaped resource whose `resourceType` is `AllergyIntolerance` satisfies
`wfAllergy`. -/
theorem wfResource_AllergyIntolerance {rfs : List (String × Json)}
    (h : wfResource (.obj rfs) = true)
    (ht : lookupField rfs "resourceType" = some (.str "AllergyIntolerance")) :
    wfAllergy (.obj rfs) = true := by
  simp_all [wfResource]

/-- A well-shaped resource whose `resourceType` is `Procedure` satisfies
`wfProcedure`. -/
theorem wfResource_Procedure {rfs : List (String × Json)}
    (h : wfResource (.obj rfs) = true)
    (ht : lookupField rfs "resourceType" = some (.str "Procedure")) :
    wfProcedure (.obj rfs) = true := by
  simp_all [wfResource]

/-- A well-shaped resource whose `resourceType` is `Encounter` satisfies
`wfEncounter`. -/
theorem wfResource_Encounter {rfs : List (String × Json)}
    (h : wfResource (.obj rfs) = true)
    (ht : lookupField rfs "resourceType" = some (.str "Encounter")) :
    wfEncounter (.obj rfs) = true := by
  simp_all [wfResource]

/-- A well-shaped resource whose `resourceType` is `Immunization` satisfies
`wfImmunization`. -/
theorem wfResource_Immunization {rfs : List (String × Json)}
    (h : wfResource (.obj rfs) = true)
    (ht : lookupField rfs "resourceType" = some (.str "Immunization")) :
    wfImmunization (.obj rfs) = true := by
  simp_all [wfResource]

/-- Appending a well-shaped typed resource preserves the grouping
invariant. -/
theorem groupAppend_inv (k v : Json) (hk : k.unhashable = false)
    (hv : wfResource v = true)
    (hlink : ∃ rfs, v = Json.obj rfs ∧ ∃ k2,
      lookupField rfs "resourceType" = some k2 ∧ k.beq k2 = true) :
    ∀ m, bucketInv m → bucketInv (groupAppend m k v) := by
  intro m
  induction m with
  | nil =>
    intro _ p hp
    simp only [groupAppend, List.mem_singleton] at hp
    subst hp
    refine ⟨hk, fun r hr => ?_⟩
    rcases List.mem_singleton.mp hr with rfl
    exact ⟨hv, hlink⟩
  | cons q rest ih =>
    obtain ⟨k0, vs⟩ := q
    intro hinv p hp
    simp only [groupAppend] at hp
    by_cases hb : k0.beq k = true
    · rw [if_pos hb] at hp
      rcases List.mem_cons.mp hp with h1 | h2
      · subst h1
        have hq := hinv (k0, vs) (List.mem_cons_self _ _)
        refine ⟨hq.1, fun r hr => ?_⟩
        rcases List.mem_append.mp hr with hr1 | hr2
        · exact hq.2 r hr1
        · rcases List.mem_singleton.mp hr2 with rfl
          obtain ⟨rfs, hrfs, k2, hk2, hbeq⟩ := hlink
          refine ⟨hv, rfs, hrfs, k2, hk2, ?_⟩
          rw [beq_eq_scalar hq.1 hb]
          exact hbeq
      · exact hinv p (List.mem_cons_of_mem _ h2)
    · rw [if_neg hb] at hp
      rcases List.mem_cons.mp hp with h1 | h2
      · subst h1
        exact hinv (k0, vs) (List.mem_cons_self _ _)
      · exact ih (fun q2 hq2 => hinv q2 (List.mem_cons_of_mem _ hq2)) p h2

/-- The `_parse_resources` loop succeeds on well-shaped entries and
maintains the grouping invariant. -/
theorem parseEntries_ok : ∀ (l : List Json) (acc : List (Json × List Json)),
    (∀ e ∈ l, wfEntry e = true) → bucketInv acc →
    pyOkAnd (parseEntries l acc) bucketInv := by
  intro l
  induction l with
  | nil => intro acc _ hinv; exact ⟨acc, rfl, hinv⟩
  | cons entry rest ih =>
    intro acc h hinv
    have he := h entry (List.mem_cons_self _ _)
    obtain ⟨efs, rfl⟩ := wfEntry_obj he
    have hrest : ∀ e ∈ rest, wfEntry e = true :=
      fun e hx => h e (List.mem_cons_of_mem _ hx)
    simp only [parseEntries]
    refine pyOkAnd_bind2 (fun v => v = (lookupField efs "resource").getD (.obj []))
      ⟨_, getD_obj efs "resource" (.obj []), rfl⟩ (fun resource hres => ?_)
    have hwfres : wfResource resource = true ∨ resource = .obj [] := by
      cases hF : lookupField efs "resource" with
      | none =>
        right
        rw [hF, Option.getD_none] at hres
        exact hres
      | some r =>
        left
        rw [hF, Option.getD_some] at hres
        subst hres
        simp_all [wfEntry]
    obtain ⟨rfs, hrfs⟩ : ∃ rfs, resource = .obj rfs := by
      rcases hwfres with hx | hx
      · exact wfResource_obj hx
      · exact ⟨[], hx⟩
    subst hrfs
    refine pyOkAnd_bind2
      (fun v => v = (lookupField rfs "resourceType").getD .null)
      ⟨_, getN_obj rfs "resourceType", rfl⟩ (fun resource_type hrt => ?_)
    subst hrt
    by_cases ht : ((lookupField rfs "resourceType").getD .null).truthy = true
    · rw [if_pos ht]
      have hlk := lookup_of_truthyD ht
      have hR : wfResource (.obj rfs) = true := by
        rcases hwfres with hx | hx
        · exact hx
        · exfalso
          have : rfs = [] := by
            injection hx
          subst this
          simp [lookupField, Json.truthy] at ht
      have hhash := wfResource_rt_hashable hR hlk
      rw [if_neg (by simp [hhash])]
      refine ih _ hrest (groupAppend_inv _ _ hhash hR
        ⟨rfs, rfl, _, hlk, beq_refl_scalar hhash⟩ acc hinv)
    · rw [if_neg ht]
      exact ih _ hrest hinv

/-- `_parse_resources` succeeds on well-shaped bundles and produces an
invariant-satisfying grouping. -/
theorem parse_resources_ok {bfs : List (String × Json)}
    (h : wfBundle (.obj bfs) = true) :
    pyOkAnd (parse_resources (.obj bfs)) bucketInv := by
  simp only [wfBundle] at h
  unfold parse_resources
  refine pyOkAnd_bind2 _ (getD_wf (.arr []) h rfl) (fun entries hent => ?_)
  cases entries with
  | arr xs =>
    refine pyOkAnd_bind2 (fun v => v = xs) ⟨xs, rfl, rfl⟩ (fun entryList hel => ?_)
    subst hel
    refine parseEntries_ok entryList []
      (fun e he2 => List.all_eq_true.mp (by simpa using hent) e he2) ?_
    intro p hp
    simp at hp
  | null => simp at hent
  | bool b => simp at hent
  | num n => simp at hent
  | str s => simp at hent
  | obj gfs => simp at hent

/-- Every member of a bucket found under a string key is a well-shaped
resource of that type. -/
theorem resLookup_members {m : List (Json × List Json)} {k : String}
    {rs : List Json} (hinv : bucketInv m) (h : resLookup m k = some rs) :
    ∀ r ∈ rs, wfResource r = true ∧
      ∃ rfs, r = Json.obj rfs ∧
        lookupField rfs "resourceType" = some (.str k) := by
  unfold resLookup at h
  cases hf : List.find? (fun p => p.1.beq (.str k)) m with
  | none => rw [hf] at h; simp at h
  | some q =>
    rw [hf] at h
    have hqrs : q.2 = rs := by
      have h2 : some q.2 = some rs := h
      injection h2
    have hqmem := List.mem_of_find?_eq_some hf
    have hqpred : q.1.beq (.str k) = true := by
      have := List.find?_some hf
      simpa using this
    obtain ⟨hq1, hq2⟩ := hinv q hqmem
    have hkq : q.1 = .str k := beq_eq_scalar hq1 hqpred
    intro r hr
    have hrs : r ∈ q.2 := by
      rw [hqrs]
      exact hr
    obtain ⟨hwf, rfs, hrfs, k2, hk2, hbeq⟩ := hq2 r hrs
    have : k2 = .str k := by
      rw [hkq] at hbeq
      exact (beq_str_left hbeq)
    subst this
    exact ⟨hwf, rfs, hrfs, hk2⟩

/-- Stepping rule for a conditional computation. -/
theorem pyOkAnd_ite {a : Type} (c : Prop) [Decidable c] {x y : Py a}
    {p : a → Prop} (hx : c → pyOkAnd x p) (hy : ¬c → pyOkAnd y p) :
    pyOkAnd (if c then x else y) p := by
  by_cases h : c
  · rw [if_pos h]
    exact hx h
  · rw [if_neg h]
    exact hy h

/-- A truthy first resource of a given type is a well-shaped resource of
that type. -/
theorem firstResource_wf {m : List (Json × List Json)} (hinv : bucketInv m)
    (k : String) (ht : (firstResource m k).truthy = true) :
    ∃ rfs, firstResource m k = .obj rfs ∧ wfResource (.obj rfs) = true ∧
      lookupField rfs "resourceType" = some (.str k) := by
  unfold firstResource at ht ⊢
  cases hR : resLookup m k with
  | none => rw [hR] at ht; simp [Json.truthy] at ht
  | some l =>
    cases l with
    | nil => rw [hR] at ht; simp [Json.truthy] at ht
    | cons r rl =>
      obtain ⟨hwf, rfs, hrfs, hty⟩ :=
        resLookup_members hinv hR r (List.mem_cons_self _ _)
      subst hrfs
      exact ⟨rfs, rfl, hwf, hty⟩

/-- Members of a typed bucket read with an empty default are well-shaped
resources of that type. -/
theorem bucket_wf {m : List (Json × List Json)} (hinv : bucketInv m)
    (k : String) {r : Json} (hr : r ∈ (resLookup m k).getD []) :
    wfResource r = true ∧ ∃ rfs, r = Json.obj rfs ∧
      lookupField rfs "resourceType" = some (.str k) := by
  cases hR : resLookup m k with
  | none => rw [hR] at hr; simp at hr
  | some l =>
    rw [hR, Option.getD_some] at hr
    exact resLookup_members hinv hR r hr

/-- The full patient context builder succeeds on well-shaped bundles. -/
theorem build_full_context_ok (maxObs maxItems : Nat) (today : Date)
    {bfs : List (String × Json)} (h : wfBundle (.obj bfs) = true) :
    pyOkAnd (build_full_context maxObs maxItems today (.obj bfs))
      (fun _ => True) := by
  unfold build_full_context
  refine pyOkAnd_bind2 _ (parse_resources_ok h) (fun resources hinv => ?_)
  refine pyOkAnd_bind2 (fun _ => True)
    (pyOkAnd_ite _ (fun hpt => ?_) (fun _ => ⟨[], rfl, trivial⟩))
    (fun demographicsSections _ => ?_)
  · obtain ⟨fs2, heq, hwf, hty⟩ := firstResource_wf hinv "Patient" hpt
    rw [heq]
    refine pyOkAnd_bind2 (fun _ => True)
      (build_demographics_ok today (wfResource_Patient hwf hty))
      (fun s _ => ?_)
    exact ⟨_, rfl, trivial⟩
  refine pyOkAnd_bind2 (fun _ => True)
    (pyOkAnd_ite _ (fun hc => ?_) (fun _ => ⟨[], rfl, trivial⟩))
    (fun sectionsCondition _ => ?_)
  · refine pyOkAnd_bind2 (fun _ => True)
      (build_conditions_summary_ok _ maxItems ?_) (fun s _ => ⟨_, rfl, trivial⟩)
    intro c hcm
    obtain ⟨hwf, rfs, hrfs, hty⟩ := bucket_wf hinv "Condition" hcm
    subst hrfs
    exact wfResource_Condition hwf hty
  refine pyOkAnd_bind2 (fun _ => True)
    (pyOkAnd_ite _ (fun hc => ?_) (fun _ => ⟨[], rfl, trivial⟩))
    (fun sectionsObservation _ => ?_)
  · refine pyOkAnd_bind2 (fun _ => True)
      (build_observations_summary_ok _ maxObs ?_) (fun s _ => ⟨_, rfl, trivial⟩)
    intro c hcm
    obtain ⟨hwf, rfs, hrfs, hty⟩ := bucket_wf hinv "Observation" hcm
    subst hrfs
    exact wfResource_Observation hwf hty
  refine pyOkAnd_bind2 (fun _ => True)
    (pyOkAnd_ite _ (fun hc => ?_) (fun _ => ⟨[], rfl, trivial⟩))
    (fun sectionsMedicationRequest _ => ?_)
  · refine pyOkAnd_bind2 (fun _ => True)
      (build_medications_summary_ok _ maxItems ?_) (fun s _ => ⟨_, rfl, trivial⟩)
    intro c hcm
    obtain ⟨hwf, rfs, hrfs, hty⟩ := bucket_wf hinv "MedicationRequest" hcm
    subst hrfs
    exact wfResource_MedicationRequest hwf hty
  refine pyOkAnd_bind2 (fun _ => True)
    (pyOkAnd_ite _ (fun hc => ?_) (fun _ => ⟨[], rfl, trivial⟩))
    (fun sectionsAllergyIntolerance _ => ?_)
  · refine pyOkAnd_bind2 (fun _ => True)
      (build_allergies_summary_ok _ maxItems ?_) (fun s _ => ⟨_, rfl, trivial⟩)
    intro c hcm
    obtain ⟨hwf, rfs, hrfs, hty⟩ := bucket_wf hinv "AllergyIntolerance" hcm
    subst hrfs
    exact wfResource_AllergyIntolerance hwf hty
  refine pyOkAnd_bind2 (fun _ => True)
    (pyOkAnd_ite _ (fun hc => ?_) (fun _ => ⟨[], rfl, trivial⟩))
    (fun sectionsProcedure _ => ?_)
  · refine pyOkAnd_bind2 (fun _ => True)
      (build_procedures_summary_ok _ maxItems ?_) (fun s _ => ⟨_, rfl, trivial⟩)
    intro c hcm
    obtain ⟨hwf, rfs, hrfs, hty⟩ := bucket_wf hinv "Procedure" hcm
    subst hrfs
    exact wfResource_Procedure hwf hty
  refine pyOkAnd_bind2 (fun _ => True)
    (pyOkAnd_ite _ (fun hc => ?_) (fun _ => ⟨[], rfl, trivial⟩))
    (fun sectionsEncounter _ => ?_)
  · refine pyOkAnd_bind2 (fun _ => True)
      (build_encounters_summary_ok _ maxItems ?_) (fun s _ => ⟨_, rfl, trivial⟩)
    intro c hcm
    obtain ⟨hwf, rfs, hrfs, hty⟩ := bucket_wf hinv "Encounter" hcm
    subst hrfs
    exact wfResource_Encounter hwf hty
  refine pyOkAnd_bind2 (fun _ => True)
    (pyOkAnd_ite _ (fun hc => ?_) (fun _ => ⟨[], rfl, trivial⟩))
    (fun sectionsImmunization _ => ?_)
  · refine pyOkAnd_bind2 (fun _ => True)
      (build_immunizations_summary_ok _ maxItems ?_) (fun s _ => ⟨_, rfl, trivial⟩)
    intro c hcm
    obtain ⟨hwf, rfs, hrfs, hty⟩ := bucket_wf hinv "Immunization" hcm
    subst hrfs
    exact wfResource_Immunization hwf hty
  exact ⟨_, rfl, trivial⟩

/-- The compact active-condition guard succeeds on well-shaped
conditions. -/
theorem compactCondActive_ok {c : Json} (h : wfCondition c = true) :
    ∃ b, compactCondActive c = Except.ok b := by
  obtain ⟨cfs, rfl⟩ := wfCondition_obj h
  simp only [wfCondition, Bool.and_eq_true] at h
  obtain ⟨⟨⟨hcode, hcs⟩, hon⟩, hrec⟩ := h
  have hstep : pyOkAnd (compactCondActive (.obj cfs)) (fun _ => True) := by
    unfold compactCondActive
    refine pyOkAnd_bind2 _ (getD_wf (.obj []) hcs rfl) (fun cs hcls => ?_)
    obtain ⟨csfs, rfl⟩ := wfClinicalStatus_obj hcls
    simp only [wfClinicalStatus] at hcls
    refine pyOkAnd_bind2
      (fun v => v = (lookupField csfs "coding").getD (.arr [Json.obj []]))
      ⟨_, getD_obj csfs "coding" (.arr [Json.obj []]), rfl⟩
      (fun codings hcc => ?_)
    cases hF : lookupField csfs "coding" with
    | none =>
      rw [hF, Option.getD_none] at hcc
      subst hcc
      exact ⟨_, rfl, trivial⟩
    | some cod =>
      have hwf := fieldWf_some hcls hF
      rw [hF, Option.getD_some] at hcc
      subst hcc
      cases codings with
      | arr xs =>
        cases xs with
        | nil => simp [wfStatusCoding] at hwf
        | cons x xs =>
          refine pyOkAnd_bind2 (fun v => v = x) ⟨x, index_cons x xs, rfl⟩
            (fun c0 hc0 => ?_)
          subst hc0
          simp only [wfStatusCoding, List.all_cons, Bool.and_eq_true] at hwf
          obtain ⟨hx, _⟩ := hwf
          cases c0 with
          | obj efs =>
            refine pyOkAnd_bind2 (fun _ => True) ⟨_, getN_obj efs "code", trivial⟩
              (fun code _ => ?_)
            exact ⟨_, rfl, trivial⟩
          | null => simp at hx
          | bool b => simp at hx
          | num n => simp at hx
          | str s => simp at hx
          | arr ys => simp at hx
      | null => simp [wfStatusCoding] at hwf
      | bool b => simp [wfStatusCoding] at hwf
      | num n => simp [wfStatusCoding] at hwf
      | str s => simp [wfStatusCoding] at hwf
      | obj gfs => simp [wfStatusCoding] at hwf
  obtain ⟨b, hb, _⟩ := hstep
  exact ⟨b, hb⟩

/-- The compact condition-name body returns a string-like value on
well-shaped conditions. -/
theorem compactCondName_ok {c : Json} (h : wfCondition c = true) :
    pyOkAnd (compactCondName c) (fun v => wfStrLike v = true) := by
  obtain ⟨cfs, rfl⟩ := wfCondition_obj h
  simp only [wfCondition, Bool.and_eq_true] at h
  obtain ⟨⟨⟨hcode, hcs⟩, hon⟩, hrec⟩ := h
  unfold compactCondName
  refine pyOkAnd_bind2 _ (getD_wf (.obj []) hcode rfl) (fun code hcd => ?_)
  refine pyOkAnd_bind2 _ (getD_wf (.obj []) hcode rfl) (fun code2 hcd2 => ?_)
  obtain ⟨gfs, rfl⟩ := wfCC_obj hcd
  obtain ⟨gfs2, rfl⟩ := wfCC_obj hcd2
  exact pyOrM_okAnd (wfCC_text hcd) (get_first_display_ok hcd2)

/-- The compact active-medication guard succeeds on well-shaped
medication requests. -/
theorem compactMedActive_ok {m : Json} (h : wfMedication m = true) :
    ∃ b, compactMedActive m = Except.ok b := by
  obtain ⟨mfs, rfl⟩ := wfMedication_obj h
  have hstep : pyOkAnd (compactMedActive (.obj mfs)) (fun _ => True) := by
    unfold compactMedActive
    refine pyOkAnd_bind2 (fun _ => True) ⟨_, getN_obj mfs "status", trivial⟩
      (fun status _ => ?_)
    exact ⟨_, rfl, trivial⟩
  obtain ⟨b, hb, _⟩ := hstep
  exact ⟨b, hb⟩

/-- The compact medication-name body returns a string-like value on
well-shaped medication requests. -/
theorem compactMedName_ok {m : Json} (h : wfMedication m = true) :
    pyOkAnd (compactMedName m) (fun v => wfStrLike v = true) := by
  obtain ⟨mfs, rfl⟩ := wfMedication_obj h
  simp only [wfMedication, Bool.and_eq_true] at h
  obtain ⟨⟨hmcc, hstat⟩, hauth⟩ := h
  unfold compactMedName
  refine pyOkAnd_bind2 _ (getD_wf (.obj []) hmcc rfl) (fun mcc hcd => ?_)
  refine pyOkAnd_bind2 _ (getD_wf (.obj []) hmcc rfl) (fun mcc2 hcd2 => ?_)
  obtain ⟨gfs, rfl⟩ := wfCC_obj hcd
  obtain ⟨gfs2, rfl⟩ := wfCC_obj hcd2
  exact pyOrM_okAnd (wfCC_text hcd) (get_first_display_ok hcd2)

/-- The compact vital-signs guard succeeds on well-shaped
observations. -/
theorem compactVital_ok {o : Json} (h : wfObservation o = true) :
    ∃ b, compactVital o = Except.ok b := by
  obtain ⟨ofs, rfl⟩ := wfObservation_obj h
  simp only [wfObservation, Bool.and_eq_true] at h
  obtain ⟨⟨⟨⟨⟨⟨hcat, hcode⟩, hvq⟩, hvcc⟩, hcomp⟩, heff⟩, hiss⟩ := h
  have hstep : pyOkAnd (compactVital (.obj ofs)) (fun _ => True) := by
    unfold compactVital
    refine pyOkAnd_bind2 _ (getD_wf (.arr []) hcat rfl) (fun cats hcats => ?_)
    cases cats with
    | arr xs =>
      refine pyOkAnd_bind2 (fun v => v = xs) ⟨xs, rfl, rfl⟩
        (fun catList hcl => ?_)
      subst hcl
      have hany : ∃ b, anyPy (fun c => do
          let codings ← c.getD "coding" (.arr [Json.obj []])
          let c0 ← codings.index 0
          let code ← c0.getN "code"
          pure (code.beq (.str "vital-signs"))) catList = Except.ok b := by
        apply anyPy_ok
        intro x hx
        have hxwf : wfCategoryEntry x = true :=
          List.all_eq_true.mp (by simpa using hcats) x hx
        obtain ⟨xfs, rfl⟩ := wfCategoryEntry_obj hxwf
        simp only [wfCategoryEntry] at hxwf
        have hstep2 : pyOkAnd (do
            let codings ← Json.getD (.obj xfs) "coding" (.arr [Json.obj []])
            let c0 ← codings.index 0
            let code ← c0.getN "code"
            pure (code.beq (.str "vital-signs")) : Py Bool) (fun _ => True) := by
          refine pyOkAnd_bind2
            (fun v => v = (lookupField xfs "coding").getD (.arr [Json.obj []]))
            ⟨_, getD_obj xfs "coding" (.arr [Json.obj []]), rfl⟩
            (fun codings hcc => ?_)
          cases hF : lookupField xfs "coding" with
          | none =>
            rw [hF, Option.getD_none] at hcc
            subst hcc
            exact ⟨_, rfl, trivial⟩
          | some cod =>
            have hwf := fieldWf_some hxwf hF
            rw [hF, Option.getD_some] at hcc
            subst hcc
            cases codings with
            | arr ys =>
              cases ys with
              | nil => simp [wfCatCoding] at hwf
              | cons y ys =>
                refine pyOkAnd_bind2 (fun v => v = y) ⟨y, index_cons y ys, rfl⟩
                  (fun c0 hc0 => ?_)
                subst hc0
                simp only [wfCatCoding, List.all_cons, Bool.and_eq_true] at hwf
                obtain ⟨hy, _⟩ := hwf
                cases c0 with
                | obj efs =>
                  refine pyOkAnd_bind2 (fun _ => True)
                    ⟨_, getN_obj efs "code", trivial⟩ (fun code _ => ?_)
                  exact ⟨_, rfl, trivial⟩
                | null => simp at hy
                | bool b => simp at hy
                | num n => simp at hy
                | str s => simp at hy
                | arr zs => simp at hy
            | null => simp [wfCatCoding] at hwf
            | bool b => simp [wfCatCoding] at hwf
            | num n => simp [wfCatCoding] at hwf
            | str s => simp [wfCatCoding] at hwf
            | obj gfs => simp [wfCatCoding] at hwf
        obtain ⟨b, hb, _⟩ := hstep2
        exact ⟨b, hb⟩
      obtain ⟨b, hb⟩ := hany
      exact ⟨b, hb, trivial⟩
    | null => simp at hcats
    | bool b => simp at hcats
    | num n => simp at hcats
    | str s => simp at hcats
    | obj gfs => simp at hcats
  obtain ⟨b, hb, _⟩ := hstep
  exact ⟨b, hb⟩

/-- Vital-sign rows of the compact context succeed on well-shaped
observations. -/
theorem vitalObsLines_ok : ∀ l : List Json,
    (∀ o ∈ l, wfObservation o = true) →
    pyOkAnd (vitalObsLines l) (fun _ => True) := by
  intro l
  induction l with
  | nil => intro _; exact ⟨[], rfl, trivial⟩
  | cons obs rest ih =>
    intro h
    have hoFull := h obs (List.mem_cons_self _ _)
    obtain ⟨ofs, rfl⟩ := wfObservation_obj hoFull
    have ho := hoFull
    simp only [wfObservation, Bool.and_eq_true] at ho
    obtain ⟨⟨⟨⟨⟨⟨hcat, hcode⟩, hvq⟩, hvcc⟩, hcomp⟩, heff⟩, hiss⟩ := ho
    have hrest : ∀ x ∈ rest, wfObservation x = true :=
      fun x hx => h x (List.mem_cons_of_mem _ hx)
    simp only [vitalObsLines]
    refine pyOkAnd_bind2 _ (getD_wf (.obj []) hcode rfl) (fun code hcd => ?_)
    refine pyOkAnd_bind2 _ (getD_wf (.obj []) hcode rfl) (fun code2 hcd2 => ?_)
    obtain ⟨gfs, rfl⟩ := wfCC_obj hcd
    obtain ⟨gfs2, rfl⟩ := wfCC_obj hcd2
    refine pyOkAnd_bind2 (fun _ => True) (pyOkAnd_imp
      (pyOrM_okAnd (wfCC_text hcd) (get_first_display_ok hcd2))
      (fun _ _ => trivial)) (fun name _ => ?_)
    refine pyOkAnd_bind2 (fun _ => True) (extract_observation_value_ok hoFull)
      (fun value _ => ?_)
    refine pyOkAnd_bind2 (fun _ => True) (ih hrest) (fun more _ => ?_)
    refine pyOkAnd_ite _ (fun _ => ⟨_, rfl, trivial⟩) (fun _ => ⟨_, rfl, trivial⟩)

/-- The compact patient context builder succeeds on well-shaped
bundles. -/
theorem build_compact_context_ok (today : Date)
    {bfs : List (String × Json)} (h : wfBundle (.obj bfs) = true) :
    pyOkAnd (build_compact_context today (.obj bfs)) (fun _ => True) := by
  unfold build_compact_context
  refine pyOkAnd_bind2 _ (parse_resources_ok h) (fun resources hinv => ?_)
  refine pyOkAnd_bind2 (fun _ => True)
    (pyOkAnd_ite _ (fun hpt => ?_) (fun _ => ⟨[], rfl, trivial⟩))
    (fun patientLines _ => ?_)
  · obtain ⟨fs2, heq, hwf, hty⟩ := firstResource_wf hinv "Patient" hpt
    rw [heq]
    have hp := wfResource_Patient hwf hty
    simp only [wfPatient, Bool.and_eq_true] at hp
    obtain ⟨⟨⟨hname, hgender⟩, hmar⟩, haddr⟩ := hp
    refine pyOkAnd_bind2 _ (getD_wf (.arr []) hname rfl) (fun names hn => ?_)
    refine pyOkAnd_bind2 (fun _ => True) ?_ (fun name _ => ?_)
    · refine pyOkAnd_ite _ (fun ht => ?_) (fun _ => ⟨"", rfl, trivial⟩)
      cases names with
      | arr xs =>
        cases xs with
        | nil => simp [Json.truthy] at ht
        | cons x xs =>
          refine pyOkAnd_bind2 (fun v => v = x) ⟨x, index_cons x xs, rfl⟩
            (fun n0 hn0 => ?_)
          subst hn0
          simp only [List.all_cons, Bool.and_eq_true] at hn
          obtain ⟨hx, _⟩ := hn
          cases n0 with
          | obj nfs =>
            simp only [wfName, Bool.and_eq_true] at hx
            obtain ⟨hgiven, hfam⟩ := hx
            refine pyOkAnd_bind2 _ (getD_wf (.arr []) hgiven rfl)
              (fun givenJ hg => ?_)
            cases givenJ with
            | arr ys =>
              obtain ⟨j, hj⟩ := pyJoin_ok " " ys (fun e he =>
                List.all_eq_true.mp (by simpa using hg) e he)
              refine pyOkAnd_bind2 (fun _ => True) ⟨j, hj, trivial⟩
                (fun given _ => ?_)
              refine pyOkAnd_bind2 _ (getD_wf (.str "") hfam rfl)
                (fun famJ hfj => ?_)
              obtain ⟨fam, hfamv⟩ := jsonAsStr_ok hfj
              refine pyOkAnd_bind2 (fun _ => True) ⟨fam, hfamv, trivial⟩
                (fun fam2 _ => ?_)
              exact ⟨_, rfl, trivial⟩
            | null => simp at hg
            | bool b => simp at hg
            | num n => simp at hg
            | str s => simp at hg
            | obj gfs => simp at hg
          | null => simp [wfName] at hx
          | bool b => simp [wfName] at hx
          | num n => simp [wfName] at hx
          | str s => simp [wfName] at hx
          | arr ys => simp [wfName] at hx
      | null => simp at hn
      | bool b => simp at hn
      | num n => simp at hn
      | str s => simp at hn
      | obj gfs => simp at hn
    refine pyOkAnd_bind2 _ (getN_wf hgender rfl) (fun genderJ hg => ?_)
    obtain ⟨gv, hgv⟩ := genderAbbrev_ok (by simpa using hg)
    refine pyOkAnd_bind2 (fun _ => True) ⟨gv, hgv, trivial⟩ (fun gender _ => ?_)
    refine pyOkAnd_bind2 (fun _ => True)
      ⟨_, getD_obj fs2 "birthDate" (.str ""), trivial⟩ (fun birthJ _ => ?_)
    exact ⟨_, rfl, trivial⟩
  have hcond : ∀ c ∈ (resLookup resources "Condition").getD [],
      wfCondition c = true := by
    intro c hcm
    obtain ⟨hwfc, rfs, hrfs, htyc⟩ := bucket_wf hinv "Condition" hcm
    subst hrfs
    exact wfResource_Condition hwfc htyc
  refine pyOkAnd_bind2 (fun ys => ∀ y ∈ ys,
      y ∈ (resLookup resources "Condition").getD [])
    (filterPy_okAnd _ (fun c hcm => compactCondActive_ok (hcond c hcm)))
    (fun active hact => ?_)
  refine pyOkAnd_bind2 (fun _ => True)
    (pyOkAnd_ite _ (fun hne => ?_) (fun _ => ⟨[], rfl, trivial⟩))
    (fun conditionLines _ => ?_)
  · refine pyOkAnd_bind2 (fun ys => ∀ y ∈ ys, wfStrLike y = true)
      (mapPy_okAnd _ (fun c hcm => compactCondName_ok
        (hcond c (hact c (List.mem_of_mem_take hcm)))))
      (fun cond_names hcn => ?_)
    refine pyOkAnd_ite _ (fun hne2 => ?_) (fun _ => ⟨[], rfl, trivial⟩)
    obtain ⟨js, hjs⟩ := pyJoin_ok ", " (cond_names.filter Json.truthy)
      (fun e he => wfStrLike_truthy (hcn e (List.mem_of_mem_filter he))
        (List.of_mem_filter he))
    refine pyOkAnd_bind2 (fun _ => True) ⟨js, hjs, trivial⟩ (fun joined _ => ?_)
    exact ⟨_, rfl, trivial⟩
  have hmed : ∀ m ∈ (resLookup resources "MedicationRequest").getD [],
      wfMedication m = true := by
    intro m hcm
    obtain ⟨hwfm, rfs, hrfs, htym⟩ := bucket_wf hinv "MedicationRequest" hcm
    subst hrfs
    exact wfResource_MedicationRequest hwfm htym
  refine pyOkAnd_bind2 (fun ys => ∀ y ∈ ys,
      y ∈ (resLookup resources "MedicationRequest").getD [])
    (filterPy_okAnd _ (fun m hcm => compactMedActive_ok (hmed m hcm)))
    (fun active_meds hactm => ?_)
  refine pyOkAnd_bind2 (fun _ => True)
    (pyOkAnd_ite _ (fun hne => ?_) (fun _ => ⟨[], rfl, trivial⟩))
    (fun medicationLines _ => ?_)
  · refine pyOkAnd_bind2 (fun ys => ∀ y ∈ ys, wfStrLike y = true)
      (mapPy_okAnd _ (fun m hcm => compactMedName_ok
        (hmed m (hactm m (List.mem_of_mem_take hcm)))))
      (fun med_names hmn => ?_)
    refine pyOkAnd_ite _ (fun hne2 => ?_) (fun _ => ⟨[], rfl, trivial⟩)
    obtain ⟨js, hjs⟩ := pyJoin_ok ", " (med_names.filter Json.truthy)
      (fun e he => wfStrLike_truthy (hmn e (List.mem_of_mem_filter he))
        (List.of_mem_filter he))
    refine pyOkAnd_bind2 (fun _ => True) ⟨js, hjs, trivial⟩ (fun joined _ => ?_)
    exact ⟨_, rfl, trivial⟩
  have hobs : ∀ o ∈ (resLookup resources "Observation").getD [],
      wfObservation o = true := by
    intro o hcm
    obtain ⟨hwfo, rfs, hrfs, htyo⟩ := bucket_wf hinv "Observation" hcm
    subst hrfs
    exact wfResource_Observation hwfo htyo
  refine pyOkAnd_bind2 (fun ys => ∀ y ∈ ys,
      y ∈ (resLookup resources "Observation").getD [])
    (filterPy_okAnd _ (fun o hcm => compactVital_ok (hobs o hcm)))
    (fun vital_all hva => ?_)
  refine pyOkAnd_bind2 (fun _ => True)
    (pyOkAnd_ite _ (fun hne => ?_) (fun _ => ⟨[], rfl, trivial⟩))
    (fun vitalLines _ => ?_)
  · refine pyOkAnd_bind2 (fun _ => True)
      (vitalObsLines_ok _ (fun o hcm => hobs o (hva o (List.mem_of_mem_take hcm))))
      (fun obs_strs _ => ?_)
    refine pyOkAnd_ite _ (fun _ => ⟨_, rfl, trivial⟩) (fun _ => ⟨[], rfl, trivial⟩)
  exact ⟨_, rfl, trivial⟩

/-- A well-shaped bundle is an object. -/
theorem wfBundle_obj {j : Json} (h : wfBundle j = true) : ∃ fs, j = .obj fs := by
  cases j with
  | obj fs => exact ⟨fs, rfl⟩
  | null => simp [wfBundle] at h
  | bool b => simp [wfBundle] at h
  | num n => simp [wfBundle] at h
  | str s => simp [wfBundle] at h
  | arr xs => simp [wfBundle] at h

/-- C4: the context builders are **not** total on arbitrary JSON — on a
non-dict bundle `_parse_resources` calls `bundle.get('entry', [])` on a
`str`, raising `AttributeError`, so both builders fail; this refutes the
claim's "any JSON-shaped input". -/
theorem C4_counterexample :
    (build_full_context 20 10 ⟨2024, 6, 14⟩ (Json.str "x")).isOk = false ∧
    (build_compact_context ⟨2024, 6, 14⟩ (Json.str "x")).isOk = false :=
  ⟨rfl, rfl⟩

/-- C4 (amended): on well-shaped FHIR bundles (`wfBundle`) both
`build_full_context` and `build_compact_context` succeed without any
failure mode; both are deterministic — pure functions of the bundle, the
truncation limits and the evaluation date, so two calls on the same
input are identical; and a bundle whose entry list is empty renders as
the empty text, every section being omitted. -/
theorem C4_context_total (maxObs maxItems : Nat) (today : Date) (b : Json)
    (h : wfBundle b = true) :
    ((build_full_context maxObs maxItems today b).isOk = true ∧
      (build_compact_context today b).isOk = true) ∧
    (build_full_context maxObs maxItems today b =
        build_full_context maxObs maxItems today b ∧
      build_compact_context today b = build_compact_context today b) ∧
    build_full_context maxObs maxItems today (.obj [("entry", .arr [])]) =
      .ok "" := by
  obtain ⟨bfs, rfl⟩ := wfBundle_obj h
  obtain ⟨v1, hv1, _⟩ := build_full_context_ok maxObs maxItems today h
  obtain ⟨v2, hv2, _⟩ := build_compact_context_ok today h
  refine ⟨⟨?_, ?_⟩, ⟨rfl, rfl⟩, rfl⟩
  · rw [hv1]
    rfl
  · rw [hv2]
    rfl

/-- Closed witness for the amended C4 theorem on a bundle holding one
resource of every kind. -/
theorem C4_context_total_witness :
    wfBundle richBundle = true ∧
    (build_full_context 20 10 ⟨2024, 6, 14⟩ richBundle).isOk = true ∧
    (build_compact_context ⟨2024, 6, 14⟩ richBundle).isOk = true :=
  ⟨rfl, (C4_context_total 20 10 ⟨2024, 6, 14⟩ richBundle rfl).1.1,
    (C4_context_total 20 10 ⟨2024, 6, 14⟩ richBundle rfl).1.2⟩

/-- A slot whose processing raises produces the uncaught exception at
`_generate_example` granularity. -/
theorem generate_example_raises (cfg : DatasetConfig) (provider : Provider)
    (uc fc cc pid pname m : String) (stats : DatasetStats) :
    generate_example cfg provider uc fc cc pid pname (.raises m) stats
      = Except.error m := rfl

/-- One all-raising slot of the example loop: the failure is caught, the
failure counter and the error log both grow, and the loop moves on. -/
theorem runPatientSlots_raises_step (cfg : DatasetConfig) (provider : Provider)
    (shuffles : Nat → List String) (m fc cc pid pname : String)
    (k slotIdx : Nat) (examples : List GeneratedExample) (stats : DatasetStats) :
    runPatientSlots cfg provider shuffles (fun _ => .raises m) fc cc pid pname
      (k + 1) slotIdx examples stats
    = runPatientSlots cfg provider shuffles (fun _ => .raises m) fc cc pid pname
      k (slotIdx + 1) examples
      { stats with
        total_examples := stats.total_examples + 1,
        failed_examples := stats.failed_examples + 1,
        errors := stats.errors ++ ["Patient " ++ pid ++ ": " ++ m] } := rfl

/-- Under an all-raising behavior the in-memory error log grows by one
message per failed slot — nothing is dropped — and every failure is
counted. -/
theorem runPatientSlots_raises (cfg : DatasetConfig) (provider : Provider)
    (shuffles : Nat → List String) (m fc cc pid pname : String) :
    ∀ (n slotIdx : Nat) (examples : List GeneratedExample)
      (stats : DatasetStats),
      (runPatientSlots cfg provider shuffles (fun _ => .raises m) fc cc pid
        pname n slotIdx examples stats).2.1.errors.length
        = stats.errors.length + n ∧
      (runPatientSlots cfg provider shuffles (fun _ => .raises m) fc cc pid
        pname n slotIdx examples stats).2.1.failed_examples
        = stats.failed_examples + n := by
  intro n
  induction n with
  | zero =>
    intro slotIdx examples stats
    exact ⟨rfl, rfl⟩
  | succ k ih =>
    intro slotIdx examples stats
    rw [runPatientSlots_raises_step]
    constructor
    · rw [(ih (slotIdx + 1) examples _).1]
      simp [List.length_append]
      omega
    · rw [(ih (slotIdx + 1) examples _).2]
      simp
      omega

/-- C5 (amended): the statistics query reports only the first 10 logged
error messages (`errors[:10]`), but the in-memory log itself is
unbounded — during a run every caught failure appends its message, so
after `n` failing slots the log holds `n` more messages than before,
while each failure is also counted in `failed_examples`. -/
theorem C5_error_log (cfg : DatasetConfig) (stats : DatasetStats)
    (provider : Provider) (shuffles : Nat → List String)
    (m fc cc pid pname : String) (n slotIdx : Nat)
    (examples : List GeneratedExample) :
    (get_statistics cfg stats).errors = stats.errors.take 10 ∧
    (get_statistics cfg stats).errors.length ≤ 10 ∧
    (runPatientSlots cfg provider shuffles (fun _ => .raises m) fc cc pid
      pname n slotIdx examples stats).2.1.errors.length
      = stats.errors.length + n ∧
    (runPatientSlots cfg provider shuffles (fun _ => .raises m) fc cc pid
      pname n slotIdx examples stats).2.1.failed_examples
      = stats.failed_examples + n := by
  refine ⟨rfl, ?_, (runPatientSlots_raises cfg provider shuffles m fc cc pid
    pname n slotIdx examples stats).1,
    (runPatientSlots_raises cfg provider shuffles m fc cc pid
    pname n slotIdx examples stats).2⟩
  show (stats.errors.take 10).length ≤ 10
  simp [List.length_take]

/-- C5: the in-memory error log is **not** capped at 10 — eleven failing
slots leave eleven messages in `stats.errors` (none is dropped), even
though the statistics query reports only 10; all eleven failures are
counted. -/
theorem C5_counterexample :
    ¬((runPatientSlots { use_cases := ["clinical_summary"], api_key := "k" }
        .anthropic (fun _ => ["clinical_summary"]) (fun _ => .raises "boom")
        "fc" "cc" "p1" "Jean" 11 0 [] {}).2.1.errors.length ≤ 10) ∧
    (get_statistics { use_cases := ["clinical_summary"], api_key := "k" }
      (runPatientSlots { use_cases := ["clinical_summary"], api_key := "k" }
        .anthropic (fun _ => ["clinical_summary"]) (fun _ => .raises "boom")
        "fc" "cc" "p1" "Jean" 11 0 [] {}).2.1).errors.length = 10 ∧
    (runPatientSlots { use_cases := ["clinical_summary"], api_key := "k" }
        .anthropic (fun _ => ["clinical_summary"]) (fun _ => .raises "boom")
        "fc" "cc" "p1" "Jean" 11 0 [] {}).2.1.failed_examples = 11 := by
  refine ⟨?_, ?_, ?_⟩ <;> decide

/-- `_generate_example` never touches the three slot counters: any
successful return carries them unchanged. -/
theorem generate_example_counts {cfg : DatasetConfig} {provider : Provider}
    {uc fc cc pid pname : String} {b : SlotBehavior} {stats : DatasetStats}
    {res : Option GeneratedExample × DatasetStats}
    (h : generate_example cfg provider uc fc cc pid pname b stats
      = Except.ok res) :
    res.2.total_examples = stats.total_examples ∧
    res.2.successful_examples = stats.successful_examples ∧
    res.2.failed_examples = stats.failed_examples := by
  cases b with
  | raises m =>
    rw [generate_example_raises] at h
    simp at h
  | runs vc ii vr orr =>
    cases hgt : get_template uc with
    | error e =>
      unfold generate_example at h
      rw [hgt] at h
      have h2 : (Except.error e : Py (Option GeneratedExample × DatasetStats))
          = Except.ok res := h
      simp at h2
    | ok t =>
      unfold generate_example at h
      rw [hgt] at h
      simp only [pyBind_ok] at h
      repeat' split at h
      all_goals
        injection h with h2
      all_goals
        subst h2
      all_goals
        exact ⟨rfl, rfl, rfl⟩

/-- The per-patient slot loop attempts every slot exactly once: the total
counter advances by the slot count, successes and failures partition the
slots, and the accumulated example list grows by the success count. -/
theorem runPatientSlots_counts (cfg : DatasetConfig) (provider : Provider)
    (shuffles : Nat → List String) (behavior : Nat → SlotBehavior)
    (fc cc pid pname : String) :
    ∀ (n slotIdx : Nat) (examples : List GeneratedExample)
      (stats : DatasetStats),
      (runPatientSlots cfg provider shuffles behavior fc cc pid pname n
        slotIdx examples stats).2.1.total_examples
        = stats.total_examples + n ∧
      (runPatientSlots cfg provider shuffles behavior fc cc pid pname n
        slotIdx examples stats).2.1.successful_examples
        + (runPatientSlots cfg provider shuffles behavior fc cc pid pname n
          slotIdx examples stats).2.1.failed_examples
        = stats.successful_examples + stats.failed_examples + n ∧
      (runPatientSlots cfg provider shuffles behavior fc cc pid pname n
        slotIdx examples stats).1.length + stats.successful_examples
        = examples.length + (runPatientSlots cfg provider shuffles behavior
          fc cc pid pname n slotIdx examples stats).2.1.successful_examples := by
  intro n
  induction n with
  | zero =>
    intro slotIdx examples stats
    exact ⟨rfl, rfl, rfl⟩
  | succ k ih =>
    intro slotIdx examples stats
    simp only [runPatientSlots]
    cases hg : generate_example cfg provider
        (use_case_at cfg.use_cases shuffles slotIdx) fc cc pid pname
        (behavior slotIdx) stats with
    | ok res =>
      obtain ⟨o, stats2⟩ := res
      obtain ⟨hc1, hc2, hc3⟩ := generate_example_counts hg
      cases o with
      | some ex =>
        simp only [hg]
        obtain ⟨ih1, ih2, ih3⟩ := ih (slotIdx + 1) (examples ++ [ex])
          { stats2 with
            total_examples := stats2.total_examples + 1,
            successful_examples := stats2.successful_examples + 1,
            examples_by_use_case := countIncr stats2.examples_by_use_case
              (use_case_at cfg.use_cases shuffles slotIdx) }
        simp only [List.length_append] at ih3
        simp at ih1 ih2 ih3 hc1 hc2 hc3
        refine ⟨?_, ?_, ?_⟩ <;> omega
      | none =>
        simp only [hg]
        obtain ⟨ih1, ih2, ih3⟩ := ih (slotIdx + 1) examples
          { stats2 with
            total_examples := stats2.total_examples + 1,
            failed_examples := stats2.failed_examples + 1 }
        simp at ih1 ih2 ih3 hc1 hc2 hc3
        refine ⟨?_, ?_, ?_⟩ <;> omega
    | error e =>
      simp only [hg]
      obtain ⟨ih1, ih2, ih3⟩ := ih (slotIdx + 1) examples
        { stats with
          total_examples := stats.total_examples + 1,
          failed_examples := stats.failed_examples + 1,
          errors := stats.errors ++ ["Patient " ++ pid ++ ": " ++ e] }
      simp at ih1 ih2 ih3
      refine ⟨?_, ?_, ?_⟩ <;> omega

/-- The first-Patient scan of `_extract_patient_info` succeeds on
well-shaped entries. -/
theorem extractFromEntries_ok : ∀ l : List Json,
    (∀ e ∈ l, wfEntry e = true) →
    pyOkAnd (extractFromEntries l) (fun _ => True) := by
  intro l
  induction l with
  | nil => intro _; exact ⟨none, rfl, trivial⟩
  | cons entry rest ih =>
    intro h
    have he := h entry (List.mem_cons_self _ _)
    obtain ⟨efs, rfl⟩ := wfEntry_obj he
    have hrest : ∀ e ∈ rest, wfEntry e = true :=
      fun e hx => h e (List.mem_cons_of_mem _ hx)
    simp only [extractFromEntries]
    refine pyOkAnd_bind2 (fun v => v = (lookupField efs "resource").getD (.obj []))
      ⟨_, getD_obj efs "resource" (.obj []), rfl⟩ (fun resource hres => ?_)
    have hwfres : wfResource resource = true ∨ resource = .obj [] := by
      cases hF : lookupField efs "resource" with
      | none =>
        right
        rw [hF, Option.getD_none] at hres
        exact hres
      | some r =>
        left
        rw [hF, Option.getD_some] at hres
        subst hres
        simp_all [wfEntry]
    obtain ⟨rfs, hrfs⟩ : ∃ rfs, resource = .obj rfs := by
      rcases hwfres with hx | hx
      · exact wfResource_obj hx
      · exact ⟨[], hx⟩
    subst hrfs
    refine pyOkAnd_bind2
      (fun v => v = (lookupField rfs "resourceType").getD .null)
      ⟨_, getN_obj rfs "resourceType", rfl⟩ (fun rtype hrt => ?_)
    subst hrt
    by_cases hb : ((lookupField rfs "resourceType").getD .null).beq
        (.str "Patient") = true
    · rw [if_pos hb]
      have hrtP := beq_str_right hb
      have hlk : lookupField rfs "resourceType" = some (.str "Patient") := by
        cases hF : lookupField rfs "resourceType" with
        | none =>
          rw [hF, Option.getD_none] at hrtP
          exact absurd hrtP (by simp)
        | some v =>
          rw [hF, Option.getD_some] at hrtP
          rw [hrtP]
      have hR : wfResource (.obj rfs) = true := by
        rcases hwfres with hx | hx
        · exact hx
        · exfalso
          injection hx with h2
          subst h2
          simp [lookupField] at hrtP
      have hP := wfResource_Patient hR hlk
      simp only [wfPatient, Bool.and_eq_true] at hP
      obtain ⟨⟨⟨hname, hgender⟩, hmar⟩, haddr⟩ := hP
      refine pyOkAnd_bind2 _ (getD_wf (.arr []) hname rfl) (fun names hn => ?_)
      refine pyOkAnd_bind2 (fun _ => True) ?_ (fun name _ => ?_)
      · refine pyOkAnd_ite _ (fun ht => ?_) (fun _ => ⟨"", rfl, trivial⟩)
        cases names with
        | arr xs =>
          cases xs with
          | nil => simp [Json.truthy] at ht
          | cons x xs =>
            refine pyOkAnd_bind2 (fun v => v = x) ⟨x, index_cons x xs, rfl⟩
              (fun nd hnd => ?_)
            subst hnd
            simp only [List.all_cons, Bool.and_eq_true] at hn
            obtain ⟨hx, _⟩ := hn
            cases nd with
            | obj nfs =>
              simp only [wfName, Bool.and_eq_true] at hx
              obtain ⟨hgiven, hfam⟩ := hx
              refine pyOkAnd_bind2 _ (getD_wf (.arr []) hgiven rfl)
                (fun givenJ hg => ?_)
              cases givenJ with
              | arr ys =>
                obtain ⟨j, hj⟩ := pyJoin_ok " " ys (fun e he =>
                  List.all_eq_true.mp (by simpa using hg) e he)
                refine pyOkAnd_bind2 (fun _ => True) ⟨j, hj, trivial⟩
                  (fun given _ => ?_)
                refine pyOkAnd_bind2 (fun _ => True)
                  ⟨_, getD_obj nfs "family" (.str ""), trivial⟩
                  (fun family _ => ?_)
                exact ⟨_, rfl, trivial⟩
              | null => simp at hg
              | bool b => simp at hg
              | num n => simp at hg
              | str s => simp at hg
              | obj gfs => simp at hg
            | null => simp [wfName] at hx
            | bool b => simp [wfName] at hx
            | num n => simp [wfName] at hx
            | str s => simp [wfName] at hx
            | arr ys => simp [wfName] at hx
        | null => simp at hn
        | bool b => simp at hn
        | num n => simp at hn
        | str s => simp at hn
        | obj gfs => simp at hn
      refine pyOkAnd_bind2 (fun _ => True)
        ⟨_, getD_obj rfs "id" (.str ""), trivial⟩ (fun idJ _ => ?_)
      exact ⟨_, rfl, trivial⟩
    · rw [if_neg hb]
      exact ih hrest

/-- `_extract_patient_info` succeeds on well-shaped bundles. -/
theorem extract_patient_info_ok {bfs : List (String × Json)}
    (h : wfBundle (.obj bfs) = true) :
    pyOkAnd (extract_patient_info (.obj bfs)) (fun _ => True) := by
  have h2 := h
  simp only [wfBundle] at h2
  unfold extract_patient_info
  refine pyOkAnd_bind2 _ (getD_wf (.arr []) h2 rfl) (fun entries hent => ?_)
  cases entries with
  | arr xs =>
    refine pyOkAnd_bind2 (fun v => v = xs) ⟨xs, rfl, rfl⟩ (fun entryList hel => ?_)
    subst hel
    refine pyOkAnd_bind2 (fun _ => True) (extractFromEntries_ok entryList
      (fun e he2 => List.all_eq_true.mp (by simpa using hent) e he2))
      (fun r _ => ?_)
    exact ⟨_, rfl, trivial⟩
  | null => simp at hent
  | bool b => simp at hent
  | num n => simp at hent
  | str s => simp at hent
  | obj gfs => simp at hent

/-- The patient loop of `build_dataset` succeeds on well-shaped bundles
and its counters track the attempted slots exactly. -/
theorem buildDatasetGo_ok (cfg : DatasetConfig) (provider : Provider)
    (shuffles : Nat → List String) (behavior : Nat → SlotBehavior)
    (today : Date) :
    ∀ (l : List Json) (slotIdx : Nat) (examples : List GeneratedExample)
      (stats : DatasetStats),
      (∀ b ∈ l, wfBundle b = true) →
      pyOkAnd (buildDatasetGo cfg provider shuffles behavior today l slotIdx
        examples stats)
        (fun r =>
          r.2.1.total_examples
            = stats.total_examples + l.length * cfg.examples_per_patient ∧
          r.2.1.successful_examples + r.2.1.failed_examples
            = stats.successful_examples + stats.failed_examples
              + l.length * cfg.examples_per_patient ∧
          r.1.length + stats.successful_examples
            = examples.length + r.2.1.successful_examples) := by
  intro l
  induction l with
  | nil =>
    intro slotIdx examples stats _
    exact ⟨(examples, stats, slotIdx), rfl, by simp, by simp, rfl⟩
  | cons bundle rest ih =>
    intro slotIdx examples stats h
    have hb := h bundle (List.mem_cons_self _ _)
    obtain ⟨bfs, rfl⟩ := wfBundle_obj hb
    have hrest : ∀ b ∈ rest, wfBundle b = true :=
      fun b hx => h b (List.mem_cons_of_mem _ hx)
    simp only [buildDatasetGo]
    refine pyOkAnd_bind2 (fun _ => True) (extract_patient_info_ok hb)
      (fun info _ => ?_)
    obtain ⟨v1, hv1, _⟩ := build_full_context_ok 20 10 today hb
    refine pyOkAnd_bind2 (fun _ => True) ⟨v1, hv1, trivial⟩
      (fun full_context _ => ?_)
    obtain ⟨v2, hv2, _⟩ := build_compact_context_ok today hb
    refine pyOkAnd_bind2 (fun _ => True) ⟨v2, hv2, trivial⟩
      (fun compact_context _ => ?_)
    obtain ⟨rr, hrr, hpost⟩ := ih
      (runPatientSlots cfg provider shuffles behavior full_context
        compact_context info.1 info.2 cfg.examples_per_patient slotIdx
        examples stats).2.2
      (runPatientSlots cfg provider shuffles behavior full_context
        compact_context info.1 info.2 cfg.examples_per_patient slotIdx
        examples stats).1
      (runPatientSlots cfg provider shuffles behavior full_context
        compact_context info.1 info.2 cfg.examples_per_patient slotIdx
        examples stats).2.1
      hrest
    obtain ⟨p1, p2, p3⟩ := hpost
    obtain ⟨q1, q2, q3⟩ := runPatientSlots_counts cfg provider shuffles behavior
      full_context compact_context info.1 info.2 cfg.examples_per_patient
      slotIdx examples stats
    refine ⟨rr, hrr, ?_, ?_, ?_⟩
    · rw [List.length_cons, Nat.succ_mul]
      omega
    · rw [List.length_cons, Nat.succ_mul]
      omega
    · omega

/-- C1: `build_dataset` is **not** exception-safe against a bad patient —
patient-identity extraction and context building run outside the
per-example `try`, so a malformed bundle aborts the whole run before any
slot is attempted. -/
theorem C1_counterexample :
    (build_dataset { use_cases := ["clinical_summary"], api_key := "k" }
      .anthropic (fun _ => ["clinical_summary"]) (fun _ => .raises "x")
      ⟨2024, 6, 14⟩ [Json.str "x"]).isOk = false := rfl

/-- C1 (amended): on well-shaped bundles, for **every** LLM-client
behavior — failed responses or exceptions raised inside an example
slot — `build_dataset` returns normally, attempts every
(patient, slot) pair exactly once (`total_examples` is the slot count),
partitions the slots into successes and failures, and accumulates
exactly the successful examples. -/
theorem C1_build_dataset (cfg : DatasetConfig) (provider : Provider)
    (shuffles : Nat → List String) (behavior : Nat → SlotBehavior)
    (today : Date) (bundles : List Json)
    (h : ∀ b ∈ bundles, wfBundle b = true) :
    ∃ examples stats,
      build_dataset cfg provider shuffles behavior today bundles
        = .ok (examples, stats) ∧
      stats.total_examples = bundles.length * cfg.examples_per_patient ∧
      stats.total_examples
        = stats.successful_examples + stats.failed_examples ∧
      examples.length = stats.successful_examples := by
  obtain ⟨r, hr, p1, p2, p3⟩ := buildDatasetGo_ok cfg provider shuffles behavior
    today bundles 0 [] {} h
  simp at p1 p2 p3
  refine ⟨r.1, r.2.1, ?_, ?_, ?_, ?_⟩
  · unfold build_dataset
    rw [hr, pyBind_ok]
    rfl
  · omega
  · omega
  · omega

/-- Closed witness for the amended C1 theorem: one well-shaped bundle,
two slots, the first slot raising and the second failing at the
provider. -/
theorem C1_build_dataset_witness :
    (∀ b ∈ [sampleBundle], wfBundle b = true) ∧
    ∃ examples stats,
      build_dataset
        { use_cases := ["clinical_summary"], api_key := "k",
          examples_per_patient := 2 }
        .anthropic (fun _ => ["clinical_summary"])
        (fun i => if i = 0 then .raises "boom"
          else .runs false 0 (.exn "v") (.exn "w"))
        ⟨2024, 6, 14⟩ [sampleBundle] = .ok (examples, stats) ∧
      stats.total_examples = [sampleBundle].length * 2 ∧
      stats.total_examples
        = stats.successful_examples + stats.failed_examples ∧
      examples.length = stats.successful_examples := by
  refine ⟨?_, ?_⟩
  · intro b hb
    rcases List.mem_singleton.mp hb with rfl
    rfl
  · exact C1_build_dataset
      { use_cases := ["clinical_summary"], api_key := "k",
        examples_per_patient := 2 }
      .anthropic (fun _ => ["clinical_summary"])
      (fun i => if i = 0 then .raises "boom"
        else .runs false 0 (.exn "v") (.exn "w"))
      ⟨2024, 6, 14⟩ [sampleBundle]
      (fun b hb => by
        rcases List.mem_singleton.mp hb with rfl
        rfl)

end Theorems

end FhirDashboard
